import Mathlib

/-!
# E-voting backend: election lifecycle, vote ledger, key vault, token circulation

A shallow embedding of the controllers, middleware and ledger utilities of the
e-voting backend.  Handlers are state-passing functions: they take the answers
of the external collaborators (clock, settlement ledger, random source) as an
explicit environment argument, and they return the new persistent store, the
HTTP response and the list of ledger calls they issued.

Conventions
* JavaScript `Date` values are integers (milliseconds since the epoch).
* Buffers are lists of naturals below 256; JavaScript strings that the code
  parses are lists of characters (Unicode scalar values).
* The persistent store is an in-memory record store; it answers every query
  and enforces the unique index declared on vote records.
-/

namespace EVoting

/-! ## Buffers, hexadecimal and UTF-8 (the runtime primitives used by the vault) -/

/-- A buffer: a list of bytes, each a natural number below 256. -/
abbrev Bytes := List Nat

/-- One hexadecimal digit of `buf.toString('hex')` (lower case). -/
def hexDigit (n : Nat) : Char :=
  if n < 10 then Char.ofNat (48 + n) else Char.ofNat (87 + n)

/-- Value of a hexadecimal digit, upper or lower case; `none` for any other character. -/
def unhex (c : Char) : Option Nat :=
  if 48 ≤ c.toNat ∧ c.toNat ≤ 57 then some (c.toNat - 48)
  else if 97 ≤ c.toNat ∧ c.toNat ≤ 102 then some (c.toNat - 87)
  else if 65 ≤ c.toNat ∧ c.toNat ≤ 70 then some (c.toNat - 55)
  else none

/-- Hex rendering of a buffer, `buf.toString('hex')`: two digits per byte. -/
def toHex : Bytes → List Char
  | [] => []
  | b :: bs => hexDigit (b / 16 % 16) :: hexDigit (b % 16) :: toHex bs

/-- Hex parsing, `Buffer.from(s, 'hex')`: pairs of digits are decoded from the left and
decoding stops, without an error, at the first pair that is not two hex digits (a
trailing single digit is dropped as well). -/
def fromHex : List Char → Bytes
  | a :: b :: rest =>
    match unhex a, unhex b with
    | some x, some y => (16 * x + y) :: fromHex rest
    | _, _ => []
  | _ => []

/-- UTF-8 encoding of one Unicode scalar value. -/
def utf8EncodeChar (c : Char) : Bytes :=
  if c.toNat < 0x80 then [c.toNat]
  else if c.toNat < 0x800 then [0xC0 + c.toNat / 64, 0x80 + c.toNat % 64]
  else if c.toNat < 0x10000 then
    [0xE0 + c.toNat / 4096, 0x80 + c.toNat / 64 % 64, 0x80 + c.toNat % 64]
  else
    [0xF0 + c.toNat / 262144, 0x80 + c.toNat / 4096 % 64, 0x80 + c.toNat / 64 % 64,
      0x80 + c.toNat % 64]

/-- UTF-8 encoding of a string (what `cipher.update(text)` feeds to the cipher). -/
def utf8Encode : List Char → Bytes
  | [] => []
  | c :: cs => utf8EncodeChar c ++ utf8Encode cs

/-- State of the UTF-8 decoder: the code point under construction, the continuation
bytes seen and needed, and the admissible range of the next continuation byte. -/
structure Utf8State where
  codePoint : Nat := 0
  bytesSeen : Nat := 0
  bytesNeeded : Nat := 0
  lower : Nat := 0x80
  upper : Nat := 0xBF
deriving DecidableEq, Repr

/-- The replacement character U+FFFD emitted for every ill-formed byte sequence. -/
def replacementChar : Char := Char.ofNat 0xFFFD

/-- Decoder step on a byte that starts a new sequence. -/
def utf8Lead (b : Nat) : Utf8State × List Char :=
  if b < 0x80 then ({}, [Char.ofNat b])
  else if 0xC2 ≤ b ∧ b ≤ 0xDF then ({ bytesNeeded := 1, codePoint := b % 32 }, [])
  else if 0xE0 ≤ b ∧ b ≤ 0xEF then
    ({ bytesNeeded := 2, codePoint := b % 16,
       lower := if b = 0xE0 then 0xA0 else 0x80,
       upper := if b = 0xED then 0x9F else 0xBF }, [])
  else if 0xF0 ≤ b ∧ b ≤ 0xF4 then
    ({ bytesNeeded := 3, codePoint := b % 8,
       lower := if b = 0xF0 then 0x90 else 0x80,
       upper := if b = 0xF4 then 0x8F else 0xBF }, [])
  else ({}, [replacementChar])

/-- One step of the UTF-8 decoder with replacement: a byte outside the admissible
continuation range ends the pending sequence with U+FFFD and is then read again as
the start of a new sequence. -/
def utf8Step (st : Utf8State) (b : Nat) : Utf8State × List Char :=
  if st.bytesNeeded = 0 then utf8Lead b
  else if b < st.lower ∨ st.upper < b then
    ((utf8Lead b).1, replacementChar :: (utf8Lead b).2)
  else if st.bytesSeen + 1 = st.bytesNeeded then
    ({}, [Char.ofNat (st.codePoint * 64 + b % 64)])
  else
    ({ st with codePoint := st.codePoint * 64 + b % 64, bytesSeen := st.bytesSeen + 1,
               lower := 0x80, upper := 0xBF }, [])

/-- Run the decoder from a state; a sequence cut short by the end of input yields U+FFFD. -/
def utf8DecodeFrom : Utf8State → Bytes → List Char
  | st, [] => if st.bytesNeeded = 0 then [] else [replacementChar]
  | st, b :: bs => (utf8Step st b).2 ++ utf8DecodeFrom (utf8Step st b).1 bs

/-- UTF-8 decoding with replacement, `buf.toString()`. -/
def utf8Decode (bs : Bytes) : List Char := utf8DecodeFrom {} bs

/-- JavaScript `s.split(sep)` for a one-character separator: always at least one piece. -/
def jsSplit (sep : Char) : List Char → List (List Char)
  | [] => [[]]
  | c :: cs =>
    if c = sep then [] :: jsSplit sep cs
    else
      match jsSplit sep cs with
      | [] => [[c]]
      | p :: ps => (c :: p) :: ps

/-! ## Custodial key vault (`middleware/auth.js`) -/

/-- The process-wide vault configuration.  `key` is the byte content of
`secretKey.substring(0, 32)`; `keystream key iv i` is byte `i` of the AES-256 counter-mode
key stream for that key and initialization vector (the block cipher itself is the
runtime's, so it is a parameter here). -/
structure Vault where
  key : Bytes
  keystream : Bytes → Bytes → Nat → Nat

/-- Errors thrown by the vault functions. -/
inductive VaultError where
  /-- `Buffer.from(undefined, 'hex')`: the blob has no `:` separator. -/
  | invalidArgType
  /-- `createCipheriv`: the key is not 32 bytes long. -/
  | invalidKeyLength
  /-- `createCipheriv`: the initialization vector is not 16 bytes long. -/
  | invalidIV
deriving DecidableEq, Repr

deriving instance DecidableEq for Except

/-- Counter mode: byte `i` of the data is combined by exclusive-or with byte `i` of the key stream. -/
def xorStream (ks : Nat → Nat) : Nat → Bytes → Bytes
  | _, [] => []
  | i, b :: bs => (b ^^^ (ks i % 256)) :: xorStream ks (i + 1) bs

/-- The runtime's `crypto.createCipheriv('aes-256-ctr', key, iv)` (and `createDecipheriv`):
rejects a key that is not 32 bytes and an IV that is not 16 bytes, otherwise gives the
key stream. -/
def createCipheriv (v : Vault) (iv : Bytes) : Except VaultError (Nat → Nat) :=
  if v.key.length ≠ 32 then .error .invalidKeyLength
  else if iv.length ≠ 16 then .error .invalidIV
  else .ok (v.keystream v.key iv)

/-- Source `encryptWalletSecret`, on the bytes that `cipher.update` receives and with the
16 random bytes drawn by `crypto.randomBytes(16)` given as `iv`.
Result: `ivHex:encryptedHex`. -/
def encryptWalletSecret (v : Vault) (iv : Bytes) (data : Bytes) : Except VaultError (List Char) :=
  match createCipheriv v iv with
  | .error e => .error e
  | .ok ks => .ok (toHex iv ++ ':' :: toHex (xorStream ks 0 data))

/-- Encryption of a text key: `cipher.update(text)` encodes a string as UTF-8. -/
def encryptWalletSecretText (v : Vault) (iv : Bytes) (text : List Char) :
    Except VaultError (List Char) :=
  encryptWalletSecret v iv (utf8Encode text)

/-- Source `decryptWalletSecret`: split at `:`, hex-decode the first two pieces, decipher,
and return the plaintext buffer decoded as a UTF-8 string. -/
def decryptWalletSecret (v : Vault) (hash : List Char) : Except VaultError (List Char) :=
  match jsSplit ':' hash with
  | ivHex :: encryptedHex :: _ =>
    match createCipheriv v (fromHex ivHex) with
    | .error e => .error e
    | .ok ks => .ok (utf8Decode (xorStream ks 0 (fromHex encryptedHex)))
  | _ => .error .invalidArgType

/-! ## Data model (`models/user.js`, `models/electionState.js`, `models/voteRecord.js`) -/

/-- A store identifier (`ObjectId`). -/
abbrev ObjectId := Nat

/-- A JavaScript `Date`: milliseconds since the epoch. -/
abbrev Instant := Int

/-- An identifier as it arrives in a request: missing, not in `ObjectId` format, or an id. -/
inductive IdParam where
  | absent
  | malformed
  | valid (id : ObjectId)
deriving DecidableEq, Repr

/-- The fields of a `User` document read by the modelled code. -/
structure User where
  id : ObjectId
  walletPublicKey : String
  walletSecretKey : List Char
  isAdmin : Bool
deriving DecidableEq, Repr

/-- Entry of `candidateInfo`: a name and an optional display image. -/
structure CandidateInfo where
  name : String
  imageUrl : Option String
deriving DecidableEq, Repr

/-- A post of an election as persisted. -/
structure Post where
  title : String
  candidates : List String
  candidateInfo : List CandidateInfo
  description : String
deriving DecidableEq, Repr

/-- A post as held by the settlement ledger: title, candidates and per-candidate tallies. -/
structure LedgerPost where
  title : String
  candidates : List String
  results : List Nat
deriving DecidableEq, Repr

/-- An `ElectionState` document (the fields of `ElectionStateSchema` and its `_id`). -/
structure Election where
  id : ObjectId
  electionPDA : String
  title : String
  description : String
  posts : List Post
  isActive : Bool
  adminId : ObjectId
  startDate : Option Instant
  endDate : Option Instant
  duration : Int
  createdAt : Instant
  results : List LedgerPost
deriving DecidableEq, Repr

/-- A `VoteRecord` document. -/
structure VoteRecord where
  userId : ObjectId
  electionId : ObjectId
  postIndex : Int
  candidateIndex : Int
  transactionId : String
  timestamp : Instant
  voterPublicKey : String
deriving DecidableEq, Repr

/-- The persistent store: the three collections. -/
structure Store where
  users : List User
  elections : List Election
  votes : List VoteRecord
deriving DecidableEq, Repr

/-- The empty store. -/
def Store.empty : Store := { users := [], elections := [], votes := [] }

/-- `ElectionState.findById(id)`. -/
def Store.findElection (s : Store) (id : ObjectId) : Option Election :=
  s.elections.find? (fun e => e.id == id)

/-- `election.save()` of a loaded document: the modified paths, given as `f`, are written to
the stored document with the same `_id`. -/
def Store.updateElection (s : Store) (id : ObjectId) (f : Election → Election) : Store :=
  { s with elections := s.elections.map (fun e => if e.id == id then f e else e) }

/-- A fresh `_id` for a new election document. -/
def Store.freshElectionId (s : Store) : ObjectId :=
  (s.elections.map (fun e => e.id)).foldr max 0 + 1

/-- `ElectionState.findOne({ isActive: true })`. -/
def Store.findActiveElection (s : Store) : Option Election :=
  s.elections.find? (fun e => e.isActive)

/-- `VoteRecord.findOne({ userId, electionId, postIndex })`. -/
def Store.findVote (s : Store) (userId electionId : ObjectId) (postIndex : Int) :
    Option VoteRecord :=
  s.votes.find? (fun r => r.userId == userId && r.electionId == electionId
    && r.postIndex == postIndex)

/-- `VoteRecord.countDocuments({ userId, electionId })`. -/
def Store.countVotes (s : Store) (userId electionId : ObjectId) : Nat :=
  (s.votes.filter (fun r => r.userId == userId && r.electionId == electionId)).length

/-- `voteRecord.save()` of a new document: the required strings must be non-empty, and the
unique index on `(userId, electionId, postIndex)` rejects a second record with the same
triple.  `none` is a thrown error. -/
def Store.insertVote (s : Store) (r : VoteRecord) : Option Store :=
  if r.transactionId = "" ∨ r.voterPublicKey = "" then none
  else if (s.findVote r.userId r.electionId r.postIndex).isSome then none
  else some { s with votes := s.votes ++ [r] }

/-- `User.findOne({ isAdmin: true })`. -/
def Store.findAdmin (s : Store) : Option User :=
  s.users.find? (fun u => u.isAdmin)

/-- `User.findById(id)`. -/
def Store.findUser (s : Store) (id : ObjectId) : Option User :=
  s.users.find? (fun u => u.id == id)

/-- JavaScript `xs[i]` for an integer `i`: `undefined` (here `none`) outside `0 .. length-1`. -/
def jsIndex {α : Type} (xs : List α) (i : Int) : Option α :=
  if 0 ≤ i then xs.get? i.toNat else none

/-- JavaScript `now > date` for a stored date that may be unset: `false` when unset. -/
def dateAfter (now : Instant) (date : Option Instant) : Bool :=
  match date with
  | some d => decide (d < now)
  | none => false

/-! ## Ledger gateway (`utils/solana.js`) -/

/-- A call issued to the settlement ledger. -/
inductive LedgerCall where
  | initializeElection (key : List Char) (posts : List (String × List (Option String)))
  | startElection (key : List Char)
  | endElection (key : List Char)
  | closeElection (key : List Char)
  | submitVote (key : List Char) (postIndex candidateIndex : Int)
  | getElectionState
  | transfer (fromKey : List Char) (toAddress : String) (lamports : Int)
deriving DecidableEq, Repr

/-- Result object of a gateway function: `.ok tx` is `{ success: true, tx }`,
`.error msg` is `{ success: false, error: msg }`. -/
abbrev GatewayResult := Except String String

/-- Answers of the ledger to one reclaim request. -/
structure TransferEnv where
  /-- `Keypair.fromSecretKey` and `new PublicKey` accept their arguments, or throw. -/
  keypair : Except String Unit
  /-- `connection.getBalance`. -/
  balance : Except String Int
  /-- The fee quoted for the one-lamport dry-run transfer (`getFeeForMessage`). -/
  fee : Except String Int
  /-- Outcome of signing and submitting the real transfer of the given amount. -/
  send : Int → Except String String

/-- Source `sendAllSolFromUserToAdmin`: send `balance - fee`.  Returns the result object
and the real transfers built and submitted. -/
def sendAllSolFromUserToAdmin (env : TransferEnv) (userSecretKey : List Char)
    (adminPublicKey : String) : GatewayResult × List LedgerCall :=
  match env.keypair with
  | .error e => (.error e, [])
  | .ok _ =>
    match env.balance with
    | .error e => (.error e, [])
    | .ok balance =>
      match env.fee with
      | .error e => (.error e, [])
      | .ok fee =>
        let amountToSend := balance - fee
        if amountToSend ≤ 0 then (.error "Insufficient balance to send.", [])
        else
          match env.send amountToSend with
          | .error e => (.error e, [.transfer userSecretKey adminPublicKey amountToSend])
          | .ok tx => (.ok tx, [.transfer userSecretKey adminPublicKey amountToSend])

/-- A finite non-negative double-precision number, the number `mantissa * 2 ^ exponent`:
the JavaScript number type of the `percent` argument of `sendBackToAdmin` and of the
product `balance * percent`. -/
structure Double where
  mantissa : Nat
  exponent : Int
deriving DecidableEq, Repr

/-- Numerator of the value of a double written as a fraction of natural numbers. -/
def Double.num (x : Double) : Nat := x.mantissa * 2 ^ x.exponent.toNat

/-- Denominator of the value of a double written as a fraction, a power of two. -/
def Double.den (x : Double) : Nat := 2 ^ (-x.exponent).toNat

/-- The number of halvings of `n` before it drops below 2, at most `fuel` of them. -/
def log2Fuel : Nat → Nat → Nat
  | 0, _ => 0
  | fuel + 1, n => if 2 ≤ n then log2Fuel fuel (n / 2) + 1 else 0

/-- The integer part of the binary logarithm of a positive natural number. -/
def floorLog2 (n : Nat) : Nat := log2Fuel n n

/-- The integer `e` with `2 ^ e ≤ n / d < 2 ^ (e + 1)`, for positive `n` and `d`. -/
def binade (n d : Nat) : Int :=
  if d * 2 ^ floorLog2 n ≤ n * 2 ^ floorLog2 d then (floorLog2 n : Int) - floorLog2 d
  else (floorLog2 n : Int) - floorLog2 d - 1

/-- The integer nearest to `n / d`, the even one of the two when `n / d` lies half way
between them. -/
def roundTiesEven (n d : Nat) : Nat :=
  if 2 * (n % d) < d then n / d
  else if 2 * (n % d) = d ∧ n / d % 2 = 0 then n / d
  else n / d + 1

/-- The double nearest to `n / d` (IEEE 754 round to nearest, ties to even): 53 significant
bits, least exponent -1074.  It is the value of a decimal literal and of a product of
doubles.  Results of `2 ^ 1024` and more (`Infinity`) are not represented; they do not
occur for a product `balance * percent` with `percent ≤ 1`. -/
def roundDouble (n d : Nat) : Double :=
  { mantissa := roundTiesEven (n * 2 ^ (-(max (binade n d - 52) (-1074))).toNat)
      (d * 2 ^ (max (binade n d - 52) (-1074)).toNat),
    exponent := max (binade n d - 52) (-1074) }

/-- The literal `0.9` passed by `usersSendBackToAdmin` (and the default of
`sendBackToAdmin`): the double nearest to 9/10. -/
def ninetyPercent : Double := roundDouble 9 10

/-- The value of `Math.floor(balance * percent)`: the product of the two doubles is the
double nearest to their exact product, and `Math.floor` takes the floor of that double.
The balance is an integer that a double holds exactly (below `2 ^ 53` in absolute
value). -/
def floorMul (balance : Int) (percent : Double) : Int :=
  if 0 ≤ balance then
    (((roundDouble (balance.natAbs * percent.num) percent.den).num /
      (roundDouble (balance.natAbs * percent.num) percent.den).den : Nat) : Int)
  else
    -((((roundDouble (balance.natAbs * percent.num) percent.den).num +
        (roundDouble (balance.natAbs * percent.num) percent.den).den - 1) /
      (roundDouble (balance.natAbs * percent.num) percent.den).den : Nat) : Int)

/-- The floor of the exact product of `balance` and the fraction `num / den`: the
`floor(balance * percent)` of the specification read in exact arithmetic. -/
def exactFloorMul (balance : Int) (num den : Nat) : Int := balance * num / den

/-- Source `sendBackToAdmin`: send `Math.floor(balance * percent)`, lowered to
`balance - fee` when less than the fee would remain.  Returns the result object and the real transfers
built and submitted. -/
def sendBackToAdmin (env : TransferEnv) (userSecretKey : List Char) (adminPublicKey : String)
    (percent : Double) : GatewayResult × List LedgerCall :=
  match env.keypair with
  | .error e => (.error e, [])
  | .ok _ =>
    match env.balance with
    | .error e => (.error e, [])
    | .ok balance =>
      match env.fee with
      | .error e => (.error e, [])
      | .ok fee =>
        let amountToSend :=
          if balance - floorMul balance percent < fee then balance - fee
          else floorMul balance percent
        if amountToSend ≤ 0 then (.error "Insufficient balance to send.", [])
        else
          match env.send amountToSend with
          | .error e => (.error e, [.transfer userSecretKey adminPublicKey amountToSend])
          | .ok tx => (.ok tx, [.transfer userSecretKey adminPublicKey amountToSend])

/-! ## HTTP responses and handler outcomes -/

/-- An HTTP response: the status code, the `message` of the JSON body and, on success,
the rest of the body. -/
inductive Reply (α : Type) where
  | success (status : Nat) (message : String) (body : α)
  | failure (status : Nat) (message : String)
deriving DecidableEq, Repr

/-- The status code of a response. -/
def Reply.status {α : Type} : Reply α → Nat
  | .success st _ _ => st
  | .failure st _ => st

/-- What a handler leaves behind: the store, the response, the ledger calls issued. -/
structure Outcome (α : Type) where
  store : Store
  reply : Reply α
  calls : List LedgerCall

/-! ## Expiry middleware (`middleware/electionMiddleware.js`) -/

/-- Source `checkElectionExpiry`, with `now` the value of `new Date()`: an active election
whose end date has passed is stored as inactive.  `none` is the error passed to `next`
when the id cannot be cast (the handler after it does not run). -/
def checkElectionExpiry (now : Instant) (electionId : IdParam) (s : Store) : Option Store :=
  match electionId with
  | .absent => some s
  | .malformed => none
  | .valid id =>
    match s.findElection id with
    | none => some s
    | some election =>
      if election.isActive && election.endDate.isSome && dateAfter now election.endDate then
        some (s.updateElection id (fun e => { e with isActive := false }))
      else some s

/-! ## Vote ledger and idempotency guard (`controllers/voteController.js`) -/

/-- Body of a vote submission. -/
structure VoteRequest where
  electionId : IdParam
  postIndex : Int
  candidateIndex : Int
deriving DecidableEq, Repr

/-- Answers of the collaborators during one `submitVote`. -/
structure VoteEnv where
  /-- `new Date()` of the expiry check. -/
  now : Instant
  /-- Result of `solanaUtils.submitVote`. -/
  vote : GatewayResult
  /-- `Date.now()` when the vote record is built. -/
  recordTime : Instant
  /-- Ledger answers to the reclaim, should it be triggered. -/
  reclaim : TransferEnv

/-- The `vote` object and transaction id of a successful submission. -/
structure VoteReceipt where
  electionId : ObjectId
  postTitle : String
  candidateName : Option String
  timestamp : Instant
  transactionId : String
deriving DecidableEq, Repr

/-- Source `submitVote` once the election, the post and the decrypted key are at hand
(lines 43 to 104): duplicate check, ledger submission, local record, reclaim trigger. -/
def submitVoteCommit (v : Vault) (env : VoteEnv) (voter : User) (election : Election)
    (post : Post) (postIndex candidateIndex : Int) (s : Store) : Outcome VoteReceipt :=
  if (s.findVote voter.id election.id postIndex).isSome then
    ⟨s, .failure 400 "You have already voted for this post", []⟩
  else
    match decryptWalletSecret v voter.walletSecretKey with
    | .error _ => ⟨s, .failure 500 "Error submitting vote", []⟩
    | .ok voterSecretKey =>
      match env.vote with
      | .error _ =>
        ⟨s, .failure 400 "Failed to submit vote on blockchain",
          [.submitVote voterSecretKey postIndex candidateIndex]⟩
      | .ok tx =>
        match s.insertVote
            { userId := voter.id, electionId := election.id, postIndex := postIndex,
              candidateIndex := candidateIndex, transactionId := tx,
              timestamp := env.recordTime, voterPublicKey := voter.walletPublicKey } with
        | none =>
          ⟨s, .failure 500 "Error submitting vote",
            [.submitVote voterSecretKey postIndex candidateIndex]⟩
        | some s1 =>
          let receipt : VoteReceipt :=
            { electionId := election.id, postTitle := post.title,
              candidateName := jsIndex post.candidates candidateIndex,
              timestamp := env.recordTime, transactionId := tx }
          let reclaimCalls : List LedgerCall :=
            if s1.countVotes voter.id election.id = election.posts.length then
              match s1.findAdmin with
              | some admin =>
                if admin.walletPublicKey ≠ "" then
                  (sendAllSolFromUserToAdmin env.reclaim voterSecretKey
                    admin.walletPublicKey).2
                else []
              | none => []
            else []
          ⟨s1, .success 200 "Vote submitted successfully" receipt,
            .submitVote voterSecretKey postIndex candidateIndex :: reclaimCalls⟩

/-- Source `submitVote` for the authenticated `voter`. -/
def submitVote (v : Vault) (env : VoteEnv) (voter : User) (req : VoteRequest) (s : Store) :
    Outcome VoteReceipt :=
  match req.electionId with
  | .malformed => ⟨s, .failure 500 "Error submitting vote", []⟩
  | .absent => ⟨s, .failure 404 "Election not found", []⟩
  | .valid electionId =>
    match s.findElection electionId with
    | none => ⟨s, .failure 404 "Election not found", []⟩
    | some election =>
      if !election.isActive then
        ⟨s, .failure 400 "This election is not currently active", []⟩
      else if dateAfter env.now election.endDate then
        ⟨s.updateElection election.id (fun e => { e with isActive := false }),
          .failure 400 "This election has ended", []⟩
      else if req.postIndex ≥ election.posts.length then
        ⟨s, .failure 400 "Invalid post index", []⟩
      else
        match jsIndex election.posts req.postIndex with
        | none => ⟨s, .failure 500 "Error submitting vote", []⟩
        | some post =>
          if req.candidateIndex ≥ post.candidates.length then
            ⟨s, .failure 400 "Invalid candidate index", []⟩
          else submitVoteCommit v env voter election post req.postIndex req.candidateIndex s

/-- The route `POST /submit`: `checkElectionExpiry` at instant `now0`, then `submitVote`.
`none` when the middleware ends the request with an error. -/
def submitVoteRoute (v : Vault) (now0 : Instant) (env : VoteEnv) (voter : User)
    (req : VoteRequest) (s : Store) : Option (Outcome VoteReceipt) :=
  match checkElectionExpiry now0 req.electionId s with
  | none => none
  | some s1 => some (submitVote v env voter req s1)

/-- One `submitVote` call with everything it receives. -/
structure VoteCall where
  env : VoteEnv
  voter : User
  req : VoteRequest

/-- Sequential execution of `submitVote` calls, left to right. -/
def runVotes (v : Vault) : List VoteCall → Store → Store
  | [], s => s
  | c :: cs, s => runVotes v cs (submitVote v c.env c.voter c.req s).store

/-- The uniqueness invariant of vote records: no two share `(userId, electionId, postIndex)`. -/
def UniqueVotes (s : Store) : Prop :=
  s.votes.Pairwise (fun a b =>
    ¬ (a.userId = b.userId ∧ a.electionId = b.electionId ∧ a.postIndex = b.postIndex))

/-! ## Election lifecycle manager (`controllers/electionController.js`) -/

/-- A candidate as submitted: a bare name, or an object with optional `name` and `imageUrl`. -/
inductive CandidateInput where
  | name (s : String)
  | object (name : Option String) (imageUrl : Option String)
deriving DecidableEq, Repr

/-- A post as submitted; `candidates` is `none` when missing or not an array. -/
structure PostInput where
  title : Option String
  description : Option String
  candidates : Option (List CandidateInput)
deriving DecidableEq, Repr

/-- Body of `POST /initialize`; `duration` is an integer number of hours when present. -/
structure InitRequest where
  title : Option String
  description : Option String
  posts : Option (List PostInput)
  duration : Option Int
deriving DecidableEq, Repr

/-- A post after the `posts.map` of `initializeElection`.  A candidate name is `none` when
the value at hand is not a string (`undefined`, or an object among bare names). -/
structure ProcessedPost where
  title : String
  description : String
  candidates : List (Option String)
  candidateInfo : List (Option String × Option String)
deriving DecidableEq, Repr

/-- JavaScript `x || null` on an optional string: the empty string is falsy. -/
def orNull (x : Option String) : Option String :=
  match x with
  | some u => if u = "" then none else some u
  | none => none

/-- The callback of `posts.map` in `initializeElection` (lines 21 to 54); `none` is the
thrown `Each post must have a title and candidates array`. -/
def processPost (post : PostInput) : Option ProcessedPost :=
  match post.title, post.candidates with
  | some title, some candidates =>
    if title = "" then none
    else
      let description := (orNull post.description).getD ""
      match candidates with
      | [] => some ⟨title, description, [], []⟩
      | .name _ :: _ =>
        let raw := candidates.map (fun c =>
          match c with
          | .name n => some n
          | .object _ _ => none)
        some ⟨title, description, raw, raw.map (fun n => (n, none))⟩
      | .object _ _ :: _ =>
        some ⟨title, description,
          candidates.map (fun c =>
            match c with
            | .name _ => none
            | .object n _ => n),
          candidates.map (fun c =>
            match c with
            | .name _ => (none, none)
            | .object n u => (n, orNull u))⟩
  | _, _ => none

/-- The whole `posts.map`: `none` when `posts` is missing or the callback throws. -/
def processPosts (posts : Option (List PostInput)) : Option (List ProcessedPost) :=
  match posts with
  | none => none
  | some ps => ps.mapM processPost

/-- The list handed to the ledger: titles with candidate names. -/
def blockchainPosts (ps : List ProcessedPost) : List (String × List (Option String)) :=
  ps.map (fun p => (p.title, p.candidates))

/-- Schema validation of one candidate on save: `candidateInfo.name` is a required string. -/
def persistCandidate (c : Option String × Option String) : Option CandidateInfo :=
  match c.1 with
  | some n => if n = "" then none else some ⟨n, c.2⟩
  | none => none

/-- Schema validation of a processed post on save; `none` is a validation error. -/
def persistPost (p : ProcessedPost) : Option Post :=
  match p.candidateInfo.mapM persistCandidate, p.candidates.mapM id with
  | some info, some names => some ⟨p.title, names, info, p.description⟩
  | _, _ => none

/-- Answers of the collaborators during one `initializeElection`. -/
structure InitEnv where
  /-- Result of `solanaUtils.initializeElection`: the transaction and the election account. -/
  create : Except String (String × String)
  /-- `Date.now()` when the election document is built. -/
  createdAt : Instant

/-- Body of a successful lifecycle response: the election document as reported, the
`closed` flag reported by `closeElection`, and the ledger transaction. -/
structure ElectionReceipt where
  election : Election
  closed : Bool
  transactionId : String
deriving DecidableEq, Repr

/-- Source `initializeElection` for the authenticated `admin`. -/
def initializeElection (v : Vault) (env : InitEnv) (admin : User) (req : InitRequest)
    (s : Store) : Outcome ElectionReceipt :=
  if !admin.isAdmin then ⟨s, .failure 403 "Only admins can initialize elections", []⟩
  else
    match req.duration with
    | none => ⟨s, .failure 400 "Duration must be at least 1 hour", []⟩
    | some duration =>
      if duration = 0 ∨ duration < 1 then
        ⟨s, .failure 400 "Duration must be at least 1 hour", []⟩
      else
        match processPosts req.posts with
        | none => ⟨s, .failure 500 "Error initializing election", []⟩
        | some processedPosts =>
          match decryptWalletSecret v admin.walletSecretKey with
          | .error _ => ⟨s, .failure 500 "Error initializing election", []⟩
          | .ok adminSecretKey =>
            if s.findActiveElection.isSome then
              ⟨s, .failure 400 ("Cannot initialize new election while another is active. "
                ++ "Please end the active election first."), []⟩
            else
              let stale : List LedgerCall :=
                [.endElection adminSecretKey, .closeElection adminSecretKey]
              let create : LedgerCall :=
                .initializeElection adminSecretKey (blockchainPosts processedPosts)
              match env.create with
              | .error _ =>
                ⟨s, .failure 400 "Failed to initialize election on blockchain",
                  stale ++ [create]⟩
              | .ok (tx, electionPDA) =>
                match req.title, processedPosts.mapM persistPost with
                | some title, some posts =>
                  if title = "" ∨ electionPDA = "" ∨ 168 < duration then
                    ⟨s, .failure 500 "Error initializing election", stale ++ [create]⟩
                  else
                    let election : Election :=
                      { id := s.freshElectionId, electionPDA := electionPDA, title := title,
                        description := req.description.getD "", posts := posts,
                        isActive := false, adminId := admin.id, startDate := none,
                        endDate := none, duration := duration, createdAt := env.createdAt,
                        results := [] }
                    ⟨{ s with elections := s.elections ++ [election] },
                      .success 201 "Election initialized successfully" ⟨election, false, tx⟩,
                      stale ++ [create]⟩
                | _, _ => ⟨s, .failure 500 "Error initializing election", stale ++ [create]⟩

/-- Answers of the collaborators during one `startElection`, `endElection`. -/
structure LifecycleEnv where
  /-- `new Date()` written to the document. -/
  now : Instant
  /-- Result of the gateway call. -/
  ledger : GatewayResult

/-- Source `startElection` for the authenticated `admin`. -/
def startElection (v : Vault) (env : LifecycleEnv) (admin : User) (electionId : IdParam)
    (s : Store) : Outcome ElectionReceipt :=
  match electionId with
  | .absent => ⟨s, .failure 400 "Invalid election ID format", []⟩
  | .malformed => ⟨s, .failure 400 "Invalid election ID format", []⟩
  | .valid id =>
    if !admin.isAdmin then ⟨s, .failure 403 "Only admins can start elections", []⟩
    else
      match s.findElection id with
      | none => ⟨s, .failure 404 "Election not found", []⟩
      | some election =>
        if election.adminId ≠ admin.id then
          ⟨s, .failure 403 "You are not the admin of this election", []⟩
        else if election.isActive then ⟨s, .failure 400 "Election is already active", []⟩
        else
          match decryptWalletSecret v admin.walletSecretKey with
          | .error _ => ⟨s, .failure 500 "Error starting election", []⟩
          | .ok adminSecretKey =>
            match env.ledger with
            | .error _ =>
              ⟨s, .failure 400 "Failed to start election on blockchain",
                [.startElection adminSecretKey]⟩
            | .ok tx =>
              let started : Election → Election := fun e =>
                { e with isActive := true, startDate := some env.now,
                         endDate := some (env.now + e.duration * 60 * 60 * 1000) }
              ⟨s.updateElection id started,
                .success 200 "Election started successfully" ⟨started election, false, tx⟩,
                [.startElection adminSecretKey]⟩

/-- Source `endElection` for the authenticated `admin`. -/
def endElection (v : Vault) (env : LifecycleEnv) (admin : User) (electionId : IdParam)
    (s : Store) : Outcome ElectionReceipt :=
  if !admin.isAdmin then ⟨s, .failure 403 "Only admins can end elections", []⟩
  else
    match electionId with
    | .malformed => ⟨s, .failure 500 "Error ending election", []⟩
    | .absent => ⟨s, .failure 404 "Election not found", []⟩
    | .valid id =>
      match s.findElection id with
      | none => ⟨s, .failure 404 "Election not found", []⟩
      | some election =>
        if election.adminId ≠ admin.id then
          ⟨s, .failure 403 "You are not the admin of this election", []⟩
        else if !election.isActive then ⟨s, .failure 400 "Election is not active", []⟩
        else
          match decryptWalletSecret v admin.walletSecretKey with
          | .error _ => ⟨s, .failure 500 "Error ending election", []⟩
          | .ok adminSecretKey =>
            match env.ledger with
            | .error _ =>
              ⟨s, .failure 400 "Failed to end election on blockchain",
                [.endElection adminSecretKey]⟩
            | .ok tx =>
              let ended : Election → Election := fun e =>
                { e with isActive := false, endDate := some env.now }
              ⟨s.updateElection id ended,
                .success 200 "Election ended successfully" ⟨ended election, false, tx⟩,
                [.endElection adminSecretKey]⟩

/-- The route `POST /:electionId/end`: `adminOnly`, then `checkElectionExpiry`, then
`endElection`, the two reading the clock at the same instant `env.now`.  `none` when the
expiry middleware ends the request with an error. -/
def endElectionRoute (v : Vault) (env : LifecycleEnv) (admin : User) (electionId : IdParam)
    (s : Store) : Option (Outcome ElectionReceipt) :=
  if !admin.isAdmin then some ⟨s, .failure 403 "Admin access required", []⟩
  else
    match checkElectionExpiry env.now electionId s with
    | none => none
    | some s1 => some (endElection v env admin electionId s1)

/-- Answers of the collaborators during one `closeElection`. -/
structure CloseEnv where
  /-- Result of `solanaUtils.closeElection`. -/
  ledger : GatewayResult
  /-- Result of `solanaUtils.getElectionState`: the posts of the ledger account. -/
  tally : Except String (List LedgerPost)

/-- Source `closeElection` for the authenticated `admin`.  The assignment
`election.closed = true` sets a property that `ElectionStateSchema` does not declare, so
it reaches the response and not the stored document. -/
def closeElection (v : Vault) (env : CloseEnv) (admin : User) (electionId : IdParam)
    (s : Store) : Outcome ElectionReceipt :=
  if !admin.isAdmin then ⟨s, .failure 403 "Only admins can close elections", []⟩
  else
    match electionId with
    | .malformed => ⟨s, .failure 500 "Error closing election", []⟩
    | .absent => ⟨s, .failure 404 "Election not found", []⟩
    | .valid id =>
      match s.findElection id with
      | none => ⟨s, .failure 404 "Election not found", []⟩
      | some election =>
        if election.adminId ≠ admin.id then
          ⟨s, .failure 403 "You are not the admin of this election", []⟩
        else if election.isActive then
          ⟨s, .failure 400 "Cannot close an active election. End it first.", []⟩
        else
          match decryptWalletSecret v admin.walletSecretKey with
          | .error _ => ⟨s, .failure 500 "Error closing election", []⟩
          | .ok adminSecretKey =>
            match env.ledger with
            | .error _ =>
              ⟨s, .failure 400 "Failed to close election on blockchain",
                [.closeElection adminSecretKey]⟩
            | .ok tx =>
              let results : List LedgerPost :=
                match env.tally with
                | .ok posts => posts.map (fun p => ⟨p.title, p.candidates, p.results⟩)
                | .error _ => []
              let closed : Election → Election := fun e => { e with results := results }
              ⟨s.updateElection id closed,
                .success 200 "Election closed successfully" ⟨closed election, true, tx⟩,
                [.closeElection adminSecretKey, .getElectionState]⟩

/-- The derived status of an election. -/
inductive Status where
  | ENDED
  | ACTIVE
  | NOT_STARTED
  | INACTIVE
deriving DecidableEq, Repr

/-- Source `getStatus` (method of `ElectionStateSchema`) on a loaded document, with `now`
the value of `new Date()`.  Returns the store, the status and the ledger calls issued. -/
def getStatus (v : Vault) (now : Instant) (election : Election) (s : Store) :
    Store × Status × List LedgerCall :=
  if election.endDate.isSome && dateAfter now election.endDate then
    if election.isActive then
      (s.updateElection election.id (fun e => { e with isActive := false }), .ENDED,
        match s.findUser election.adminId with
        | some adminUser =>
          match decryptWalletSecret v adminUser.walletSecretKey with
          | .ok adminSecretKey => [.endElection adminSecretKey]
          | .error _ => []
        | none => [])
    else (s, .ENDED, [])
  else if election.isActive then (s, .ACTIVE, [])
  else if election.startDate.isNone then (s, .NOT_STARTED, [])
  else (s, .INACTIVE, [])

/-- One operation of the system with everything it receives. -/
inductive Op where
  | initializeElection (env : InitEnv) (admin : User) (req : InitRequest)
  | startElection (env : LifecycleEnv) (admin : User) (electionId : IdParam)
  | endElection (env : LifecycleEnv) (admin : User) (electionId : IdParam)
  | closeElection (env : CloseEnv) (admin : User) (electionId : IdParam)
  | statusRead (now : Instant) (electionId : ObjectId)
  | checkExpiry (now : Instant) (electionId : IdParam)
  | submitVote (call : VoteCall)

/-- The store after one operation. -/
def Op.run (v : Vault) (s : Store) : Op → Store
  | .initializeElection env admin req => (EVoting.initializeElection v env admin req s).store
  | .startElection env admin id => (EVoting.startElection v env admin id s).store
  | .endElection env admin id => (EVoting.endElection v env admin id s).store
  | .closeElection env admin id => (EVoting.closeElection v env admin id s).store
  | .statusRead now id =>
    match s.findElection id with
    | some election => (getStatus v now election s).1
    | none => s
  | .checkExpiry now id => (checkElectionExpiry now id s).getD s
  | .submitVote c => (EVoting.submitVote v c.env c.voter c.req s).store

/-- The store after a sequence of operations, executed one after the other. -/
def runOps (v : Vault) (ops : List Op) (s : Store) : Store :=
  ops.foldl (Op.run v) s

/-- The elections stored as active. -/
def Store.activeElections (s : Store) : List Election :=
  s.elections.filter (fun e => e.isActive)

/-! ## Status reads -/

/-- The status resolution in the words of the specification: `ENDED` when an end date is set
and `now` is past it; otherwise `ACTIVE` when the flag is set; otherwise `NOT_STARTED` when
there is no start date; otherwise `INACTIVE`. -/
def referenceStatus (now : Instant) (election : Election) : Status :=
  match election.endDate, election.isActive, election.startDate with
  | some endDate, active, startDate =>
    if endDate < now then .ENDED
    else if active then .ACTIVE
    else if startDate = none then .NOT_STARTED
    else .INACTIVE
  | none, true, _ => .ACTIVE
  | none, false, none => .NOT_STARTED
  | none, false, some _ => .INACTIVE

/-- One status read, as in `getElectionDetails` and `getAllElections`: the election is loaded
by id and `getStatus` is called on it.  The status is `none` when no election has the id. -/
def readStatus (v : Vault) (now : Instant) (id : ObjectId) (s : Store) :
    Store × Option Status × List LedgerCall :=
  match s.findElection id with
  | some election =>
    ((getStatus v now election s).1, some (getStatus v now election s).2.1,
      (getStatus v now election s).2.2)
  | none => (s, none, [])

/-- Successive status reads of one election at the given instants; each entry is the store
after the read, the status returned and the ledger calls issued by the read. -/
def readStatuses (v : Vault) (id : ObjectId) :
    List Instant → Store → List (Store × Option Status × List LedgerCall)
  | [], _ => []
  | t :: ts, s => readStatus v t id s :: readStatuses v id ts (readStatus v t id s).1

/-- Whether an operation is a `closeElection`. -/
def Op.isClose : Op → Bool
  | .closeElection _ _ _ => true
  | _ => false

/-- Every election of `s` is still stored in `t`, under the same id and with the same
`results`. -/
def ResultsKept (s t : Store) : Prop :=
  ∀ id e, s.findElection id = some e →
    ∃ e1, t.findElection id = some e1 ∧ e1.results = e.results

/-- Every vote record refers to a stored election and to one of its posts. -/
def VotesInRange (s : Store) : Prop :=
  ∀ r ∈ s.votes, ∃ e, s.findElection r.electionId = some e ∧
    0 ≤ r.postIndex ∧ r.postIndex < e.posts.length

/-! ## Token circulation: batch distribution (`utils/solana.js`, `controllers/airdropController.js`) -/

/-- Answers of the ledger client during one `sendSolToWallets`. -/
structure BatchEnv where
  /-- `Keypair.fromSecretKey` accepts the operator key, or throws. -/
  keypair : Except String Unit
  /-- `new PublicKey(address)` accepts the address, or throws. -/
  publicKey : String → Except String Unit
  /-- Outcome of signing and submitting the transfer for the entry at the given position. -/
  send : Nat → String → Except String String

/-- Entry of the result list: `.ok signature` is `{ address, success: true, signature }`,
`.error msg` is `{ address, success: false, error: msg }`; the entry built by the outer
`catch` has no address. -/
structure BatchEntry where
  address : Option String
  result : Except String String
deriving DecidableEq, Repr

/-- The `success` field of an entry. -/
def BatchEntry.success (e : BatchEntry) : Bool :=
  match e.result with
  | .ok _ => true
  | .error _ => false

/-- The `for` loop of `sendSolToWallets` from position `i` on: results and transfers
submitted. -/
def sendSolToWalletsFrom (env : BatchEnv) (adminSecretKey : List Char) (lamports : Int) :
    Nat → List String → List BatchEntry × List LedgerCall
  | _, [] => ([], [])
  | i, address :: rest =>
    match env.publicKey address with
    | .error e =>
      (⟨some address, .error e⟩ :: (sendSolToWalletsFrom env adminSecretKey lamports (i + 1) rest).1,
        (sendSolToWalletsFrom env adminSecretKey lamports (i + 1) rest).2)
    | .ok _ =>
      (⟨some address, env.send i address⟩ ::
          (sendSolToWalletsFrom env adminSecretKey lamports (i + 1) rest).1,
        .transfer adminSecretKey address lamports ::
          (sendSolToWalletsFrom env adminSecretKey lamports (i + 1) rest).2)

/-- Source `sendSolToWallets`; `lamports` is the product `amount * LAMPORTS_PER_SOL`
(2,100,000 for the amount 0.0021 passed by `airdropToAllUsers`). -/
def sendSolToWallets (env : BatchEnv) (adminSecretKey : List Char) (walletAddresses : List String)
    (lamports : Int) : List BatchEntry × List LedgerCall :=
  match env.keypair with
  | .error e => ([⟨none, .error e⟩], [])
  | .ok _ => sendSolToWalletsFrom env adminSecretKey lamports 0 walletAddresses

/-- A document of the users collection as the airdrop query reads it: the wallet address and
the encrypted key may each be missing or null. -/
structure Account where
  walletPublicKey : Option String
  walletSecretKey : Option (List Char)
deriving DecidableEq, Repr

/-- The white space and line terminator characters removed by `String.prototype.trim`. -/
def jsWhitespace (c : Char) : Bool :=
  decide (c.toNat ∈ [9, 10, 11, 12, 13, 32, 160, 5760, 8192, 8193, 8194, 8195, 8196, 8197,
    8198, 8199, 8200, 8201, 8202, 8232, 8233, 8239, 8287, 12288, 65279])

/-- JavaScript `s.trim()`. -/
def jsTrim (s : String) : String :=
  String.mk ((s.data.dropWhile jsWhitespace).reverse.dropWhile jsWhitespace).reverse

/-- JavaScript `String(u.walletPublicKey)`. -/
def Account.address (u : Account) : String :=
  match u.walletPublicKey with
  | some p => p
  | none => "undefined"

/-- The addresses handed to `sendSolToWallets` by `airdropToAllUsers` (lines 13 to 28): the
query on both fields, the filter on the trimmed address, the `map` to trimmed addresses. -/
def airdropTargets (admin : User) (accounts : List Account) : List String :=
  ((accounts.filter (fun u => u.walletPublicKey.isSome && u.walletSecretKey.isSome)).filter
    (fun u => jsTrim u.address != "" && jsTrim u.address != jsTrim admin.walletPublicKey)).map
    (fun u => jsTrim u.address)

/-- Source `airdropToAllUsers` for the authenticated caller `admin`, with the documents of
the users collection. -/
def airdropToAllUsers (v : Vault) (env : BatchEnv) (admin : User) (accounts : List Account) :
    Reply (List BatchEntry) × List LedgerCall :=
  if !admin.isAdmin then (.failure 403 "Admin access required", [])
  else if (airdropTargets admin accounts).length = 0 then
    (.failure 400 "No user wallets found.", [])
  else
    match decryptWalletSecret v admin.walletSecretKey with
    | .error _ => (.failure 500 "Airdrop failed", [])
    | .ok adminSecretKey =>
      (.success 200 "Airdrop complete"
          (sendSolToWallets env adminSecretKey (airdropTargets admin accounts) 2100000).1,
        (sendSolToWallets env adminSecretKey (airdropTargets admin accounts) 2100000).2)

/-- The target list in the words of the specification: every account holding both a public
address and an encrypted key, whose trimmed address differs from the trimmed address of
the operator; each is named by its trimmed address. -/
def statedTargets (operatorAddress : String) (accounts : List Account) : List String :=
  accounts.filterMap (fun a =>
    match a.walletPublicKey, a.walletSecretKey with
    | some p, some _ => if jsTrim p = jsTrim operatorAddress then none else some (jsTrim p)
    | _, _ => none)

/-- The reference target list: the accounts of `statedTargets` whose trimmed address is not
blank. -/
def referenceTargets (operatorAddress : String) (accounts : List Account) : List String :=
  accounts.filterMap (fun a =>
    match a.walletPublicKey, a.walletSecretKey with
    | some p, some _ =>
      if jsTrim p = "" ∨ jsTrim p = jsTrim operatorAddress then none else some (jsTrim p)
    | _, _ => none)

/-! ## Concrete values used in the worked examples -/

/-- A vault with a 32-byte key and a simple key stream. -/
def sampleVault : Vault :=
  { key := List.replicate 32 107, keystream := fun key iv i => key.length + iv.length + 3 * i }

/-- A 16-byte initialization vector. -/
def sampleIv : Bytes := List.range 16

/-- A signing key in hexadecimal text. -/
def sampleKeyText : List Char := ['1', 'f', '2', 'e']

/-- The blob stored for `sampleKeyText` under `sampleVault` and `sampleIv`. -/
def sampleBlob : List Char :=
  toHex sampleIv ++ ':' ::
    toHex (xorStream (sampleVault.keystream sampleVault.key sampleIv) 0 (utf8Encode sampleKeyText))

/-- A ledger that answers every reclaim call: balance and fee as given, transfers accepted. -/
def sampleTransferEnv (balance fee : Int) : TransferEnv :=
  { keypair := .ok (), balance := .ok balance, fee := .ok fee, send := fun _ => .ok "sig" }

/-- The operator account. -/
def sampleAdmin : User :=
  { id := 1, walletPublicKey := "adminWallet", walletSecretKey := sampleBlob, isAdmin := true }

/-- A participant account. -/
def sampleVoter : User :=
  { id := 2, walletPublicKey := "voterWallet", walletSecretKey := sampleBlob, isAdmin := false }

/-- A post with two candidates. -/
def samplePresident : Post :=
  { title := "President", candidates := ["Ada", "Bob"],
    candidateInfo := [⟨"Ada", none⟩, ⟨"Bob", none⟩], description := "" }

/-- Two posts, with two and three candidates. -/
def samplePosts : List Post :=
  [ samplePresident,
    { title := "Secretary", candidates := ["Cy", "Di", "Ed"],
      candidateInfo := [⟨"Cy", none⟩, ⟨"Di", none⟩, ⟨"Ed", none⟩], description := "" } ]

/-- An election of one hour, started at instant 1000 and active. -/
def sampleElection : Election :=
  { id := 7, electionPDA := "pda", title := "Board", description := "", posts := samplePosts,
    isActive := true, adminId := 1, startDate := some 1000, endDate := some 3601000,
    duration := 1, createdAt := 0, results := [] }

/-- A store with the two accounts, the active election and no vote. -/
def sampleStore : Store :=
  { users := [sampleAdmin, sampleVoter], elections := [sampleElection], votes := [] }

/-- The collaborators of a vote at instant `now` with the given ledger answer. -/
def sampleVoteEnv (now : Instant) (vote : GatewayResult) : VoteEnv :=
  { now := now, vote := vote, recordTime := now, reclaim := sampleTransferEnv 2100000 5000 }

/-- The vote of `sampleVoter` for candidate 1 of post 0, accepted by the ledger. -/
def sampleVoteCall : VoteCall :=
  { env := sampleVoteEnv 2000 (.ok "sig1"), voter := sampleVoter,
    req := { electionId := .valid 7, postIndex := 0, candidateIndex := 1 } }

/-- The record of `sampleVoteCall`. -/
def sampleRecord : VoteRecord :=
  { userId := 2, electionId := 7, postIndex := 0, candidateIndex := 1,
    transactionId := "sig1", timestamp := 2000, voterPublicKey := "voterWallet" }

/-- The store after `sampleVoteCall`. -/
def sampleStoreVoted : Store := { sampleStore with votes := [sampleRecord] }

/-- A request to configure a one-hour election with one post. -/
def sampleInitRequest (title : String) : InitRequest :=
  { title := some title, description := none,
    posts := some [{ title := some "President", description := none,
                     candidates := some [.name "Ada", .name "Bob"] }],
    duration := some 1 }

/-- The ledger accepts the creation of the election account. -/
def sampleInitEnv : InitEnv := { create := .ok ("sigInit", "pda"), createdAt := 0 }

/-- The ledger accepts a lifecycle call made at instant `now`. -/
def sampleLifecycleEnv (now : Instant) : LifecycleEnv := { now := now, ledger := .ok "sigStart" }

/-- Two elections are configured, then each of them is started; the ledger accepts every call. -/
def twoStarts : List Op :=
  [ .initializeElection sampleInitEnv sampleAdmin (sampleInitRequest "A"),
    .initializeElection sampleInitEnv sampleAdmin (sampleInitRequest "B"),
    .startElection (sampleLifecycleEnv 1000) sampleAdmin (.valid 1),
    .startElection (sampleLifecycleEnv 2000) sampleAdmin (.valid 2) ]

/-- The vote of `sampleVoter` for candidate 2 of post 1, accepted by the ledger. -/
def sampleVoteCall2 : VoteCall :=
  { env := sampleVoteEnv 3000 (.ok "sig2"), voter := sampleVoter,
    req := { electionId := .valid 7, postIndex := 1, candidateIndex := 2 } }

/-- A ledger on which the reclaim transfer is rejected. -/
def sampleRejectingTransferEnv : TransferEnv :=
  { keypair := .ok (), balance := .ok 2100000, fee := .ok 5000, send := fun _ => .error "rpc" }

/-- A store with the operator and one configured election (id 1, one hour, not started). -/
def sampleStoreConfigured : Store :=
  (initializeElection sampleVault sampleInitEnv sampleAdmin (sampleInitRequest "A")
    { users := [sampleAdmin], elections := [], votes := [] }).store

/-- The store after the configured election was started at instant 1000. -/
def sampleStoreStarted : Store :=
  (startElection sampleVault (sampleLifecycleEnv 1000) sampleAdmin (.valid 1)
    sampleStoreConfigured).store

/-- The store after the started election was ended at instant 5000. -/
def sampleStoreEnded : Store :=
  (endElection sampleVault (sampleLifecycleEnv 5000) sampleAdmin (.valid 1)
    sampleStoreStarted).store

/-- The tally held by the ledger for the one post. -/
def sampleTally : List LedgerPost :=
  [{ title := "President", candidates := ["Ada", "Bob"], results := [3, 1] }]

/-- A ledger that rejects the lifecycle call. -/
def sampleFailingLifecycleEnv : LifecycleEnv := { now := 2000, ledger := .error "rpc" }

/-- A request whose only post has a title and an empty candidate list. -/
def sampleEmptyCandidatesRequest : InitRequest :=
  { title := some "A", description := none,
    posts := some [{ title := some "President", description := none, candidates := some [] }],
    duration := some 1 }

/-- A request whose only post has candidates and no title. -/
def sampleUntitledPostRequest : InitRequest :=
  { title := some "A", description := none,
    posts := some [{ title := none, description := none,
                     candidates := some [.name "Ada", .name "Bob"] }],
    duration := some 1 }

/-- The ledger accepts the close and returns the tally. -/
def sampleCloseEnv : CloseEnv := { ledger := .ok "sigClose", tally := .ok sampleTally }

/-- The store after the ended election was closed with the tally fetched. -/
def sampleStoreClosed : Store :=
  (closeElection sampleVault sampleCloseEnv sampleAdmin (.valid 1) sampleStoreEnded).store

/-- Operations after the close, none of them a close: a new election is configured, the
closed election is started again, read after its new end date, and ended. -/
def sampleLaterOps : List Op :=
  [ .initializeElection sampleInitEnv sampleAdmin (sampleInitRequest "B"),
    .startElection (sampleLifecycleEnv 6000) sampleAdmin (.valid 1),
    .checkExpiry 7000 (.valid 1),
    .statusRead 9000000 1,
    .endElection (sampleLifecycleEnv 9000001) sampleAdmin (.valid 1) ]

/-- After the close a new election is configured, which creates a new ledger account; the
closed election is then closed once more, the ledger accepting the close and the tally
fetch failing. -/
def sampleSecondClose : List Op :=
  [ .initializeElection sampleInitEnv sampleAdmin (sampleInitRequest "B"),
    .closeElection { ledger := .ok "sigClose2", tally := .error "rpc" } sampleAdmin (.valid 1) ]

/-- A ledger client on which the transfer to `bad` fails and every other transfer succeeds. -/
def sampleBatchEnv (bad : String) : BatchEnv :=
  { keypair := .ok (), publicKey := fun _ => .ok (),
    send := fun _ address => if address = bad then .error "rpc" else .ok "sig" }

/-- Documents of the users collection: three participants, the operator, a document without
wallet and one with a blank address. -/
def sampleAccounts : List Account :=
  [ { walletPublicKey := some "w1", walletSecretKey := some sampleBlob },
    { walletPublicKey := some " adminWallet ", walletSecretKey := some sampleBlob },
    { walletPublicKey := some "w2 ", walletSecretKey := some sampleBlob },
    { walletPublicKey := none, walletSecretKey := some sampleBlob },
    { walletPublicKey := some "w4", walletSecretKey := none },
    { walletPublicKey := some "  ", walletSecretKey := some sampleBlob },
    { walletPublicKey := some "w3", walletSecretKey := some sampleBlob } ]

/-- One document with a key and an address made of blanks. -/
def sampleBlankAccounts : List Account :=
  [{ walletPublicKey := some "  ", walletSecretKey := some sampleBlob }]

/-- A post with two bare candidate names. -/
def sampleNamesPost : PostInput :=
  { title := some "President", description := none,
    candidates := some [.name "Ada", .name "Bob"] }

/-- A post with two candidate objects, the first with an image. -/
def sampleObjectsPost : PostInput :=
  { title := some "President", description := none,
    candidates := some [.object (some "Ada") (some "a.png"), .object (some "Bob") none] }

/-- A post with one candidate object whose image is the empty string. -/
def sampleEmptyImagePost : PostInput :=
  { title := some "President", description := none,
    candidates := some [.object (some "Ada") (some "")] }

/-! # Theorems -/

/-! ## Runtime primitives -/

theorem unhex_hexDigit (n : Nat) (h : n < 16) : unhex (hexDigit n) = some n := by
  revert n
  decide

theorem fromHex_toHex (bs : Bytes) (h : ∀ b ∈ bs, b < 256) : fromHex (toHex bs) = bs := by
  induction bs with
  | nil => rfl
  | cons b bs ih =>
    have hb : b < 256 := h b (List.mem_cons_self _ _)
    have h1 : unhex (hexDigit (b / 16 % 16)) = some (b / 16 % 16) :=
      unhex_hexDigit _ (Nat.mod_lt _ (by decide))
    have h2 : unhex (hexDigit (b % 16)) = some (b % 16) :=
      unhex_hexDigit _ (Nat.mod_lt _ (by decide))
    simp only [toHex, fromHex, h1, h2]
    rw [ih (fun x hx => h x (List.mem_cons_of_mem _ hx))]
    congr 1
    omega

theorem xorStream_involutive (ks : Nat → Nat) (bs : Bytes) (i : Nat) :
    xorStream ks i (xorStream ks i bs) = bs := by
  induction bs generalizing i with
  | nil => rfl
  | cons b bs ih =>
    simp only [xorStream, ih]
    congr 1
    rw [Nat.xor_assoc, Nat.xor_self, Nat.xor_zero]

theorem xorStream_lt (ks : Nat → Nat) (bs : Bytes) (i : Nat) (h : ∀ b ∈ bs, b < 256) :
    ∀ b ∈ xorStream ks i bs, b < 256 := by
  induction bs generalizing i with
  | nil => intro b hb; simp [xorStream] at hb
  | cons c cs ih =>
    intro b hb
    simp only [xorStream, List.mem_cons] at hb
    rcases hb with rfl | hb
    · exact Nat.xor_lt_two_pow (n := 8) (h c (List.mem_cons_self _ _)) (Nat.mod_lt _ (by decide))
    · exact ih (i + 1) (fun x hx => h x (List.mem_cons_of_mem _ hx)) b hb

theorem char_toNat_valid (c : Char) :
    c.toNat < 0xD800 ∨ (0xDFFF < c.toNat ∧ c.toNat < 0x110000) := c.valid

theorem utf8Lead_ascii (b : Nat) (h : b < 0x80) : utf8Lead b = ({}, [Char.ofNat b]) := by
  simp [utf8Lead, h]

theorem utf8Lead_two (b : Nat) (h1 : 0xC2 ≤ b) (h2 : b ≤ 0xDF) :
    utf8Lead b = ({ bytesNeeded := 1, codePoint := b % 32 }, []) := by
  have : ¬ b < 0x80 := by omega
  simp [utf8Lead, this, h1, h2]

theorem utf8Lead_three (b : Nat) (h1 : 0xE0 ≤ b) (h2 : b ≤ 0xEF) :
    utf8Lead b =
      ({ bytesNeeded := 2, codePoint := b % 16,
         lower := if b = 0xE0 then 0xA0 else 0x80,
         upper := if b = 0xED then 0x9F else 0xBF }, []) := by
  have e1 : ¬ b < 0x80 := by omega
  have e2 : ¬ (0xC2 ≤ b ∧ b ≤ 0xDF) := by omega
  simp [utf8Lead, e1, e2, h1, h2]

theorem utf8Lead_four (b : Nat) (h1 : 0xF0 ≤ b) (h2 : b ≤ 0xF4) :
    utf8Lead b =
      ({ bytesNeeded := 3, codePoint := b % 8,
         lower := if b = 0xF0 then 0x90 else 0x80,
         upper := if b = 0xF4 then 0x8F else 0xBF }, []) := by
  have e1 : ¬ b < 0x80 := by omega
  have e2 : ¬ (0xC2 ≤ b ∧ b ≤ 0xDF) := by omega
  have e3 : ¬ (0xE0 ≤ b ∧ b ≤ 0xEF) := by omega
  simp [utf8Lead, e1, e2, e3, h1, h2]

theorem utf8Step_start (b : Nat) : utf8Step {} b = utf8Lead b := by
  simp [utf8Step]

theorem utf8Step_last (st : Utf8State) (b : Nat) (hn : st.bytesNeeded ≠ 0)
    (hl : st.lower ≤ b) (hu : b ≤ st.upper) (hs : st.bytesSeen + 1 = st.bytesNeeded) :
    utf8Step st b = ({}, [Char.ofNat (st.codePoint * 64 + b % 64)]) := by
  have : ¬ (b < st.lower ∨ st.upper < b) := by omega
  simp [utf8Step, hn, this, hs]

theorem utf8Step_more (st : Utf8State) (b : Nat) (hn : st.bytesNeeded ≠ 0)
    (hl : st.lower ≤ b) (hu : b ≤ st.upper) (hs : st.bytesSeen + 1 ≠ st.bytesNeeded) :
    utf8Step st b =
      ({ st with codePoint := st.codePoint * 64 + b % 64, bytesSeen := st.bytesSeen + 1,
                 lower := 0x80, upper := 0xBF }, []) := by
  have : ¬ (b < st.lower ∨ st.upper < b) := by omega
  simp [utf8Step, hn, this, hs]

theorem utf8Decode_encodeChar (c : Char) (rest : Bytes) :
    utf8DecodeFrom {} (utf8EncodeChar c ++ rest) = c :: utf8DecodeFrom {} rest := by
  have hv := char_toNat_valid c
  have hc : Char.ofNat c.toNat = c := Char.ofNat_toNat c
  unfold utf8EncodeChar
  generalize c.toNat = n at hv hc ⊢
  by_cases h1 : n < 0x80
  · rw [if_pos h1]
    simp [utf8DecodeFrom, utf8Step_start, utf8Lead_ascii n h1, hc]
  · rw [if_neg h1]
    by_cases h2 : n < 0x800
    · rw [if_pos h2]
      simp only [List.cons_append, List.nil_append, utf8DecodeFrom, utf8Step_start]
      rw [utf8Lead_two _ (by omega) (by omega)]
      dsimp only
      rw [utf8Step_last _ _ (by simp) (by simp) (by simp; omega) (by simp)]
      dsimp only
      have e : (192 + n / 64) % 32 * 64 + (128 + n % 64) % 64 = n := by omega
      rw [e, hc]
      rfl
    · rw [if_neg h2]
      by_cases h3 : n < 0x10000
      · rw [if_pos h3]
        simp only [List.cons_append, List.nil_append, utf8DecodeFrom, utf8Step_start]
        rw [utf8Lead_three _ (by omega) (by omega)]
        dsimp only
        rw [utf8Step_more _ _ (by simp) (by dsimp only; split <;> omega)
          (by dsimp only; split <;> omega) (by simp)]
        dsimp only
        rw [utf8Step_last _ _ (by simp) (by simp) (by simp; omega) (by simp)]
        dsimp only
        have e : ((224 + n / 4096) % 16 * 64 + (128 + n / 64 % 64) % 64) * 64
            + (128 + n % 64) % 64 = n := by omega
        rw [e, hc]
        rfl
      · rw [if_neg h3]
        simp only [List.cons_append, List.nil_append, utf8DecodeFrom, utf8Step_start]
        rw [utf8Lead_four _ (by omega) (by omega)]
        dsimp only
        rw [utf8Step_more _ _ (by simp) (by dsimp only; split <;> omega)
          (by dsimp only; split <;> omega) (by simp)]
        dsimp only
        rw [utf8Step_more _ _ (by simp) (by simp) (by simp; omega) (by simp)]
        dsimp only
        rw [utf8Step_last _ _ (by simp) (by simp) (by simp; omega) (by simp)]
        dsimp only
        have e : (((240 + n / 262144) % 8 * 64 + (128 + n / 4096 % 64) % 64) * 64
            + (128 + n / 64 % 64) % 64) * 64 + (128 + n % 64) % 64 = n := by omega
        rw [e, hc]
        rfl

theorem utf8Decode_utf8Encode (s : List Char) : utf8Decode (utf8Encode s) = s := by
  unfold utf8Decode
  induction s with
  | nil => simp [utf8Encode, utf8DecodeFrom]
  | cons c cs ih => rw [utf8Encode, utf8Decode_encodeChar, ih]

theorem utf8EncodeChar_lt (c : Char) : ∀ b ∈ utf8EncodeChar c, b < 256 := by
  have hv := char_toNat_valid c
  intro b hb
  unfold utf8EncodeChar at hb
  generalize c.toNat = n at hv hb
  split at hb
  · simp at hb; omega
  · split at hb
    · simp at hb; omega
    · split at hb
      · simp at hb; omega
      · simp at hb; omega

theorem utf8Encode_lt (s : List Char) : ∀ b ∈ utf8Encode s, b < 256 := by
  induction s with
  | nil => intro b hb; simp [utf8Encode] at hb
  | cons c cs ih =>
    intro b hb
    rw [utf8Encode, List.mem_append] at hb
    rcases hb with hb | hb
    · exact utf8EncodeChar_lt c b hb
    · exact ih b hb

theorem hexDigit_ne_colon (n : Nat) : hexDigit (n % 16) ≠ ':' := by
  have h : ∀ m, m < 16 → hexDigit m ≠ ':' := by decide
  exact h _ (Nat.mod_lt _ (by decide))

theorem colon_not_mem_toHex (bs : Bytes) : ':' ∉ toHex bs := by
  induction bs with
  | nil => simp [toHex]
  | cons b bs ih =>
    simp only [toHex, List.mem_cons, not_or]
    exact ⟨fun h => hexDigit_ne_colon _ h.symm, fun h => hexDigit_ne_colon _ h.symm, ih⟩

theorem jsSplit_ne_nil (sep : Char) (s : List Char) : jsSplit sep s ≠ [] := by
  induction s with
  | nil => simp [jsSplit]
  | cons c cs ih =>
    unfold jsSplit
    split
    · simp
    · split <;> simp

theorem jsSplit_of_not_mem (sep : Char) (s : List Char) (h : sep ∉ s) :
    jsSplit sep s = [s] := by
  induction s with
  | nil => rfl
  | cons c cs ih =>
    simp only [List.mem_cons, not_or] at h
    have hc : ¬ c = sep := fun e => h.1 e.symm
    simp [jsSplit, hc, ih h.2]

theorem jsSplit_append (sep : Char) (a b : List Char) (h : sep ∉ a) :
    jsSplit sep (a ++ sep :: b) = a :: jsSplit sep b := by
  induction a with
  | nil => simp [jsSplit]
  | cons c cs ih =>
    simp only [List.mem_cons, not_or] at h
    have hc : ¬ c = sep := fun e => h.1 e.symm
    simp [jsSplit, hc, ih h.2]

theorem decrypt_encrypt_bytes (v : Vault) (iv data : Bytes) (hk : v.key.length = 32)
    (hiv : iv.length = 16) (hb : ∀ b ∈ iv, b < 256) (hd : ∀ b ∈ data, b < 256) :
    ∃ blob, encryptWalletSecret v iv data = .ok blob ∧
      decryptWalletSecret v blob = .ok (utf8Decode data) := by
  have hc : createCipheriv v iv = .ok (v.keystream v.key iv) := by
    simp [createCipheriv, hk, hiv]
  refine ⟨toHex iv ++ ':' :: toHex (xorStream (v.keystream v.key iv) 0 data), ?_, ?_⟩
  · simp [encryptWalletSecret, hc]
  · unfold decryptWalletSecret
    rw [jsSplit_append _ _ _ (colon_not_mem_toHex iv),
      jsSplit_of_not_mem _ _ (colon_not_mem_toHex _)]
    simp only [fromHex_toHex iv hb, hc,
      fromHex_toHex _ (xorStream_lt _ _ _ hd), xorStream_involutive]

/-! ## Custodial key vault -/

/-- Decryption of a blob `ivHex:encryptedHex` built from byte lists. -/
theorem decrypt_hex_blob (v : Vault) (iv enc : Bytes) (hk : v.key.length = 32)
    (hiv : iv.length = 16) (hb : ∀ b ∈ iv, b < 256) (he : ∀ b ∈ enc, b < 256) :
    decryptWalletSecret v (toHex iv ++ ':' :: toHex enc) =
      .ok (utf8Decode (xorStream (v.keystream v.key iv) 0 enc)) := by
  have hc : createCipheriv v iv = .ok (v.keystream v.key iv) := by
    simp [createCipheriv, hk, hiv]
  unfold decryptWalletSecret
  rw [jsSplit_append _ _ _ (colon_not_mem_toHex iv),
    jsSplit_of_not_mem _ _ (colon_not_mem_toHex _)]
  simp only [fromHex_toHex iv hb, hc, fromHex_toHex _ he]

theorem encrypt_ok_key (v : Vault) (iv data : Bytes) (blob : List Char)
    (h : encryptWalletSecret v iv data = .ok blob) :
    v.key.length = 32 ∧ blob = toHex iv ++ ':' :: toHex (xorStream (v.keystream v.key iv) 0 data) := by
  unfold encryptWalletSecret createCipheriv at h
  split at h
  · cases h
  · rename_i ks hks
    split at hks
    · cases hks
    · split at hks
      · cases hks
      · rename_i hlen _
        cases hks
        cases h
        exact ⟨by simpa using hlen, rfl⟩

/-- C7 (amended): for every text key (a string of Unicode scalar values, such as the
hex-encoded signing key the code stores), of any length, and every 16-byte initialization
vector, decrypting the blob produced by `encryptWalletSecret` returns the key; and the
encryption succeeds whenever the process key has 32 bytes. -/
theorem vault_round_trip_text (v : Vault) (iv : Bytes) (text : List Char)
    (hiv : iv.length = 16) (hb : ∀ b ∈ iv, b < 256) :
    (∀ blob, encryptWalletSecretText v iv text = .ok blob →
        decryptWalletSecret v blob = .ok text) ∧
    (v.key.length = 32 → ∃ blob, encryptWalletSecretText v iv text = .ok blob) := by
  constructor
  · intro blob h
    obtain ⟨hk, rfl⟩ := encrypt_ok_key v iv _ blob h
    rw [decrypt_hex_blob v iv _ hk hiv hb (xorStream_lt _ _ _ (utf8Encode_lt text)),
      xorStream_involutive, utf8Decode_utf8Encode]
  · intro hk
    obtain ⟨blob, h, _⟩ := decrypt_encrypt_bytes v iv _ hk hiv hb (utf8Encode_lt text)
    exact ⟨blob, h⟩

theorem sampleBlob_decrypts : decryptWalletSecret sampleVault sampleBlob = .ok sampleKeyText := by
  decide

/-- C7 (as stated, refuted): the one-byte key `[0xFF]` is encrypted without error under
every vault with a 32-byte key, and decrypting the blob returns the one-character string
U+FFFD, whose bytes are not the key. -/
theorem vault_round_trip_fails_on_raw_bytes :
    (∀ v : Vault, v.key.length = 32 →
      ∃ blob, encryptWalletSecret v sampleIv [255] = .ok blob ∧
        decryptWalletSecret v blob = .ok [replacementChar]) ∧
    utf8Encode [replacementChar] ≠ [255] := by
  constructor
  · intro v hk
    obtain ⟨blob, h1, h2⟩ := decrypt_encrypt_bytes v sampleIv [255] hk (by decide) (by decide)
      (by decide)
    exact ⟨blob, h1, h2⟩
  · decide

/-- C7 witness: the round trip at `sampleVault`, `sampleIv` and the key text `1f2e`. -/
theorem vault_round_trip_text_witness :
    (sampleIv.length = 16 ∧ ∀ b ∈ sampleIv, b < 256) ∧
    ((∀ blob, encryptWalletSecretText sampleVault sampleIv sampleKeyText = .ok blob →
        decryptWalletSecret sampleVault blob = .ok sampleKeyText) ∧
     (sampleVault.key.length = 32 →
        ∃ blob, encryptWalletSecretText sampleVault sampleIv sampleKeyText = .ok blob)) :=
  ⟨⟨by decide, by decide⟩,
    vault_round_trip_text sampleVault sampleIv sampleKeyText (by decide) (by decide)⟩

/-- C8 (amended): a blob without a `:` separator, and a blob whose part before the first
`:` does not hex-decode to exactly 16 bytes (wrong length, or non-hex characters cutting
the decoding short), make `decryptWalletSecret` fail with an error. -/
theorem decrypt_rejects_malformed_blob (v : Vault) (blob ivHex rest : List Char) :
    (':' ∉ blob → decryptWalletSecret v blob = .error .invalidArgType) ∧
    (blob = ivHex ++ ':' :: rest → ':' ∉ ivHex → (fromHex ivHex).length ≠ 16 →
      decryptWalletSecret v blob = .error .invalidKeyLength ∨
      decryptWalletSecret v blob = .error .invalidIV) := by
  constructor
  · intro h
    simp [decryptWalletSecret, jsSplit_of_not_mem _ _ h]
  · rintro rfl h1 h2
    unfold decryptWalletSecret
    rw [jsSplit_append _ _ _ h1]
    have hne := jsSplit_ne_nil ':' rest
    cases hs : jsSplit ':' rest with
    | nil => exact absurd hs hne
    | cons p ps =>
      simp only [createCipheriv]
      by_cases hk : v.key.length = 32
      · right; simp [hk, h2]
      · left; simp [hk]

/-- C8 witness: `abc` has no separator; `zz:00` and `0011:00` have an IV part that does not
decode to 16 bytes. -/
theorem decrypt_rejects_malformed_blob_witness :
    decryptWalletSecret sampleVault ['a', 'b', 'c'] = .error .invalidArgType ∧
    (decryptWalletSecret sampleVault ['z', 'z', ':', '0', '0'] = .error .invalidKeyLength ∨
      decryptWalletSecret sampleVault ['z', 'z', ':', '0', '0'] = .error .invalidIV) ∧
    (decryptWalletSecret sampleVault ['0', '0', '1', '1', ':', '0', '0'] = .error .invalidKeyLength ∨
      decryptWalletSecret sampleVault ['0', '0', '1', '1', ':', '0', '0'] = .error .invalidIV) :=
  ⟨(decrypt_rejects_malformed_blob sampleVault ['a', 'b', 'c'] [] []).1 (by decide),
   (decrypt_rejects_malformed_blob sampleVault ['z', 'z', ':', '0', '0'] ['z', 'z'] ['0', '0']).2
      rfl (by decide) (by decide),
   (decrypt_rejects_malformed_blob sampleVault ['0', '0', '1', '1', ':', '0', '0']
      ['0', '0', '1', '1'] ['0', '0']).2 rfl (by decide) (by decide)⟩

/-- C8 (as stated, refuted): under every vault with a 32-byte key, the blob of the key
`ab` cut after its first ciphertext byte decrypts without error to `a`, and a blob whose
ciphertext part is not hexadecimal decrypts without error to the empty string. -/
theorem decrypt_accepts_truncated_ciphertext :
    (∀ v : Vault, v.key.length = 32 →
      ∃ blob, encryptWalletSecretText v sampleIv ['a', 'b'] = .ok blob ∧
        decryptWalletSecret v (blob.take 35) = .ok ['a']) ∧
    (∀ v : Vault, v.key.length = 32 →
      decryptWalletSecret v (toHex sampleIv ++ [':', 'z', 'z']) = .ok []) := by
  constructor
  · intro v hk
    obtain ⟨blob, h1, _⟩ := decrypt_encrypt_bytes v sampleIv (utf8Encode ['a', 'b']) hk
      (by decide) (by decide) (utf8Encode_lt _)
    refine ⟨blob, h1, ?_⟩
    obtain ⟨_, rfl⟩ := encrypt_ok_key v sampleIv _ blob h1
    have ht : (toHex sampleIv ++ ':' ::
        toHex (xorStream (v.keystream v.key sampleIv) 0 (utf8Encode ['a', 'b']))).take 35 =
        toHex sampleIv ++ ':' :: toHex (xorStream (v.keystream v.key sampleIv) 0 [97]) := by
      rfl
    rw [ht, decrypt_hex_blob v sampleIv _ hk (by decide) (by decide)
      (xorStream_lt _ _ _ (by decide)), xorStream_involutive]
    decide
  · intro v hk
    have hc : createCipheriv v sampleIv = .ok (v.keystream v.key sampleIv) := by
      simp [createCipheriv, hk, sampleIv]
    unfold decryptWalletSecret
    rw [jsSplit_append _ _ _ (colon_not_mem_toHex sampleIv),
      jsSplit_of_not_mem _ _ (by decide)]
    simp only [fromHex_toHex sampleIv (by decide), hc]
    rfl

/-! ## Token circulation -/

/-- C10: full reclaim.  With balance `B` and quoted fee `F`, `sendAllSolFromUserToAdmin`
fails with the insufficient-balance error and submits no transfer exactly when
`B - F ≤ 0`; otherwise it submits exactly one transfer, of `B - F`, its result is the
outcome of that transfer, and amount plus fee is the balance. -/
theorem sendAll_reclaims_balance_minus_fee (env : TransferEnv) (key : List Char)
    (admin : String) (B F : Int) (hk : env.keypair = .ok ()) (hb : env.balance = .ok B)
    (hf : env.fee = .ok F) :
    (((sendAllSolFromUserToAdmin env key admin).1 = .error "Insufficient balance to send." ∧
        (sendAllSolFromUserToAdmin env key admin).2 = []) ↔ B - F ≤ 0) ∧
    (¬ B - F ≤ 0 →
      (sendAllSolFromUserToAdmin env key admin).2 = [.transfer key admin (B - F)] ∧
      (sendAllSolFromUserToAdmin env key admin).1 = env.send (B - F) ∧
      (B - F) + F = B) := by
  unfold sendAllSolFromUserToAdmin
  simp only [hk, hb, hf]
  by_cases h : B - F ≤ 0
  · simp [h]
  · simp only [h, if_false, iff_false, not_and, not_false_eq_true, forall_const]
    cases hs : env.send (B - F) <;> simp

/-- C10 witness: balance 2,100,000 and fee 5,000 give one transfer of 2,095,000. -/
theorem sendAll_reclaims_balance_minus_fee_witness :
    (sendAllSolFromUserToAdmin (sampleTransferEnv 2100000 5000) sampleKeyText "admin").2 =
      [.transfer sampleKeyText "admin" 2095000] :=
  ((sendAll_reclaims_balance_minus_fee (sampleTransferEnv 2100000 5000) sampleKeyText "admin"
    2100000 5000 rfl rfl rfl).2 (by decide)).1

theorem log2Fuel_spec (fuel : Nat) : ∀ n : Nat, n ≤ fuel → n ≠ 0 →
    2 ^ log2Fuel fuel n ≤ n ∧ n < 2 ^ (log2Fuel fuel n + 1) := by
  induction fuel with
  | zero => intro n h hn; omega
  | succ f ih =>
    intro n h hn
    unfold log2Fuel
    split
    · rename_i h2
      obtain ⟨h3, h4⟩ := ih (n / 2) (by omega) (by omega)
      rw [pow_succ] at h4 ⊢
      rw [pow_succ]
      constructor <;> omega
    · simp; omega

theorem floorLog2_le (n : Nat) (hn : n ≠ 0) : 2 ^ floorLog2 n ≤ n :=
  (log2Fuel_spec n n (le_refl n) hn).1

theorem lt_floorLog2 (n : Nat) : n < 2 ^ (floorLog2 n + 1) := by
  by_cases hn : n = 0
  · subst hn; exact Nat.pow_pos (by decide)
  · exact (log2Fuel_spec n n (le_refl n) hn).2

/-- A non-negative binade is a lower bound: `d * 2 ^ e ≤ n`. -/
theorem binade_le (n d : Nat) (h : 0 ≤ binade n d) :
    d * 2 ^ (binade n d).toNat ≤ n := by
  unfold binade at h ⊢
  split
  · rename_i ht
    rw [if_pos ht] at h
    have hab : floorLog2 d ≤ floorLog2 n := by omega
    have e : ((floorLog2 n : Int) - floorLog2 d).toNat = floorLog2 n - floorLog2 d := by omega
    rw [e]
    have hp : 2 ^ floorLog2 n = 2 ^ (floorLog2 n - floorLog2 d) * 2 ^ floorLog2 d := by
      rw [← pow_add, Nat.sub_add_cancel hab]
    rw [hp, ← mul_assoc] at ht
    exact Nat.le_of_mul_le_mul_right ht (Nat.pow_pos (by decide))
  · rename_i ht
    rw [if_neg ht] at h
    have hab : floorLog2 d + 1 ≤ floorLog2 n := by omega
    have e : ((floorLog2 n : Int) - floorLog2 d - 1).toNat =
        floorLog2 n - (floorLog2 d + 1) := by omega
    rw [e]
    have hn : n ≠ 0 := by
      intro h0
      subst h0
      have : floorLog2 0 = 0 := rfl
      omega
    have h1 := floorLog2_le n hn
    have h2 := lt_floorLog2 d
    have hp : 2 ^ floorLog2 n =
        2 ^ (floorLog2 d + 1) * 2 ^ (floorLog2 n - (floorLog2 d + 1)) := by
      rw [← pow_add, Nat.add_sub_cancel' hab]
    calc d * 2 ^ (floorLog2 n - (floorLog2 d + 1))
        ≤ 2 ^ (floorLog2 d + 1) * 2 ^ (floorLog2 n - (floorLog2 d + 1)) :=
          Nat.mul_le_mul_right _ (le_of_lt h2)
      _ = 2 ^ floorLog2 n := hp.symm
      _ ≤ n := h1

theorem roundTiesEven_ge (n d : Nat) : n / d ≤ roundTiesEven n d := by
  unfold roundTiesEven
  repeat' split
  all_goals omega

theorem roundTiesEven_le (n d : Nat) : roundTiesEven n d ≤ n / d + 1 := by
  unfold roundTiesEven
  repeat' split
  all_goals omega

/-- The floor of the rounded value of `n / d` when `n / d` is below `2 ^ 53`. -/
theorem roundDouble_floor_bounds (n d : Nat) (h : n < d * 2 ^ 53) :
    n / d ≤ (roundDouble n d).num / (roundDouble n d).den ∧
    (roundDouble n d).num / (roundDouble n d).den ≤ n / d + 1 := by
  have hq : max (binade n d - 52) (-1074) ≤ 0 := by
    by_contra hc
    have h1 : 53 ≤ binade n d := by
      rcases max_cases (binade n d - 52) (-1074) with ⟨h2, _⟩ | ⟨h2, _⟩ <;> omega
    have h2 := binade_le n d (by omega)
    have h3 : 2 ^ 53 ≤ 2 ^ (binade n d).toNat :=
      Nat.pow_le_pow_right (by decide) (by omega)
    have h4 : d * 2 ^ 53 ≤ d * 2 ^ (binade n d).toNat := Nat.mul_le_mul_left d h3
    omega
  unfold roundDouble Double.num Double.den
  simp only
  generalize max (binade n d - 52) (-1074) = q at hq
  have e1 : q.toNat = 0 := by omega
  rw [e1, pow_zero, mul_one, mul_one]
  generalize (-q).toNat = k
  have hk : 0 < 2 ^ k := Nat.pow_pos (by decide)
  have hfloor : n * 2 ^ k / d / 2 ^ k = n / d := by
    rw [Nat.div_div_eq_div_mul, Nat.mul_div_mul_right _ _ hk]
  constructor
  · rw [← hfloor]
    exact Nat.div_le_div_right (roundTiesEven_ge _ _)
  · calc roundTiesEven (n * 2 ^ k) d / 2 ^ k
        ≤ (n * 2 ^ k / d + 1) / 2 ^ k := Nat.div_le_div_right (roundTiesEven_le _ _)
      _ ≤ (n * 2 ^ k / d + 2 ^ k) / 2 ^ k := Nat.div_le_div_right (by omega)
      _ = n * 2 ^ k / d / 2 ^ k + 1 := Nat.add_div_right _ hk
      _ = n / d + 1 := by rw [hfloor]

/-- The floor of the rounded value of `n / d` is at least 1 when `n / d` is. -/
theorem roundDouble_floor_pos (n d : Nat) (hd : 0 < d) (h : d ≤ n) :
    1 ≤ (roundDouble n d).num / (roundDouble n d).den := by
  unfold roundDouble Double.num Double.den
  simp only
  rcases le_or_lt (max (binade n d - 52) (-1074)) 0 with hq | hq
  · generalize max (binade n d - 52) (-1074) = q at hq
    have e1 : q.toNat = 0 := by omega
    rw [e1, pow_zero, mul_one, mul_one]
    generalize (-q).toNat = k
    have hk : 0 < 2 ^ k := Nat.pow_pos (by decide)
    rw [Nat.one_le_div_iff hk]
    calc 2 ^ k = d * 2 ^ k / d := (Nat.mul_div_cancel_left _ hd).symm
      _ ≤ n * 2 ^ k / d := Nat.div_le_div_right (Nat.mul_le_mul_right _ h)
      _ ≤ roundTiesEven (n * 2 ^ k) d := roundTiesEven_ge _ _
  · have hb : max (binade n d - 52) (-1074) = binade n d - 52 := by
      rcases max_cases (binade n d - 52) (-1074) with ⟨h2, _⟩ | ⟨h2, _⟩ <;> omega
    rw [hb] at hq ⊢
    have h2 := binade_le n d (by omega)
    have e1 : (-(binade n d - 52)).toNat = 0 := by omega
    rw [e1, pow_zero, mul_one, Nat.div_one]
    have h3 : 2 ^ (binade n d - 52).toNat ≤ 2 ^ (binade n d).toNat :=
      Nat.pow_le_pow_right (by decide) (by omega)
    have h4 : d * 2 ^ (binade n d - 52).toNat ≤ n :=
      le_trans (Nat.mul_le_mul_left d h3) h2
    have hpos : 0 < d * 2 ^ (binade n d - 52).toNat :=
      Nat.mul_pos hd (Nat.pow_pos (by decide))
    have h5 : 1 ≤ n / (d * 2 ^ (binade n d - 52).toNat) := (Nat.one_le_div_iff hpos).mpr h4
    have h6 := roundTiesEven_ge n (d * 2 ^ (binade n d - 52).toNat)
    have h7 : 1 ≤ 2 ^ (binade n d - 52).toNat := Nat.pow_pos (by decide)
    calc 1 ≤ roundTiesEven n (d * 2 ^ (binade n d - 52).toNat) := le_trans h5 h6
      _ ≤ _ := Nat.le_mul_of_pos_right _ h7

/-- The literal `0.9` is the double `8106479329266893 * 2 ^ (-53)`. -/
theorem ninetyPercent_eq : ninetyPercent = ⟨8106479329266893, -53⟩ := by decide

set_option maxRecDepth 4000 in
/-- Values of `Math.floor(balance * percent)`: `Math.floor(100 * 0.57)` is 56,
`Math.floor(7279025197389391 * 0.9)` is 6551122677650452 and
`Math.floor(3 * 0.3333333333333333)` is 1. -/
theorem floorMul_examples :
    floorMul 100 (roundDouble 57 100) = 56 ∧
    floorMul 7279025197389391 ninetyPercent = 6551122677650452 ∧
    floorMul 3 (roundDouble 3333333333333333 10000000000000000) = 1 := by
  decide

theorem floorMul_ninety_pos (B : Int) (h : 2 ≤ B) : 1 ≤ floorMul B ninetyPercent := by
  unfold floorMul
  rw [if_pos (by omega)]
  have hd : ninetyPercent.den = 9007199254740992 := by decide
  have hn : ninetyPercent.num = 8106479329266893 := by decide
  rw [hd, hn]
  have := roundDouble_floor_pos (B.natAbs * 8106479329266893) 9007199254740992
    (by decide) (by omega)
  exact_mod_cast this

theorem floorMul_bounds (B : Int) (p : Double) (h0 : 0 ≤ B) (h53 : B < 2 ^ 53)
    (hp : p.num ≤ p.den) :
    exactFloorMul B p.num p.den ≤ floorMul B p ∧
    floorMul B p ≤ exactFloorMul B p.num p.den + 1 := by
  have hd : 0 < p.den := Nat.pow_pos (by decide)
  have hB : B = (B.natAbs : Int) := (Int.natAbs_of_nonneg h0).symm
  have hlt : B.natAbs * p.num < p.den * 2 ^ 53 := by
    have h1 : B.natAbs < 2 ^ 53 := by omega
    calc B.natAbs * p.num ≤ B.natAbs * p.den := Nat.mul_le_mul_left _ hp
      _ < 2 ^ 53 * p.den := Nat.mul_lt_mul_of_pos_right h1 hd
      _ = p.den * 2 ^ 53 := Nat.mul_comm _ _
  have hb := roundDouble_floor_bounds (B.natAbs * p.num) p.den hlt
  have he : exactFloorMul B p.num p.den = ((B.natAbs * p.num / p.den : Nat) : Int) := by
    unfold exactFloorMul
    rw [hB]
    simp only [Int.natAbs_ofNat]
    norm_cast
  unfold floorMul
  rw [if_pos h0, he]
  constructor
  · exact_mod_cast hb.1
  · exact_mod_cast hb.2

/-- C9 (amended): percentage reclaim at the fraction 0.9.  For non-negative balance `B`
and fee `F` with `B > F`, other than `B = 1` with `F = 0`, `sendBackToAdmin` submits
exactly one transfer, of an amount with `0 < amount ≤ B - F`, and its result is the
outcome of that transfer; for every `B ≤ F` it fails with the insufficient-balance error
and submits no transfer. -/
theorem sendBack_amount_bounds (env : TransferEnv) (key : List Char) (admin : String)
    (B F : Int) (hk : env.keypair = .ok ()) (hb : env.balance = .ok B)
    (hf : env.fee = .ok F) :
    (0 ≤ B → 0 ≤ F → F < B → ¬ (B = 1 ∧ F = 0) →
      ∃ amount : Int, 0 < amount ∧ amount ≤ B - F ∧
        (sendBackToAdmin env key admin ninetyPercent).2 = [.transfer key admin amount] ∧
        (sendBackToAdmin env key admin ninetyPercent).1 = env.send amount) ∧
    (B ≤ F →
      sendBackToAdmin env key admin ninetyPercent =
        (.error "Insufficient balance to send.", [])) := by
  unfold sendBackToAdmin
  simp only [hk, hb, hf]
  constructor
  · intro h0 hF hlt hne
    have hB : 2 ≤ B := by omega
    have hfl := floorMul_ninety_pos B hB
    by_cases hc : B - floorMul B ninetyPercent < F
    · refine ⟨B - F, by omega, le_refl _, ?_⟩
      have : ¬ B - F ≤ 0 := by omega
      simp only [hc, if_true, this, if_false]
      cases hs : env.send (B - F) <;> simp
    · refine ⟨floorMul B ninetyPercent, by omega, by omega, ?_⟩
      have : ¬ floorMul B ninetyPercent ≤ 0 := by omega
      simp only [hc, if_false, this]
      cases hs : env.send (floorMul B ninetyPercent) <;> simp
  · intro hle
    by_cases hc : B - floorMul B ninetyPercent < F
    · have : B - F ≤ 0 := by omega
      simp [hc, this]
    · have : floorMul B ninetyPercent ≤ 0 := by omega
      simp [hc, this]

/-- C9 witness: balance 2,100,000 and fee 5,000 give one transfer of 1,890,000; balance
4,000 and fee 5,000 give the insufficient-balance error. -/
theorem sendBack_amount_bounds_witness :
    (∃ amount : Int, 0 < amount ∧ amount ≤ 2100000 - 5000 ∧
        (sendBackToAdmin (sampleTransferEnv 2100000 5000) sampleKeyText "admin"
          ninetyPercent).2 = [.transfer sampleKeyText "admin" amount] ∧
        (sendBackToAdmin (sampleTransferEnv 2100000 5000) sampleKeyText "admin"
          ninetyPercent).1 = (sampleTransferEnv 2100000 5000).send amount) ∧
    sendBackToAdmin (sampleTransferEnv 4000 5000) sampleKeyText "admin" ninetyPercent =
      (.error "Insufficient balance to send.", []) :=
  ⟨(sendBack_amount_bounds (sampleTransferEnv 2100000 5000) sampleKeyText "admin"
      2100000 5000 rfl rfl rfl).1 (by decide) (by decide) (by decide) (by decide),
   (sendBack_amount_bounds (sampleTransferEnv 4000 5000) sampleKeyText "admin"
      4000 5000 rfl rfl rfl).2 (by decide)⟩

/-- C9 (as stated, refuted): with balance 1 and fee 0 the balance exceeds the fee, yet
`floor(1 * 0.9) = 0` and `sendBackToAdmin` fails with the insufficient-balance error and
submits no transfer, whatever the ledger would answer to a transfer. -/
theorem sendBack_fails_with_balance_one_fee_zero :
    (0 : Int) < 1 ∧
    ∀ (send : Int → Except String String) (key : List Char) (admin : String),
      sendBackToAdmin { keypair := .ok (), balance := .ok 1, fee := .ok 0, send := send }
        key admin ninetyPercent = (.error "Insufficient balance to send.", []) := by
  refine ⟨by decide, ?_⟩
  intro send key admin
  have h : floorMul 1 ninetyPercent = 0 := by decide
  unfold sendBackToAdmin
  simp [h]

/-! ## Vote ledger -/

theorem updateElection_votes (s : Store) (id : ObjectId) (f : Election → Election) :
    (s.updateElection id f).votes = s.votes := rfl

theorem insertVote_votes (s s1 : Store) (r : VoteRecord) (h : s.insertVote r = some s1) :
    s1.votes = s.votes ++ [r] ∧ s1.elections = s.elections ∧ s1.users = s.users ∧
      s.findVote r.userId r.electionId r.postIndex = none ∧ r.transactionId ≠ "" := by
  unfold Store.insertVote at h
  split at h
  · cases h
  · rename_i h1
    split at h
    · cases h
    · rename_i h2
      cases h
      simp only [not_or] at h1
      simp at h2
      exact ⟨rfl, rfl, rfl, h2, h1.1⟩

/-- What `submitVote` can do to the store: nothing, the expiry transition, or the insertion
of one record carrying the transaction of the ledger submission of this call. -/
theorem submitVote_store_cases (v : Vault) (env : VoteEnv) (voter : User) (req : VoteRequest)
    (s : Store) :
    ((submitVote v env voter req s).store = s) ∨
    (∃ id, (submitVote v env voter req s).store =
        s.updateElection id (fun e => { e with isActive := false }) ∧
      (submitVote v env voter req s).calls = []) ∨
    (∃ r key, env.vote = .ok r.transactionId ∧
      s.insertVote r = some (submitVote v env voter req s).store ∧
      r.userId = voter.id ∧ req.electionId = .valid r.electionId ∧
      r.postIndex = req.postIndex ∧ r.candidateIndex = req.candidateIndex ∧
      LedgerCall.submitVote key req.postIndex req.candidateIndex ∈
        (submitVote v env voter req s).calls) := by
  unfold submitVote
  split
  · left; rfl
  · left; rfl
  · rename_i electionId hid
    split
    · left; rfl
    · rename_i election hfind
      split
      · left; rfl
      · split
        · right; left; exact ⟨_, rfl, rfl⟩
        · split
          · left; rfl
          · split
            · left; rfl
            · rename_i post hpost
              split
              · left; rfl
              · unfold submitVoteCommit
                split
                · left; rfl
                · split
                  · left; rfl
                  · rename_i key hkey
                    split
                    · left; rfl
                    · rename_i tx htx
                      split
                      · left; rfl
                      · rename_i s1 hins
                        right; right
                        have hid2 : election.id = electionId := by
                          have := List.find?_some hfind
                          simpa using this
                        refine ⟨_, key, htx, hins, rfl, ?_, rfl, rfl, ?_⟩
                        · simp [hid, hid2]
                        · simp

theorem insertVote_unique (s s1 : Store) (r : VoteRecord) (h : s.insertVote r = some s1)
    (hu : UniqueVotes s) : UniqueVotes s1 := by
  obtain ⟨hv, _, _, hnone, _⟩ := insertVote_votes s s1 r h
  unfold UniqueVotes at hu ⊢
  rw [hv, List.pairwise_append]
  refine ⟨hu, List.pairwise_singleton _ _, ?_⟩
  intro a ha b hb
  simp only [List.mem_singleton] at hb
  subst hb
  unfold Store.findVote at hnone
  have := List.find?_eq_none.mp hnone a ha
  simpa using this

theorem submitVote_unique (v : Vault) (env : VoteEnv) (voter : User) (req : VoteRequest)
    (s : Store) (hu : UniqueVotes s) : UniqueVotes (submitVote v env voter req s).store := by
  rcases submitVote_store_cases v env voter req s with h | ⟨id, h, _⟩ | ⟨r, key, _, h, _⟩
  · rw [h]; exact hu
  · rw [h]; exact hu
  · exact insertVote_unique s _ r h hu

/-- C1: from a store without duplicates, every store reached by a sequence of `submitVote`
calls executed one after the other (any voters, elections, indices and ledger answers) has
no two vote records with the same `(userId, electionId, postIndex)`. -/
theorem runVotes_unique (v : Vault) (calls : List VoteCall) (s : Store) (hu : UniqueVotes s) :
    UniqueVotes (runVotes v calls s) := by
  induction calls generalizing s with
  | nil => exact hu
  | cons c cs ih => exact ih _ (submitVote_unique v c.env c.voter c.req s hu)

/-- C1 witness: the same accepted vote submitted twice leaves one record. -/
theorem runVotes_unique_witness :
    UniqueVotes sampleStore ∧
    UniqueVotes (runVotes sampleVault [sampleVoteCall, sampleVoteCall] sampleStore) ∧
    runVotes sampleVault [sampleVoteCall, sampleVoteCall] sampleStore = sampleStoreVoted :=
  ⟨List.Pairwise.nil,
   runVotes_unique sampleVault [sampleVoteCall, sampleVoteCall] sampleStore List.Pairwise.nil,
   by decide⟩

/-- C2: when the ledger submission of a `submitVote` call fails, the vote records after the
call are those before it; and every vote record that a call creates carries the
transaction identifier returned by the ledger submission of that call, which was issued. -/
theorem submitVote_records_only_after_ledger (v : Vault) (env : VoteEnv) (voter : User)
    (req : VoteRequest) (s : Store) :
    ((∃ e, env.vote = .error e) → (submitVote v env voter req s).store.votes = s.votes) ∧
    (∀ r ∈ (submitVote v env voter req s).store.votes, r ∉ s.votes →
      env.vote = .ok r.transactionId ∧
      ∃ key, LedgerCall.submitVote key r.postIndex r.candidateIndex ∈
        (submitVote v env voter req s).calls) := by
  rcases submitVote_store_cases v env voter req s with
    h | ⟨id, h, _⟩ | ⟨r, key, hok, h, _, _, hp, hc, hcall⟩
  · rw [h]
    exact ⟨fun _ => rfl, fun r hr hn => absurd hr hn⟩
  · rw [h]
    exact ⟨fun _ => rfl, fun r hr hn => absurd hr hn⟩
  · obtain ⟨hv, _⟩ := insertVote_votes s _ r h
    constructor
    · rintro ⟨e, he⟩
      rw [he] at hok
      cases hok
    · intro r1 hr1 hn
      rw [hv, List.mem_append, List.mem_singleton] at hr1
      rcases hr1 with hr1 | rfl
      · exact absurd hr1 hn
      · exact ⟨hok, key, by rw [hp, hc]; exact hcall⟩

/-- C2 witness: a rejected submission leaves the records as they were; an accepted one adds
a record with the ledger transaction `sig1`. -/
theorem submitVote_records_only_after_ledger_witness :
    (submitVote sampleVault (sampleVoteEnv 2000 (.error "rpc")) sampleVoter
        sampleVoteCall.req sampleStore).store.votes = sampleStore.votes ∧
    (submitVote sampleVault sampleVoteCall.env sampleVoter sampleVoteCall.req
        sampleStore).store.votes.map (fun r => r.transactionId) = ["sig1"] :=
  ⟨(submitVote_records_only_after_ledger sampleVault (sampleVoteEnv 2000 (.error "rpc"))
      sampleVoter sampleVoteCall.req sampleStore).1 ⟨"rpc", rfl⟩,
   by decide⟩

theorem findElection_id (s : Store) (id : ObjectId) (election : Election)
    (h : s.findElection id = some election) : election.id = id := by
  have := List.find?_some h
  simpa using this

theorem findElection_updateElection (s : Store) (id : ObjectId) (f : Election → Election)
    (hf : ∀ e, (f e).id = e.id) :
    (s.updateElection id f).findElection id = (s.findElection id).map f := by
  unfold Store.findElection Store.updateElection
  simp only
  induction s.elections with
  | nil => rfl
  | cons e es ih =>
    rw [List.map_cons, List.find?_cons, List.find?_cons]
    cases he : e.id == id with
    | true =>
      have h1 : ((f e).id == id) = true := by rw [hf]; exact he
      simp only [if_true, h1, Option.map_some']
    | false =>
      simp only [Bool.false_eq_true, if_false, he]
      exact ih

/-- C3: for an election stored as active, any instant `now` later than its end date and any
request, `submitVote` answers 400 `This election has ended`, stores the election as
inactive (nothing else in the store changes), issues no ledger call and creates no vote
record. -/
theorem submitVote_after_endDate (v : Vault) (env : VoteEnv) (voter : User) (req : VoteRequest)
    (s : Store) (id : ObjectId) (election : Election) (endDate : Instant)
    (hreq : req.electionId = .valid id) (hfind : s.findElection id = some election)
    (hact : election.isActive = true) (hend : election.endDate = some endDate)
    (hnow : endDate < env.now) :
    (submitVote v env voter req s).reply = .failure 400 "This election has ended" ∧
    (submitVote v env voter req s).store =
      s.updateElection id (fun e => { e with isActive := false }) ∧
    (submitVote v env voter req s).store.findElection id =
      some { election with isActive := false } ∧
    (submitVote v env voter req s).calls = [] ∧
    (submitVote v env voter req s).store.votes = s.votes := by
  have hid := findElection_id s id election hfind
  have hout : submitVote v env voter req s =
      ⟨s.updateElection id (fun e => { e with isActive := false }),
        .failure 400 "This election has ended", []⟩ := by
    unfold submitVote
    simp [hreq, hfind, hact, hend, dateAfter, hnow, hid]
  rw [hout]
  refine ⟨rfl, rfl, ?_, rfl, rfl⟩
  have hupd := findElection_updateElection s id (fun e => { e with isActive := false })
    (fun _ => rfl)
  simp only
  rw [hupd, hfind]
  rfl

/-- C3 witness: a vote at instant 3,601,001, one millisecond after the end date. -/
theorem submitVote_after_endDate_witness :
    (submitVote sampleVault (sampleVoteEnv 3601001 (.ok "sig1")) sampleVoter
        sampleVoteCall.req sampleStore).reply = .failure 400 "This election has ended" ∧
    (submitVote sampleVault (sampleVoteEnv 3601001 (.ok "sig1")) sampleVoter
        sampleVoteCall.req sampleStore).store.findElection 7 =
      some { sampleElection with isActive := false } ∧
    (submitVote sampleVault (sampleVoteEnv 3601001 (.ok "sig1")) sampleVoter
        sampleVoteCall.req sampleStore).calls = [] ∧
    (submitVote sampleVault (sampleVoteEnv 3601001 (.ok "sig1")) sampleVoter
        sampleVoteCall.req sampleStore).store.votes = [] :=
  have h := submitVote_after_endDate sampleVault (sampleVoteEnv 3601001 (.ok "sig1"))
    sampleVoter sampleVoteCall.req sampleStore 7 sampleElection 3601000 rfl (by decide) rfl rfl
    (by decide)
  ⟨h.1, h.2.2.1, h.2.2.2.1, h.2.2.2.2⟩

/-- Through the route `POST /submit` the expiry middleware runs first: when its instant is
already past the end date it stores the election as inactive, and the handler then answers
400 `This election is not currently active`; no ledger call, no vote record. -/
theorem submitVoteRoute_after_endDate (v : Vault) (now0 : Instant) (env : VoteEnv)
    (voter : User) (req : VoteRequest) (s : Store) (id : ObjectId) (election : Election)
    (endDate : Instant) (hreq : req.electionId = .valid id)
    (hfind : s.findElection id = some election) (hact : election.isActive = true)
    (hend : election.endDate = some endDate) (hnow : endDate < now0) :
    ∃ out, submitVoteRoute v now0 env voter req s = some out ∧
      out.reply = .failure 400 "This election is not currently active" ∧
      out.store.findElection id = some { election with isActive := false } ∧
      out.calls = [] ∧ out.store.votes = s.votes := by
  have hmid : checkElectionExpiry now0 req.electionId s =
      some (s.updateElection id (fun e => { e with isActive := false })) := by
    simp [checkElectionExpiry, hreq, hfind, hact, hend, dateAfter, hnow]
  have hf2 : (s.updateElection id (fun e => { e with isActive := false })).findElection id =
      some { election with isActive := false } := by
    rw [findElection_updateElection s id (fun e => { e with isActive := false })
      (fun _ => rfl), hfind]
    rfl
  refine ⟨_, by rw [submitVoteRoute, hmid], ?_⟩
  unfold submitVote
  simp [hreq, hf2, updateElection_votes]

theorem jsIndex_some_lt {α : Type} (xs : List α) (i : Int) (x : α)
    (h : jsIndex xs i = some x) : 0 ≤ i ∧ i < xs.length := by
  unfold jsIndex at h
  split at h
  · rename_i h0
    have := List.get?_eq_some.mp h
    obtain ⟨hlt, _⟩ := this
    exact ⟨h0, by omega⟩
  · cases h

/-- The duplicate check of `submitVote`: with the election active and unexpired and the
indices passing the range validation, an existing record for the triple ends the request. -/
theorem submitVote_existing_vote (v : Vault) (env : VoteEnv) (voter : User)
    (req : VoteRequest) (s : Store) (id : ObjectId) (election : Election) (post : Post)
    (existing : VoteRecord)
    (hreq : req.electionId = .valid id) (hfind : s.findElection id = some election)
    (hact : election.isActive = true) (hexp : dateAfter env.now election.endDate = false)
    (hpost : jsIndex election.posts req.postIndex = some post)
    (hcand : req.candidateIndex < post.candidates.length)
    (hvote : s.findVote voter.id id req.postIndex = some existing) :
    submitVote v env voter req s =
      ⟨s, .failure 400 "You have already voted for this post", []⟩ := by
  have hid := findElection_id s id election hfind
  have hlt := (jsIndex_some_lt _ _ _ hpost).2
  have h1 : ¬ req.postIndex ≥ election.posts.length := by omega
  have h2 : ¬ req.candidateIndex ≥ post.candidates.length := by omega
  unfold submitVote
  simp only [hreq, hfind, hact, hexp, h1, hpost, h2]
  simp [submitVoteCommit, hid, hvote]

/-- What a successful `submitVote` went through. -/
theorem submitVote_success_inv (v : Vault) (env : VoteEnv) (voter : User) (req : VoteRequest)
    (s : Store) (st : Nat) (msg : String) (receipt : VoteReceipt)
    (h : (submitVote v env voter req s).reply = .success st msg receipt) :
    ∃ id election post r, req.electionId = .valid id ∧ s.findElection id = some election ∧
      election.isActive = true ∧ dateAfter env.now election.endDate = false ∧
      jsIndex election.posts req.postIndex = some post ∧
      req.candidateIndex < post.candidates.length ∧
      s.insertVote r = some (submitVote v env voter req s).store ∧
      r.userId = voter.id ∧ r.electionId = id ∧ r.postIndex = req.postIndex := by
  unfold submitVote at h
  split at h
  · cases h
  · cases h
  · rename_i electionId hid
    split at h
    · cases h
    · rename_i election hfind
      split at h
      · cases h
      · rename_i hact
        split at h
        · cases h
        · rename_i hexp
          split at h
          · cases h
          · rename_i hpi
            split at h
            · cases h
            · rename_i post hpost
              split at h
              · cases h
              · rename_i hci
                unfold submitVoteCommit at h
                split at h
                · cases h
                · rename_i hfv
                  split at h
                  · cases h
                  · rename_i key hkey
                    split at h
                    · cases h
                    · rename_i tx htx
                      split at h
                      · cases h
                      · rename_i s1 hins
                        have hout : (submitVote v env voter req s).store = s1 := by
                          unfold submitVote
                          simp only [hid, hfind, hact, hexp, hpi, hpost, hci]
                          simp only [submitVoteCommit, hfv, hkey, htx, hins]
                          simp
                        refine ⟨electionId, election, post, _, hid, hfind, ?_, ?_, hpost, ?_,
                          hout ▸ hins, rfl, findElection_id s _ _ hfind, rfl⟩
                        · simpa using hact
                        · simpa using hexp
                        · omega

/-- C5 (amended): for an active, unexpired election and a request whose post index is an
index of the posts and whose candidate index is below the number of candidates of that
post, if a vote record of the voter for that election and post exists then `submitVote`
answers 400 `You have already voted for this post`, issues no ledger call and leaves the
store unchanged; hence a vote that has just been accepted is rejected in this way when it
is submitted again while the election is unexpired. -/
theorem submitVote_rejects_repeated_vote (v : Vault) (env env2 : VoteEnv) (voter : User)
    (req : VoteRequest) (s : Store) (id : ObjectId) (election : Election)
    (hreq : req.electionId = .valid id) (hfind : s.findElection id = some election) :
    (∀ post existing, election.isActive = true →
      dateAfter env.now election.endDate = false →
      jsIndex election.posts req.postIndex = some post →
      req.candidateIndex < post.candidates.length →
      s.findVote voter.id id req.postIndex = some existing →
      submitVote v env voter req s =
        ⟨s, .failure 400 "You have already voted for this post", []⟩) ∧
    (∀ st msg receipt, (submitVote v env voter req s).reply = .success st msg receipt →
      dateAfter env2.now election.endDate = false →
      submitVote v env2 voter req (submitVote v env voter req s).store =
        ⟨(submitVote v env voter req s).store,
          .failure 400 "You have already voted for this post", []⟩) := by
  constructor
  · intro post existing hact hexp hpost hcand hvote
    exact submitVote_existing_vote v env voter req s id election post existing hreq hfind
      hact hexp hpost hcand hvote
  · intro st msg receipt hs hexp2
    obtain ⟨id1, election1, post, r, hreq1, hfind1, hact, _, hpost, hcand, hins, hu, he, hp⟩ :=
      submitVote_success_inv v env voter req s st msg receipt hs
    have hidd : id1 = id := by
      rw [hreq] at hreq1
      cases hreq1
      rfl
    subst hidd
    rw [hfind] at hfind1
    cases hfind1
    obtain ⟨hv, hel, _, _, _⟩ := insertVote_votes s _ r hins
    have hfind2 : (submitVote v env voter req s).store.findElection id1 = some election := by
      unfold Store.findElection
      rw [hel]
      exact hfind
    have hsome : ((submitVote v env voter req s).store.findVote voter.id id1
        req.postIndex).isSome = true := by
      unfold Store.findVote
      rw [hv, List.find?_isSome]
      exact ⟨r, by simp, by simp [hu, he, hp]⟩
    obtain ⟨existing, hex⟩ := Option.isSome_iff_exists.mp hsome
    exact submitVote_existing_vote v env2 voter req _ id1 election post existing hreq hfind2
      hact hexp2 hpost hcand hex

/-- C5 witness: the vote of `sampleVoteCall` is accepted once and rejected as a repeated
vote the second time. -/
theorem submitVote_rejects_repeated_vote_witness :
    submitVote sampleVault sampleVoteCall.env sampleVoter sampleVoteCall.req sampleStoreVoted =
        ⟨sampleStoreVoted, .failure 400 "You have already voted for this post", []⟩ ∧
    submitVote sampleVault sampleVoteCall.env sampleVoter sampleVoteCall.req
        (submitVote sampleVault sampleVoteCall.env sampleVoter sampleVoteCall.req
          sampleStore).store =
        ⟨(submitVote sampleVault sampleVoteCall.env sampleVoter sampleVoteCall.req
          sampleStore).store, .failure 400 "You have already voted for this post", []⟩ :=
  ⟨(submitVote_rejects_repeated_vote sampleVault sampleVoteCall.env sampleVoteCall.env
      sampleVoter sampleVoteCall.req sampleStoreVoted 7 sampleElection rfl (by decide)).1
      samplePresident sampleRecord rfl (by decide) (by decide) (by decide) (by decide),
   (submitVote_rejects_repeated_vote sampleVault sampleVoteCall.env sampleVoteCall.env
      sampleVoter sampleVoteCall.req sampleStore 7 sampleElection rfl (by decide)).2
      200 "Vote submitted successfully" ⟨7, "President", some "Bob", 2000, "sig1"⟩
      (by decide) (by decide)⟩

/-- C5 (as stated, refuted): the voter has a record for post 0 of the active, unexpired
election, and a further submission for post 0 naming candidate 5 of 2 is answered with
400 `Invalid candidate index`, not with the repeated-vote conflict. -/
theorem submitVote_existing_vote_invalid_candidate :
    (sampleStoreVoted.findVote 2 7 0).isSome = true ∧
    sampleStoreVoted.findElection 7 = some sampleElection ∧
    sampleElection.isActive = true ∧ dateAfter 2000 sampleElection.endDate = false ∧
    (submitVote sampleVault (sampleVoteEnv 2000 (.ok "sig2")) sampleVoter
        { electionId := .valid 7, postIndex := 0, candidateIndex := 5 }
        sampleStoreVoted).reply = .failure 400 "Invalid candidate index" ∧
    (submitVote sampleVault (sampleVoteEnv 2000 (.ok "sig2")) sampleVoter
        { electionId := .valid 7, postIndex := 0, candidateIndex := 5 }
        sampleStoreVoted).reply ≠ .failure 400 "You have already voted for this post" := by
  decide

/-! ## Index validation and the single active election -/

/-- C6 (the code at the failing input): with candidate index -1 for post 0 the range
validation passes, the vote is submitted to the ledger and, the ledger accepting it, a vote
record with candidate index -1 is stored and the response is 200; with post index -1 the
response is 500 `Error submitting vote`, not a 400 validation response. -/
theorem submitVote_negative_index_not_rejected :
    (submitVote sampleVault (sampleVoteEnv 2000 (.ok "sig1")) sampleVoter
        { electionId := .valid 7, postIndex := 0, candidateIndex := -1 } sampleStore).reply =
      .success 200 "Vote submitted successfully"
        { electionId := 7, postTitle := "President", candidateName := none,
          timestamp := 2000, transactionId := "sig1" } ∧
    (submitVote sampleVault (sampleVoteEnv 2000 (.ok "sig1")) sampleVoter
        { electionId := .valid 7, postIndex := 0, candidateIndex := -1 } sampleStore).calls =
      [.submitVote sampleKeyText 0 (-1)] ∧
    (submitVote sampleVault (sampleVoteEnv 2000 (.ok "sig1")) sampleVoter
        { electionId := .valid 7, postIndex := 0, candidateIndex := -1 }
        sampleStore).store.votes =
      [{ userId := 2, electionId := 7, postIndex := 0, candidateIndex := -1,
         transactionId := "sig1", timestamp := 2000, voterPublicKey := "voterWallet" }] ∧
    (submitVote sampleVault (sampleVoteEnv 2000 (.ok "sig1")) sampleVoter
        { electionId := .valid 7, postIndex := -1, candidateIndex := 0 } sampleStore).reply =
      .failure 500 "Error submitting vote" := by
  decide

/-- C4 (the code at the failing input): from the empty store, two elections are configured
and then started one after the other.  While the first election is active the second start
is answered 200 when the ledger accepts it, and the store then holds two active elections;
when the ledger rejects it the answer is the 400 of a failed ledger call.  No answer comes
from a check for another active election. -/
theorem two_elections_active_after_two_starts :
    ((runOps sampleVault (twoStarts.take 3) Store.empty).activeElections.map
        (fun e => e.id)) = [1] ∧
    (startElection sampleVault (sampleLifecycleEnv 2000) sampleAdmin (.valid 2)
        (runOps sampleVault (twoStarts.take 3) Store.empty)).reply.status = 200 ∧
    ((runOps sampleVault twoStarts Store.empty).activeElections.map (fun e => e.id)) =
      [1, 2] ∧
    (startElection sampleVault { now := 2000, ledger := .error "rejected" } sampleAdmin
        (.valid 2) (runOps sampleVault (twoStarts.take 3) Store.empty)).reply =
      .failure 400 "Failed to start election on blockchain" := by
  decide

/-! ## Reclaim trigger -/

theorem insertVote_findAdmin (s s1 : Store) (r : VoteRecord) (h : s.insertVote r = some s1) :
    s1.findAdmin = s.findAdmin := by
  obtain ⟨_, _, hu, _, _⟩ := insertVote_votes s s1 r h
  unfold Store.findAdmin
  rw [hu]

/-- The shape of a successful `submitVote`: the record inserted, the response and the ledger
calls (the vote submission, then the calls of the reclaim when the count test holds). -/
theorem submitVote_success_form (v : Vault) (env : VoteEnv) (voter : User) (req : VoteRequest)
    (s : Store) (st : Nat) (msg : String) (receipt : VoteReceipt)
    (h : (submitVote v env voter req s).reply = .success st msg receipt) :
    ∃ id election post key tx, req.electionId = .valid id ∧
      s.findElection id = some election ∧
      jsIndex election.posts req.postIndex = some post ∧
      decryptWalletSecret v voter.walletSecretKey = .ok key ∧ env.vote = .ok tx ∧
      s.insertVote
          { userId := voter.id, electionId := id, postIndex := req.postIndex,
            candidateIndex := req.candidateIndex, transactionId := tx,
            timestamp := env.recordTime, voterPublicKey := voter.walletPublicKey } =
        some (submitVote v env voter req s).store ∧
      (submitVote v env voter req s).reply =
        .success 200 "Vote submitted successfully"
          { electionId := id, postTitle := post.title,
            candidateName := jsIndex post.candidates req.candidateIndex,
            timestamp := env.recordTime, transactionId := tx } ∧
      (submitVote v env voter req s).calls =
        .submitVote key req.postIndex req.candidateIndex ::
          (if (submitVote v env voter req s).store.countVotes voter.id id =
              election.posts.length then
            match (submitVote v env voter req s).store.findAdmin with
            | some admin =>
              if admin.walletPublicKey ≠ "" then
                (sendAllSolFromUserToAdmin env.reclaim key admin.walletPublicKey).2
              else []
            | none => []
          else []) := by
  unfold submitVote at h
  split at h
  · cases h
  · cases h
  · rename_i electionId hid
    split at h
    · cases h
    · rename_i election hfind
      have hidd := findElection_id s _ _ hfind
      split at h
      · cases h
      · rename_i hact
        split at h
        · cases h
        · rename_i hexp
          split at h
          · cases h
          · rename_i hpi
            split at h
            · cases h
            · rename_i post hpost
              split at h
              · cases h
              · rename_i hci
                unfold submitVoteCommit at h
                split at h
                · cases h
                · rename_i hfv
                  split at h
                  · cases h
                  · rename_i key hkey
                    split at h
                    · cases h
                    · rename_i tx htx
                      split at h
                      · cases h
                      · rename_i s1 hins
                        have hout : submitVote v env voter req s =
                            submitVoteCommit v env voter election post req.postIndex
                              req.candidateIndex s := by
                          unfold submitVote
                          simp only [hid, hfind, hact, hexp, hpi, hpost, hci]
                          simp
                        refine ⟨electionId, election, post, key, tx, hid, hfind, hpost, hkey,
                          htx, ?_, ?_, ?_⟩
                        · rw [hout]
                          simp only [submitVoteCommit, hfv, hkey, htx, hins]
                          simp [← hidd, hins]
                        · rw [hout]
                          simp only [submitVoteCommit, hfv, hkey, htx, hins]
                          simp [hidd]
                        · rw [hout]
                          simp only [submitVoteCommit, hfv, hkey, htx, hins]
                          simp [hidd]

/-- C11: for a successful `submitVote`, an operator account with a public address existing,
the ledger calls of the request are the vote submission followed by the calls of
`sendAllSolFromUserToAdmin` when the voter's record count for the election, taken after
the insertion, equals the number of posts, and the vote submission alone otherwise; so
with a ledger that answers balance `B` and fee `F`, `B > F`, the reclaim transfer is
issued iff the count equals the number of posts. -/
theorem submitVote_reclaim_iff_all_posts_voted (v : Vault) (env : VoteEnv) (voter : User)
    (req : VoteRequest) (s : Store) (st : Nat) (msg : String) (receipt : VoteReceipt)
    (admin : User)
    (hs : (submitVote v env voter req s).reply = .success st msg receipt)
    (hadmin : s.findAdmin = some admin) (hpub : admin.walletPublicKey ≠ "") :
    ∃ id election key, req.electionId = .valid id ∧ s.findElection id = some election ∧
      decryptWalletSecret v voter.walletSecretKey = .ok key ∧
      ((submitVote v env voter req s).store.countVotes voter.id id = election.posts.length →
        (submitVote v env voter req s).calls =
          .submitVote key req.postIndex req.candidateIndex ::
            (sendAllSolFromUserToAdmin env.reclaim key admin.walletPublicKey).2) ∧
      ((submitVote v env voter req s).store.countVotes voter.id id ≠ election.posts.length →
        (submitVote v env voter req s).calls =
          [.submitVote key req.postIndex req.candidateIndex]) ∧
      (∀ B F : Int, env.reclaim.keypair = .ok () → env.reclaim.balance = .ok B →
        env.reclaim.fee = .ok F → F < B →
        (LedgerCall.transfer key admin.walletPublicKey (B - F) ∈
            (submitVote v env voter req s).calls ↔
          (submitVote v env voter req s).store.countVotes voter.id id =
            election.posts.length)) := by
  obtain ⟨id, election, post, key, tx, hid, hfind, _, hkey, _, hins, _, hcalls⟩ :=
    submitVote_success_form v env voter req s st msg receipt hs
  have hfa : (submitVote v env voter req s).store.findAdmin = some admin := by
    rw [insertVote_findAdmin s _ _ hins, hadmin]
  rw [hfa] at hcalls
  simp only [hpub, ne_eq, not_false_eq_true, if_true] at hcalls
  refine ⟨id, election, key, hid, hfind, hkey, ?_, ?_, ?_⟩
  · intro hc
    rw [hcalls, if_pos hc]
  · intro hc
    rw [hcalls, if_neg hc]
  · intro B F hk hb hf hlt
    have hpos : ¬ B - F ≤ 0 := by omega
    have htr : (sendAllSolFromUserToAdmin env.reclaim key admin.walletPublicKey).2 =
        [.transfer key admin.walletPublicKey (B - F)] := by
      unfold sendAllSolFromUserToAdmin
      simp only [hk, hb, hf, hpos, if_false]
      cases env.reclaim.send (B - F) <;> rfl
    rw [hcalls]
    by_cases hc : (submitVote v env voter req s).store.countVotes voter.id id =
        election.posts.length
    · simp [hc, htr]
    · simp [hc]

/-- C11 witness: the election has two posts; the first vote of the voter issues the vote
submission only, the second issues the vote submission and the reclaim transfer. -/
theorem submitVote_reclaim_iff_all_posts_voted_witness :
    (submitVote sampleVault sampleVoteCall.env sampleVoter sampleVoteCall.req
        sampleStore).calls = [.submitVote sampleKeyText 0 1] ∧
    (submitVote sampleVault sampleVoteCall2.env sampleVoter sampleVoteCall2.req
        sampleStoreVoted).calls =
      [.submitVote sampleKeyText 1 2, .transfer sampleKeyText "adminWallet" 2095000] ∧
    (∃ id election key, sampleVoteCall2.req.electionId = .valid id ∧
      sampleStoreVoted.findElection id = some election ∧
      decryptWalletSecret sampleVault sampleVoter.walletSecretKey = .ok key ∧
      (LedgerCall.transfer key sampleAdmin.walletPublicKey (2100000 - 5000) ∈
          (submitVote sampleVault sampleVoteCall2.env sampleVoter sampleVoteCall2.req
            sampleStoreVoted).calls ↔
        (submitVote sampleVault sampleVoteCall2.env sampleVoter sampleVoteCall2.req
            sampleStoreVoted).store.countVotes sampleVoter.id id = election.posts.length)) := by
  refine ⟨by decide, by decide, ?_⟩
  obtain ⟨id, election, key, h1, h2, h3, _, _, h6⟩ :=
    submitVote_reclaim_iff_all_posts_voted sampleVault sampleVoteCall2.env sampleVoter
      sampleVoteCall2.req sampleStoreVoted 200 "Vote submitted successfully"
      ⟨7, "Secretary", some "Ed", 3000, "sig2"⟩ sampleAdmin (by decide) (by decide) (by decide)
  exact ⟨id, election, key, h1, h2, h3, h6 2100000 5000 rfl rfl rfl (by decide)⟩

/-- The response and the store left by `submitVote` do not depend on the ledger answers to
the reclaim. -/
theorem submitVote_reclaim_irrelevant (v : Vault) (env : VoteEnv) (voter : User)
    (req : VoteRequest) (s : Store) (r : TransferEnv) :
    (submitVote v { env with reclaim := r } voter req s).reply =
        (submitVote v env voter req s).reply ∧
    (submitVote v { env with reclaim := r } voter req s).store =
        (submitVote v env voter req s).store := by
  unfold submitVote
  split
  · exact ⟨rfl, rfl⟩
  · exact ⟨rfl, rfl⟩
  · split
    · exact ⟨rfl, rfl⟩
    · dsimp only
      split
      · exact ⟨rfl, rfl⟩
      · split
        · exact ⟨rfl, rfl⟩
        · split
          · exact ⟨rfl, rfl⟩
          · split
            · exact ⟨rfl, rfl⟩
            · split
              · exact ⟨rfl, rfl⟩
              · unfold submitVoteCommit
                dsimp only
                split
                · exact ⟨rfl, rfl⟩
                · split
                  · exact ⟨rfl, rfl⟩
                  · split
                    · exact ⟨rfl, rfl⟩
                    · split
                      · exact ⟨rfl, rfl⟩
                      · exact ⟨rfl, rfl⟩

/-- C12: when the ledger accepts the vote submission (transaction `tx`), the response of
`submitVote` and the store it leaves are the same for any two outcomes of the reclaim
(transfer accepted, insufficient balance, ledger failure); a successful response carries
`tx`, and so does the record it persisted. -/
theorem submitVote_decoupled_from_reclaim (v : Vault) (env : VoteEnv) (voter : User)
    (req : VoteRequest) (s : Store) (r1 r2 : TransferEnv) (tx : String)
    (hvote : env.vote = .ok tx) :
    (submitVote v { env with reclaim := r1 } voter req s).reply =
        (submitVote v { env with reclaim := r2 } voter req s).reply ∧
    (submitVote v { env with reclaim := r1 } voter req s).store =
        (submitVote v { env with reclaim := r2 } voter req s).store ∧
    (∀ st msg receipt,
      (submitVote v { env with reclaim := r1 } voter req s).reply =
          .success st msg receipt →
        receipt.transactionId = tx ∧
        ∃ rec ∈ (submitVote v { env with reclaim := r2 } voter req s).store.votes,
          rec ∉ s.votes ∧ rec.userId = voter.id ∧ rec.postIndex = req.postIndex ∧
            rec.candidateIndex = req.candidateIndex ∧ rec.transactionId = tx) := by
  have h1 := submitVote_reclaim_irrelevant v env voter req s r1
  have h2 := submitVote_reclaim_irrelevant v env voter req s r2
  refine ⟨by rw [h1.1, h2.1], by rw [h1.2, h2.2], ?_⟩
  intro st msg receipt hs
  rw [h1.1] at hs
  rw [h2.2]
  obtain ⟨id, election, post, key, tx1, _, _, _, _, htx, hins, hreply, _⟩ :=
    submitVote_success_form v env voter req s st msg receipt hs
  rw [hvote] at htx
  cases htx
  rw [hreply] at hs
  cases hs
  obtain ⟨hv, _, _, hnone, _⟩ := insertVote_votes s _ _ hins
  refine ⟨rfl,
    { userId := voter.id, electionId := id, postIndex := req.postIndex,
      candidateIndex := req.candidateIndex, transactionId := tx,
      timestamp := env.recordTime, voterPublicKey := voter.walletPublicKey },
    by rw [hv]; simp, ?_, rfl, rfl, rfl, rfl⟩
  intro hmem
  unfold Store.findVote at hnone
  have := List.find?_eq_none.mp hnone _ hmem
  simp at this

/-- C12 witness: the second vote of the voter triggers the reclaim; the response and the
store are the same with an empty wallet and with the transfer rejected by the ledger, and
the response is the success carrying `sig2`. -/
theorem submitVote_decoupled_from_reclaim_witness :
    ((submitVote sampleVault { sampleVoteCall2.env with reclaim := sampleTransferEnv 0 5000 }
          sampleVoter sampleVoteCall2.req sampleStoreVoted).reply =
        (submitVote sampleVault
          { sampleVoteCall2.env with reclaim := sampleRejectingTransferEnv }
          sampleVoter sampleVoteCall2.req sampleStoreVoted).reply ∧
      (submitVote sampleVault { sampleVoteCall2.env with reclaim := sampleTransferEnv 0 5000 }
          sampleVoter sampleVoteCall2.req sampleStoreVoted).store =
        (submitVote sampleVault
          { sampleVoteCall2.env with reclaim := sampleRejectingTransferEnv }
          sampleVoter sampleVoteCall2.req sampleStoreVoted).store) ∧
    (submitVote sampleVault { sampleVoteCall2.env with reclaim := sampleTransferEnv 0 5000 }
        sampleVoter sampleVoteCall2.req sampleStoreVoted).reply =
      .success 200 "Vote submitted successfully" ⟨7, "Secretary", some "Ed", 3000, "sig2"⟩ :=
  have h := submitVote_decoupled_from_reclaim sampleVault sampleVoteCall2.env sampleVoter
    sampleVoteCall2.req sampleStoreVoted (sampleTransferEnv 0 5000) sampleRejectingTransferEnv
    "sig2" rfl
  ⟨⟨h.1, h.2.1⟩, by decide⟩

/-! ## Election lifecycle -/

/-- C13: when the ledger call of `startElection`, `endElection` or `closeElection` fails,
the operation answers with a failure response and the store, hence every field of the
stored election, is as before the call. -/
theorem lifecycle_ledger_failure_leaves_store (v : Vault) (env : LifecycleEnv)
    (cenv : CloseEnv) (admin : User) (electionId : IdParam) (s : Store) (e1 e2 : String)
    (h1 : env.ledger = .error e1) (h2 : cenv.ledger = .error e2) :
    ((startElection v env admin electionId s).store = s ∧
      ∃ st msg, (startElection v env admin electionId s).reply = .failure st msg) ∧
    ((endElection v env admin electionId s).store = s ∧
      ∃ st msg, (endElection v env admin electionId s).reply = .failure st msg) ∧
    ((closeElection v cenv admin electionId s).store = s ∧
      ∃ st msg, (closeElection v cenv admin electionId s).reply = .failure st msg) := by
  refine ⟨?_, ?_, ?_⟩
  · unfold startElection
    simp only [h1]
    repeat' split
    all_goals exact ⟨rfl, _, _, rfl⟩
  · unfold endElection
    simp only [h1]
    repeat' split
    all_goals exact ⟨rfl, _, _, rfl⟩
  · unfold closeElection
    simp only [h2]
    repeat' split
    all_goals exact ⟨rfl, _, _, rfl⟩

/-- C13 witness: the ledger rejects the start of the configured election, the end of the
started election and the close of the ended election; each store is left as it was. -/
theorem lifecycle_ledger_failure_leaves_store_witness :
    (startElection sampleVault sampleFailingLifecycleEnv sampleAdmin (.valid 1)
        sampleStoreConfigured).store = sampleStoreConfigured ∧
    (endElection sampleVault sampleFailingLifecycleEnv sampleAdmin (.valid 1)
        sampleStoreStarted).store = sampleStoreStarted ∧
    (closeElection sampleVault { ledger := .error "rpc", tally := .ok sampleTally } sampleAdmin
        (.valid 1) sampleStoreEnded).store = sampleStoreEnded ∧
    (startElection sampleVault sampleFailingLifecycleEnv sampleAdmin (.valid 1)
        sampleStoreConfigured).reply = .failure 400 "Failed to start election on blockchain" ∧
    (endElection sampleVault sampleFailingLifecycleEnv sampleAdmin (.valid 1)
        sampleStoreStarted).reply = .failure 400 "Failed to end election on blockchain" ∧
    (closeElection sampleVault { ledger := .error "rpc", tally := .ok sampleTally } sampleAdmin
        (.valid 1) sampleStoreEnded).reply =
      .failure 400 "Failed to close election on blockchain" :=
  ⟨(lifecycle_ledger_failure_leaves_store sampleVault sampleFailingLifecycleEnv
      { ledger := .error "rpc", tally := .ok sampleTally } sampleAdmin (.valid 1)
      sampleStoreConfigured "rpc" "rpc" rfl rfl).1.1,
   (lifecycle_ledger_failure_leaves_store sampleVault sampleFailingLifecycleEnv
      { ledger := .error "rpc", tally := .ok sampleTally } sampleAdmin (.valid 1)
      sampleStoreStarted "rpc" "rpc" rfl rfl).2.1.1,
   (lifecycle_ledger_failure_leaves_store sampleVault sampleFailingLifecycleEnv
      { ledger := .error "rpc", tally := .ok sampleTally } sampleAdmin (.valid 1)
      sampleStoreEnded "rpc" "rpc" rfl rfl).2.2.1,
   by decide, by decide, by decide⟩

/-- C15: a request by an operator with a duration below 1 (0 in particular) is answered 400
`Duration must be at least 1 hour`; no ledger call is made and the store is unchanged. -/
theorem initializeElection_rejects_short_duration (v : Vault) (env : InitEnv) (admin : User)
    (req : InitRequest) (s : Store) (d : Int) (hadmin : admin.isAdmin = true)
    (hd : req.duration = some d) (hlt : d < 1) :
    (initializeElection v env admin req s).reply =
        .failure 400 "Duration must be at least 1 hour" ∧
    (initializeElection v env admin req s).calls = [] ∧
    (initializeElection v env admin req s).store = s := by
  unfold initializeElection
  simp [hadmin, hd, hlt]

/-- C15 witness: duration 0. -/
theorem initializeElection_rejects_short_duration_witness :
    (initializeElection sampleVault sampleInitEnv sampleAdmin
        { sampleInitRequest "A" with duration := some 0 } Store.empty).reply =
        .failure 400 "Duration must be at least 1 hour" ∧
    (initializeElection sampleVault sampleInitEnv sampleAdmin
        { sampleInitRequest "A" with duration := some 0 } Store.empty).calls = [] ∧
    (initializeElection sampleVault sampleInitEnv sampleAdmin
        { sampleInitRequest "A" with duration := some 0 } Store.empty).store = Store.empty :=
  initializeElection_rejects_short_duration sampleVault sampleInitEnv sampleAdmin
    { sampleInitRequest "A" with duration := some 0 } Store.empty 0 rfl rfl (by decide)

/-- C19: for an election stored as active and a request by its owning operator,
`closeElection` answers 400 `Cannot close an active election. End it first.`, issues no
ledger call (no close, no tally fetch) and leaves the store unchanged. -/
theorem closeElection_rejects_active (v : Vault) (env : CloseEnv) (admin : User)
    (s : Store) (id : ObjectId) (election : Election) (hadmin : admin.isAdmin = true)
    (hfind : s.findElection id = some election) (hown : election.adminId = admin.id)
    (hact : election.isActive = true) :
    (closeElection v env admin (.valid id) s).reply =
        .failure 400 "Cannot close an active election. End it first." ∧
    (closeElection v env admin (.valid id) s).calls = [] ∧
    (closeElection v env admin (.valid id) s).store = s := by
  unfold closeElection
  simp [hadmin, hfind, hown, hact]

/-- C19 witness: the close of the started election. -/
theorem closeElection_rejects_active_witness :
    (closeElection sampleVault { ledger := .ok "sigClose", tally := .ok sampleTally }
        sampleAdmin (.valid 1) sampleStoreStarted).reply =
        .failure 400 "Cannot close an active election. End it first." ∧
    (closeElection sampleVault { ledger := .ok "sigClose", tally := .ok sampleTally }
        sampleAdmin (.valid 1) sampleStoreStarted).calls = [] ∧
    (closeElection sampleVault { ledger := .ok "sigClose", tally := .ok sampleTally }
        sampleAdmin (.valid 1) sampleStoreStarted).store = sampleStoreStarted :=
  closeElection_rejects_active sampleVault { ledger := .ok "sigClose", tally := .ok sampleTally }
    sampleAdmin sampleStoreStarted 1
    { id := 1, electionPDA := "pda", title := "A", description := "",
      posts := [samplePresident], isActive := true, adminId := 1, startDate := some 1000,
      endDate := some 3601000, duration := 1, createdAt := 0, results := [] }
    rfl (by decide) rfl rfl

/-- What a successful `startElection` went through and left. -/
theorem startElection_success_inv (v : Vault) (env : LifecycleEnv) (admin : User)
    (electionId : IdParam) (s : Store) (st : Nat) (msg : String) (receipt : ElectionReceipt)
    (h : (startElection v env admin electionId s).reply = .success st msg receipt) :
    ∃ id election, electionId = .valid id ∧ s.findElection id = some election ∧
      election.isActive = false ∧
      (startElection v env admin electionId s).store =
        s.updateElection id (fun e =>
          { e with isActive := true, startDate := some env.now,
                   endDate := some (env.now + e.duration * 60 * 60 * 1000) }) := by
  unfold startElection at h ⊢
  split at h
  · cases h
  · cases h
  · rename_i id
    split at h
    · cases h
    · split at h
      · cases h
      · rename_i election hfind
        split at h
        · cases h
        · split at h
          · cases h
          · rename_i hact
            split at h
            · cases h
            · split at h
              · cases h
              · refine ⟨id, election, rfl, hfind, by simpa using hact, ?_⟩
                simp_all

/-- C17: after a successful `startElection` at instant `now` on an election of duration
`d` hours, the stored election is active, its start date is `now`, its end date is
`now + d * 3,600,000` milliseconds, and its other fields are as before. -/
theorem startElection_sets_dates (v : Vault) (env : LifecycleEnv) (admin : User)
    (electionId : IdParam) (s : Store) (st : Nat) (msg : String) (receipt : ElectionReceipt)
    (h : (startElection v env admin electionId s).reply = .success st msg receipt) :
    ∃ id election, electionId = .valid id ∧ s.findElection id = some election ∧
      (startElection v env admin electionId s).store.findElection id =
        some { election with isActive := true, startDate := some env.now,
                             endDate := some (env.now + election.duration * 3600000) } := by
  obtain ⟨id, election, hid, hfind, _, hstore⟩ :=
    startElection_success_inv v env admin electionId s st msg receipt h
  have hupd := findElection_updateElection s id (fun e =>
    { e with isActive := true, startDate := some env.now,
             endDate := some (env.now + e.duration * 60 * 60 * 1000) }) (fun _ => rfl)
  refine ⟨id, election, hid, hfind, ?_⟩
  rw [hstore, hupd, hfind]
  have e : election.duration * 60 * 60 * 1000 = election.duration * 3600000 := by omega
  simp only [Option.map_some', e]

/-- C17 witness: the configured one-hour election started at instant 1000 is stored active
with start date 1000 and end date 3,601,000. -/
theorem startElection_sets_dates_witness :
    ∃ id election, IdParam.valid 1 = .valid id ∧
      sampleStoreConfigured.findElection id = some election ∧
      (startElection sampleVault (sampleLifecycleEnv 1000) sampleAdmin (.valid 1)
        sampleStoreConfigured).store.findElection id =
        some { election with isActive := true, startDate := some (sampleLifecycleEnv 1000).now,
                             endDate := some ((sampleLifecycleEnv 1000).now
                               + election.duration * 3600000) } :=
  startElection_sets_dates sampleVault (sampleLifecycleEnv 1000) sampleAdmin (.valid 1)
    sampleStoreConfigured 200 "Election started successfully"
    ⟨{ id := 1, electionPDA := "pda", title := "A", description := "",
       posts := [samplePresident], isActive := true, adminId := 1, startDate := some 1000,
       endDate := some 3601000, duration := 1, createdAt := 0, results := [] }, false,
     "sigStart"⟩
    (by decide)

/-- What a successful `endElection` went through and left. -/
theorem endElection_success_inv (v : Vault) (env : LifecycleEnv) (admin : User)
    (electionId : IdParam) (s : Store) (st : Nat) (msg : String) (receipt : ElectionReceipt)
    (h : (endElection v env admin electionId s).reply = .success st msg receipt) :
    ∃ id election, electionId = .valid id ∧ s.findElection id = some election ∧
      election.isActive = true ∧
      (endElection v env admin electionId s).store =
        s.updateElection id (fun e => { e with isActive := false, endDate := some env.now }) := by
  unfold endElection at h ⊢
  split at h
  · cases h
  · split at h
    · cases h
    · cases h
    · rename_i id
      split at h
      · cases h
      · rename_i election hfind
        split at h
        · cases h
        · split at h
          · cases h
          · rename_i hact
            split at h
            · cases h
            · split at h
              · cases h
              · refine ⟨id, election, rfl, hfind, by simpa using hact, ?_⟩
                simp_all

/-- C18: on the end route (expiry middleware, then `endElection`, at the same instant
`now`), for an election whose end date was set at its start: when the end succeeds the
stored election is inactive with end date `now`, its other fields are as before, and
`now` is not later than the end date computed at start. -/
theorem endElectionRoute_shortens (v : Vault) (env : LifecycleEnv) (admin : User)
    (s : Store) (id : ObjectId) (election : Election) (plannedEnd : Instant)
    (out : Outcome ElectionReceipt) (st : Nat) (msg : String) (receipt : ElectionReceipt)
    (hfind : s.findElection id = some election)
    (hend : election.endDate = some plannedEnd)
    (hroute : endElectionRoute v env admin (.valid id) s = some out)
    (hs : out.reply = .success st msg receipt) :
    out.store.findElection id =
        some { election with isActive := false, endDate := some env.now } ∧
    env.now ≤ plannedEnd := by
  unfold endElectionRoute at hroute
  split at hroute
  · cases hroute
    cases hs
  · have hupd0 := findElection_updateElection s id (fun e => { e with isActive := false })
      (fun _ => rfl)
    have hmid : checkElectionExpiry env.now (.valid id) s =
        some (if election.isActive && election.endDate.isSome
            && dateAfter env.now election.endDate
          then s.updateElection id (fun e => { e with isActive := false }) else s) := by
      simp only [checkElectionExpiry, hfind]
      split <;> rfl
    rw [hmid] at hroute
    simp only [Option.some.injEq] at hroute
    subst hroute
    obtain ⟨id1, election1, hid1, hfind1, hact1, hstore⟩ :=
      endElection_success_inv v env admin (.valid id) _ st msg receipt hs
    cases hid1
    by_cases hexp : (election.isActive && election.endDate.isSome
        && dateAfter env.now election.endDate) = true
    · rw [if_pos hexp, hupd0, hfind] at hfind1
      simp only [Option.map_some', Option.some.injEq] at hfind1
      rw [← hfind1] at hact1
      cases hact1
    · simp only [if_neg hexp] at hfind1 hstore ⊢
      rw [hfind] at hfind1
      cases hfind1
      have hupd := findElection_updateElection s id
        (fun e => { e with isActive := false, endDate := some env.now }) (fun _ => rfl)
      refine ⟨?_, ?_⟩
      · rw [hstore, hupd, hfind]
        rfl
      · simpa [hact1, hend, dateAfter] using hexp

/-- C18 witness: the election started at 1000 with planned end 3,601,000 is ended through
the route at instant 5000. -/
theorem endElectionRoute_shortens_witness :
    (endElection sampleVault (sampleLifecycleEnv 5000) sampleAdmin (.valid 1)
        sampleStoreStarted).store.findElection 1 =
      some { id := 1, electionPDA := "pda", title := "A", description := "",
             posts := [samplePresident], isActive := false, adminId := 1,
             startDate := some 1000, endDate := some 5000, duration := 1, createdAt := 0,
             results := [] } ∧
    (sampleLifecycleEnv 5000).now ≤ 3601000 :=
  endElectionRoute_shortens sampleVault (sampleLifecycleEnv 5000) sampleAdmin
    sampleStoreStarted 1
    { id := 1, electionPDA := "pda", title := "A", description := "",
      posts := [samplePresident], isActive := true, adminId := 1, startDate := some 1000,
      endDate := some 3601000, duration := 1, createdAt := 0, results := [] }
    3601000
    (endElection sampleVault (sampleLifecycleEnv 5000) sampleAdmin (.valid 1)
      sampleStoreStarted)
    200 "Election ended successfully"
    ⟨{ id := 1, electionPDA := "pda", title := "A", description := "",
       posts := [samplePresident], isActive := false, adminId := 1, startDate := some 1000,
       endDate := some 5000, duration := 1, createdAt := 0, results := [] }, false,
     "sigStart"⟩
    (by decide) rfl rfl (by decide)

theorem mapM_processPost_none (ps : List PostInput) (p : PostInput) (hp : p ∈ ps)
    (hbad : processPost p = none) : ps.mapM processPost = none := by
  induction ps with
  | nil => cases hp
  | cons q qs ih =>
    rw [List.mapM_cons]
    rcases List.mem_cons.mp hp with rfl | hq
    · rw [hbad]
      rfl
    · rw [ih hq]
      cases processPost q <;> rfl

theorem processPost_bad (p : PostInput)
    (h : p.title = none ∨ p.title = some "" ∨ p.candidates = none) : processPost p = none := by
  unfold processPost
  rcases h with h | h | h
  · rw [h]
  · rw [h]
    cases p.candidates <;> simp
  · rw [h]
    cases p.title <;> rfl

/-- C16 (amended): a request by an operator with a valid duration in which some post has a
missing or empty title, or no candidate array, fails: the response is a failure, no ledger
call is made and the store is unchanged. -/
theorem initializeElection_rejects_malformed_post (v : Vault) (env : InitEnv) (admin : User)
    (req : InitRequest) (s : Store) (d : Int) (ps : List PostInput) (p : PostInput)
    (hadmin : admin.isAdmin = true) (hd : req.duration = some d) (hge : 1 ≤ d)
    (hps : req.posts = some ps) (hp : p ∈ ps)
    (hbad : p.title = none ∨ p.title = some "" ∨ p.candidates = none) :
    (∃ st msg, (initializeElection v env admin req s).reply = .failure st msg) ∧
    (initializeElection v env admin req s).calls = [] ∧
    (initializeElection v env admin req s).store = s := by
  have hproc : processPosts req.posts = none := by
    rw [hps]
    exact mapM_processPost_none ps p hp (processPost_bad p hbad)
  have h0 : ¬ d = 0 := by omega
  have h1 : ¬ d < 1 := by omega
  unfold initializeElection
  simp only [hadmin, hd, hproc, h0, h1]
  exact ⟨⟨_, _, rfl⟩, rfl, rfl⟩

/-- C16 witness: a post without a title. -/
theorem initializeElection_rejects_malformed_post_witness :
    (∃ st msg, (initializeElection sampleVault sampleInitEnv sampleAdmin
        sampleUntitledPostRequest Store.empty).reply = .failure st msg) ∧
    (initializeElection sampleVault sampleInitEnv sampleAdmin sampleUntitledPostRequest
        Store.empty).calls = [] ∧
    (initializeElection sampleVault sampleInitEnv sampleAdmin sampleUntitledPostRequest
        Store.empty).store = Store.empty :=
  initializeElection_rejects_malformed_post sampleVault sampleInitEnv sampleAdmin
    sampleUntitledPostRequest Store.empty 1
    [{ title := none, description := none, candidates := some [.name "Ada", .name "Bob"] }]
    { title := none, description := none, candidates := some [.name "Ada", .name "Bob"] }
    rfl rfl (by decide) rfl (by decide) (Or.inl rfl)

/-- C16 (as stated, refuted): a request by an operator whose post has a title and an empty
candidate list is answered 201; the ledger calls are made and the election is stored with
a post without candidates. -/
theorem initializeElection_accepts_empty_candidates :
    (initializeElection sampleVault sampleInitEnv sampleAdmin sampleEmptyCandidatesRequest
        Store.empty).reply.status = 201 ∧
    (initializeElection sampleVault sampleInitEnv sampleAdmin sampleEmptyCandidatesRequest
        Store.empty).calls =
      [.endElection sampleKeyText, .closeElection sampleKeyText,
        .initializeElection sampleKeyText [("President", [])]] ∧
    (initializeElection sampleVault sampleInitEnv sampleAdmin sampleEmptyCandidatesRequest
        Store.empty).store.elections.map (fun e => e.posts) =
      [[{ title := "President", candidates := [], candidateInfo := [], description := "" }]] := by
  decide

theorem findActiveElection_none (s : Store) (h : s.findActiveElection.isSome = false) :
    ∀ e ∈ s.elections, e.isActive = false := by
  intro e he
  unfold Store.findActiveElection at h
  have hn : s.elections.find? (fun e => e.isActive) = none := by
    cases hf : s.elections.find? (fun e => e.isActive) with
    | none => rfl
    | some x => rw [hf] at h; cases h
  have := List.find?_eq_none.mp hn e he
  simpa using this

/-- What `initializeElection` can do to the store: nothing, or append one configured election
after the ledger created the election account, no election being active. -/
theorem initializeElection_store_cases (v : Vault) (env : InitEnv) (admin : User)
    (req : InitRequest) (s : Store) :
    (initializeElection v env admin req s).store = s ∨
    (s.findActiveElection.isSome = false ∧
      ∃ tx pda election, env.create = .ok (tx, pda) ∧
        (initializeElection v env admin req s).store =
          { s with elections := s.elections ++ [election] } ∧
        election.isActive = false ∧ election.startDate = none ∧ election.endDate = none ∧
        election.electionPDA = pda ∧
        (initializeElection v env admin req s).reply =
          .success 201 "Election initialized successfully" ⟨election, false, tx⟩) := by
  unfold initializeElection
  split
  · left; rfl
  · split
    · left; rfl
    · split
      · left; rfl
      · split
        · left; rfl
        · split
          · left; rfl
          · split
            · left; rfl
            · rename_i hact
              split
              · left; rfl
              · rename_i tx pda hcreate
                split
                · split
                  · left; rfl
                  · right
                    exact ⟨by simpa using hact, tx, pda, _, hcreate, rfl, rfl, rfl, rfl, rfl, rfl⟩
                · left; rfl

/-- C14 (amended): when `initializeElection` changes the store, no election was active
before the call, the ledger created the election account, and the change is one appended
election that is inactive, without start and end date, with the account reference returned
by the ledger.  When an election is active the store is unchanged and no ledger call is
made, and a request by an operator that passes the duration check and the post processing,
the operator key being decryptable, is answered with the conflict response.  When the
ledger creation fails the store is unchanged. -/
theorem initializeElection_persists_configured (v : Vault) (env : InitEnv) (admin : User)
    (req : InitRequest) (s : Store) :
    ((initializeElection v env admin req s).store ≠ s →
      (∀ e ∈ s.elections, e.isActive = false) ∧
      ∃ tx pda election, env.create = .ok (tx, pda) ∧
        (initializeElection v env admin req s).store =
          { s with elections := s.elections ++ [election] } ∧
        election.isActive = false ∧ election.startDate = none ∧ election.endDate = none ∧
        election.electionPDA = pda) ∧
    (s.findActiveElection.isSome = true →
      (initializeElection v env admin req s).store = s ∧
      (initializeElection v env admin req s).calls = [] ∧
      (∀ d processed key, admin.isAdmin = true → req.duration = some d → 1 ≤ d →
        processPosts req.posts = some processed →
        decryptWalletSecret v admin.walletSecretKey = .ok key →
        (initializeElection v env admin req s).reply =
          .failure 400 ("Cannot initialize new election while another is active. "
            ++ "Please end the active election first."))) ∧
    (∀ e, env.create = .error e → (initializeElection v env admin req s).store = s) := by
  refine ⟨?_, ?_, ?_⟩
  · intro hne
    rcases initializeElection_store_cases v env admin req s with h | ⟨h0, tx, pda, e, h⟩
    · exact absurd h hne
    · exact ⟨findActiveElection_none s h0, tx, pda, e, h.1, h.2.1, h.2.2.1, h.2.2.2.1,
        h.2.2.2.2.1, h.2.2.2.2.2.1⟩
  · intro hact
    refine ⟨?_, ?_, ?_⟩
    · rcases initializeElection_store_cases v env admin req s with h | ⟨h0, _⟩
      · exact h
      · rw [hact] at h0
        cases h0
    · unfold initializeElection
      simp only [hact]
      repeat' split
      all_goals first | rfl | contradiction
    · intro d processed key hadmin hd hge hproc hkey
      have h0 : ¬ d = 0 := by omega
      have h1 : ¬ d < 1 := by omega
      unfold initializeElection
      simp [hadmin, hd, h0, h1, hproc, hkey, hact]
  · intro e he
    rcases initializeElection_store_cases v env admin req s with h | ⟨_, tx, pda, _, h, _⟩
    · exact h
    · rw [he] at h
      cases h

/-- C14 witness: the election configured in the empty store, and the same request while the
sample election is active. -/
theorem initializeElection_persists_configured_witness :
    ((∀ e ∈ Store.empty.elections, e.isActive = false) ∧
      ∃ tx pda election, sampleInitEnv.create = .ok (tx, pda) ∧
        (initializeElection sampleVault sampleInitEnv sampleAdmin (sampleInitRequest "A")
          Store.empty).store =
          { Store.empty with elections := Store.empty.elections ++ [election] } ∧
        election.isActive = false ∧ election.startDate = none ∧ election.endDate = none ∧
        election.electionPDA = pda) ∧
    (initializeElection sampleVault sampleInitEnv sampleAdmin (sampleInitRequest "B")
        sampleStore).reply =
      .failure 400 ("Cannot initialize new election while another is active. "
        ++ "Please end the active election first.") :=
  ⟨(initializeElection_persists_configured sampleVault sampleInitEnv sampleAdmin
      (sampleInitRequest "A") Store.empty).1 (by decide),
   ((initializeElection_persists_configured sampleVault sampleInitEnv sampleAdmin
      (sampleInitRequest "B") sampleStore).2.1 (by decide)).2.2 1
      [{ title := "President", description := "", candidates := [some "Ada", some "Bob"],
         candidateInfo := [(some "Ada", none), (some "Bob", none)] }]
      sampleKeyText rfl rfl (by decide) (by decide) (by decide)⟩

/-- C14 (as stated, refuted): while the sample election is active, a request by the operator
whose post has no title is answered 500 `Error initializing election`, and a request with
duration 0 is answered 400 `Duration must be at least 1 hour`; neither is the conflict
response. -/
theorem initializeElection_active_not_always_conflict :
    sampleStore.findActiveElection.isSome = true ∧
    (initializeElection sampleVault sampleInitEnv sampleAdmin sampleUntitledPostRequest
        sampleStore).reply = .failure 500 "Error initializing election" ∧
    (initializeElection sampleVault sampleInitEnv sampleAdmin
        { sampleInitRequest "B" with duration := some 0 } sampleStore).reply =
      .failure 400 "Duration must be at least 1 hour" := by
  decide

/-- What a successful `closeElection` went through and left. -/
theorem closeElection_success_inv (v : Vault) (env : CloseEnv) (admin : User)
    (electionId : IdParam) (s : Store) (st : Nat) (msg : String) (receipt : ElectionReceipt)
    (h : (closeElection v env admin electionId s).reply = .success st msg receipt) :
    ∃ id election tx, electionId = .valid id ∧ s.findElection id = some election ∧
      election.isActive = false ∧ env.ledger = .ok tx ∧
      (closeElection v env admin electionId s).store =
        s.updateElection id (fun e =>
          { e with results :=
              match env.tally with
              | .ok posts => posts.map (fun p => ⟨p.title, p.candidates, p.results⟩)
              | .error _ => [] }) ∧
      receipt.closed = true := by
  unfold closeElection at h ⊢
  split at h
  · cases h
  · split at h
    · cases h
    · cases h
    · rename_i id
      split at h
      · cases h
      · rename_i election hfind
        split at h
        · cases h
        · split at h
          · cases h
          · rename_i hact
            split at h
            · cases h
            · split at h
              · cases h
              · rename_i tx htx
                cases h
                refine ⟨id, election, tx, rfl, hfind, by simpa using hact, htx, ?_, rfl⟩
                simp_all

/-- C20 (what the code stores): after a `closeElection` whose ledger close succeeded, the
stored election is the election as it was with `results` replaced by the fetched tally,
or by the empty list when the fetch failed; the response reports `closed = true`, and no
other stored field, in particular no `closed` flag, is written. -/
theorem closeElection_stores_results_only (v : Vault) (env : CloseEnv) (admin : User)
    (electionId : IdParam) (s : Store) (st : Nat) (msg : String) (receipt : ElectionReceipt)
    (h : (closeElection v env admin electionId s).reply = .success st msg receipt) :
    ∃ id election, electionId = .valid id ∧ s.findElection id = some election ∧
      (closeElection v env admin electionId s).store.findElection id =
        some { election with results :=
                 match env.tally with
                 | .ok posts => posts
                 | .error _ => [] } ∧
      receipt.closed = true := by
  obtain ⟨id, election, tx, hid, hfind, _, _, hstore, hclosed⟩ :=
    closeElection_success_inv v env admin electionId s st msg receipt h
  have hupd := findElection_updateElection s id (fun e =>
    { e with results :=
        match env.tally with
        | .ok posts => posts.map (fun p => ⟨p.title, p.candidates, p.results⟩)
        | .error _ => [] }) (fun _ => rfl)
  refine ⟨id, election, hid, hfind, ?_, hclosed⟩
  rw [hstore, hupd, hfind]
  cases env.tally with
  | error e => rfl
  | ok posts =>
    have : posts.map (fun p => (⟨p.title, p.candidates, p.results⟩ : LedgerPost)) = posts :=
      List.map_id' posts
    simp only [Option.map_some', this]

/-- C20 witness: the close of the ended election with the tally fetched, and with the tally
fetch failing. -/
theorem closeElection_stores_results_only_witness :
    (closeElection sampleVault { ledger := .ok "sigClose", tally := .ok sampleTally }
        sampleAdmin (.valid 1) sampleStoreEnded).store.findElection 1 =
      some { id := 1, electionPDA := "pda", title := "A", description := "",
             posts := [samplePresident], isActive := false, adminId := 1,
             startDate := some 1000, endDate := some 5000, duration := 1, createdAt := 0,
             results := sampleTally } ∧
    (closeElection sampleVault { ledger := .ok "sigClose", tally := .error "rpc" }
        sampleAdmin (.valid 1) sampleStoreEnded).reply =
      .success 200 "Election closed successfully"
        ⟨{ id := 1, electionPDA := "pda", title := "A", description := "",
           posts := [samplePresident], isActive := false, adminId := 1,
           startDate := some 1000, endDate := some 5000, duration := 1, createdAt := 0,
           results := [] }, true, "sigClose"⟩ ∧
    (∃ id election, IdParam.valid 1 = .valid id ∧
      sampleStoreEnded.findElection id = some election ∧
      (closeElection sampleVault { ledger := .ok "sigClose", tally := .ok sampleTally }
          sampleAdmin (.valid 1) sampleStoreEnded).store.findElection id =
        some { election with results := sampleTally } ∧
      true = true) :=
  ⟨by decide, by decide,
   closeElection_stores_results_only sampleVault
    { ledger := .ok "sigClose", tally := .ok sampleTally } sampleAdmin (.valid 1)
    sampleStoreEnded 200 "Election closed successfully"
    ⟨{ id := 1, electionPDA := "pda", title := "A", description := "",
       posts := [samplePresident], isActive := false, adminId := 1,
       startDate := some 1000, endDate := some 5000, duration := 1, createdAt := 0,
       results := sampleTally }, true, "sigClose"⟩ (by decide)⟩

/-! ## Status reads -/

theorem findElection_updateElection_any (s : Store) (id target : ObjectId)
    (f : Election → Election) (hf : ∀ e, (f e).id = e.id) :
    (s.updateElection target f).findElection id =
      (s.findElection id).map (fun e => if e.id == target then f e else e) := by
  unfold Store.findElection Store.updateElection
  simp only
  induction s.elections with
  | nil => rfl
  | cons e es ih =>
    rw [List.map_cons, List.find?_cons, List.find?_cons]
    have hid : (if (e.id == target) = true then f e else e).id = e.id := by
      split
      · exact hf e
      · rfl
    rw [hid]
    cases he : e.id == id with
    | true => simp only [Option.map_some']
    | false => exact ih

/-- The status returned by `getStatus` and its effect on the store. -/
theorem getStatus_resolution (v : Vault) (now : Instant) (election : Election)
    (s : Store) :
    (getStatus v now election s).2.1 = referenceStatus now election ∧
    ((getStatus v now election s).2.1 = .ENDED ∧ election.isActive = true →
      (getStatus v now election s).1 =
          s.updateElection election.id (fun e => { e with isActive := false }) ∧
      (s.findElection election.id = some election →
        (getStatus v now election s).1.findElection election.id =
          some { election with isActive := false })) ∧
    (¬ ((getStatus v now election s).2.1 = .ENDED ∧ election.isActive = true) →
      (getStatus v now election s).1 = s ∧ (getStatus v now election s).2.2 = []) := by
  have hupd := findElection_updateElection s election.id
    (fun e => { e with isActive := false }) (fun _ => rfl)
  unfold getStatus referenceStatus dateAfter
  cases hend : election.endDate with
  | none =>
    cases hact : election.isActive <;> cases hstart : election.startDate <;> simp
  | some d =>
    by_cases hlt : d < now
    · cases hact : election.isActive
      · simp [hlt]
      · simp only [Option.isSome_some, Bool.true_and, decide_eq_true_eq, hlt, if_true,
          and_self, true_implies, not_true_eq_false, false_implies, and_true]
        refine ⟨by trivial, by trivial, fun hfind => ?_⟩
        rw [hupd, hfind]
        simp [hend]
    · cases hact : election.isActive <;> cases hstart : election.startDate <;> simp [hlt]

/-- C24: `getStatus` returns the status of the reference resolution for every election and
instant.  When the status is `ENDED` and the election is active the store afterwards is
the store with `isActive` of that election set to false, whatever the key decryption and
the ledger end call do, and a stored copy of the election becomes the same election with
`isActive = false`; in every other case the store is unchanged. -/
theorem getStatus_matches_reference (v : Vault) (now : Instant) (election : Election)
    (s : Store) :
    (getStatus v now election s).2.1 = referenceStatus now election ∧
    ((getStatus v now election s).2.1 = .ENDED ∧ election.isActive = true →
      (getStatus v now election s).1 =
          s.updateElection election.id (fun e => { e with isActive := false }) ∧
      (s.findElection election.id = some election →
        (getStatus v now election s).1.findElection election.id =
          some { election with isActive := false })) ∧
    (¬ ((getStatus v now election s).2.1 = .ENDED ∧ election.isActive = true) →
      (getStatus v now election s).1 = s ∧ (getStatus v now election s).2.2 = []) :=
  getStatus_resolution v now election s

/-- C24 witness: the started election read one millisecond after its end date, and the
configured election read at the same instant. -/
theorem getStatus_matches_reference_witness :
    (getStatus sampleVault 3601001 sampleElection sampleStore).2.1 = .ENDED ∧
    (getStatus sampleVault 3601001 sampleElection sampleStore).1.findElection 7 =
      some { sampleElection with isActive := false } ∧
    (getStatus sampleVault 3601001 sampleElection sampleStore).2.2 =
      [.endElection sampleKeyText] ∧
    (getStatus sampleVault 2000 sampleElection sampleStore).2.1 = .ACTIVE ∧
    (getStatus sampleVault 2000 sampleElection sampleStore).1 = sampleStore :=
  ⟨by decide,
   ((getStatus_matches_reference sampleVault 3601001 sampleElection sampleStore).2.1
      ⟨by decide, rfl⟩).2 (by decide),
   by decide, by decide,
   ((getStatus_matches_reference sampleVault 2000 sampleElection sampleStore).2.2
      (by decide)).1⟩

/-- One status read after the end date: `ENDED`, and the election is stored inactive; when
it was stored inactive already, the store is unchanged and no ledger call is issued. -/
theorem readStatus_after_endDate (v : Vault) (t : Instant) (id : ObjectId) (s : Store)
    (e : Election) (d : Instant) (hfind : s.findElection id = some e)
    (hend : e.endDate = some d) (ht : d < t) :
    (readStatus v t id s).2.1 = some .ENDED ∧
    (readStatus v t id s).1.findElection id = some { e with isActive := false } ∧
    (e.isActive = false → (readStatus v t id s).1 = s ∧ (readStatus v t id s).2.2 = []) := by
  have hid := findElection_id s id e hfind
  subst hid
  have h := getStatus_resolution v t e s
  have href : referenceStatus t e = .ENDED := by
    unfold referenceStatus
    rw [hend]
    simp [ht]
  have hst : (getStatus v t e s).2.1 = .ENDED := by rw [h.1, href]
  unfold readStatus
  simp only [hfind]
  refine ⟨by rw [hst], ?_, ?_⟩
  · cases hact : e.isActive with
    | true =>
      rw [(h.2.1 ⟨hst, hact⟩).2 hfind]
    | false =>
      have h3 := h.2.2 (by rw [hact]; simp)
      rw [h3.1, hfind]
      congr 1
      cases e
      simp_all
  · intro hact
    exact h.2.2 (by rw [hact]; simp)

/-- C25: for an election with an end date and status reads at instants all later than the
end date, every read returns `ENDED` and leaves the election stored inactive, and every
read after the first leaves the store as the first read left it and issues no ledger
call. -/
theorem readStatuses_idempotent (v : Vault) (id : ObjectId) (ts : List Instant) (s : Store)
    (e : Election) (d : Instant) (hfind : s.findElection id = some e)
    (hend : e.endDate = some d) (hts : ∀ t ∈ ts, d < t) :
    (∀ r ∈ readStatuses v id ts s,
      r.2.1 = some .ENDED ∧ r.1.findElection id = some { e with isActive := false }) ∧
    (∀ t1 rest, ts = t1 :: rest →
      ∀ r ∈ readStatuses v id rest (readStatus v t1 id s).1,
        r.1 = (readStatus v t1 id s).1 ∧ r.2.2 = []) := by
  have key : ∀ (ts : List Instant) (s : Store) (e : Election),
      s.findElection id = some e → e.endDate = some d → (∀ t ∈ ts, d < t) →
      (∀ r ∈ readStatuses v id ts s,
        r.2.1 = some .ENDED ∧ r.1.findElection id = some { e with isActive := false }) ∧
      (e.isActive = false → ∀ r ∈ readStatuses v id ts s, r.1 = s ∧ r.2.2 = []) := by
    intro ts
    induction ts with
    | nil =>
      intro s e _ _ _
      exact ⟨fun r hr => (by cases hr), fun _ r hr => (by cases hr)⟩
    | cons t rest ih =>
      intro s e hfind hend hts
      have h1 := readStatus_after_endDate v t id s e d hfind hend
        (hts t (List.mem_cons_self _ _))
      have ih1 := ih (readStatus v t id s).1 { e with isActive := false } h1.2.1 hend
        (fun x hx => hts x (List.mem_cons_of_mem _ hx))
      constructor
      · intro r hr
        rw [readStatuses, List.mem_cons] at hr
        rcases hr with rfl | hr
        · exact ⟨h1.1, h1.2.1⟩
        · exact ih1.1 r hr
      · intro hact r hr
        rw [readStatuses, List.mem_cons] at hr
        rcases hr with rfl | hr
        · exact h1.2.2 hact
        · have := ih1.2 rfl r hr
          rw [(h1.2.2 hact).1] at this
          exact this
  refine ⟨(key ts s e hfind hend hts).1, ?_⟩
  intro t1 rest hts1 r hr
  subst hts1
  have h1 := readStatus_after_endDate v t1 id s e d hfind hend
    (hts t1 (List.mem_cons_self _ _))
  exact (key rest (readStatus v t1 id s).1 { e with isActive := false } h1.2.1 hend
    (fun x hx => hts x (List.mem_cons_of_mem _ hx))).2 rfl r hr

/-- C25 witness: three reads of the active sample election after its end date. -/
theorem readStatuses_idempotent_witness :
    (readStatuses sampleVault 7 [3601001, 3601001, 4000000] sampleStore).map
        (fun r => (r.2.1, r.2.2)) =
      [(some .ENDED, [.endElection sampleKeyText]), (some .ENDED, []), (some .ENDED, [])] ∧
    (∀ r ∈ readStatuses sampleVault 7 [3601001, 3601001, 4000000] sampleStore,
      r.2.1 = some .ENDED ∧
      r.1.findElection 7 = some { sampleElection with isActive := false }) :=
  ⟨by decide,
   (readStatuses_idempotent sampleVault 7 [3601001, 3601001, 4000000] sampleStore
      sampleElection 3601000 (by decide) rfl (by decide)).1⟩

/-! ## Results, restart and close -/

theorem resultsKept_refl (s : Store) : ResultsKept s s :=
  fun _ e h => ⟨e, h, rfl⟩

theorem resultsKept_trans (s t u : Store) (h1 : ResultsKept s t) (h2 : ResultsKept t u) :
    ResultsKept s u := by
  intro id e he
  obtain ⟨e1, he1, hr1⟩ := h1 id e he
  obtain ⟨e2, he2, hr2⟩ := h2 id e1 he1
  exact ⟨e2, he2, hr2.trans hr1⟩

theorem resultsKept_update (s : Store) (target : ObjectId) (f : Election → Election)
    (hid : ∀ e, (f e).id = e.id) (hres : ∀ e, (f e).results = e.results) :
    ResultsKept s (s.updateElection target f) := by
  intro id e he
  rw [findElection_updateElection_any s id target f hid, he]
  refine ⟨_, rfl, ?_⟩
  show (if (e.id == target) = true then f e else e).results = e.results
  split
  · exact hres e
  · rfl

theorem resultsKept_of_elections (s t : Store) (h : t.elections = s.elections) :
    ResultsKept s t := by
  intro id e he
  refine ⟨e, ?_, rfl⟩
  unfold Store.findElection at he ⊢
  rw [h]
  exact he

theorem resultsKept_append (s : Store) (e0 : Election) :
    ResultsKept s { s with elections := s.elections ++ [e0] } := by
  intro id e he
  refine ⟨e, ?_, rfl⟩
  unfold Store.findElection at he ⊢
  rw [List.find?_append, he]
  rfl

theorem initializeElection_resultsKept (v : Vault) (env : InitEnv) (admin : User)
    (req : InitRequest) (s : Store) :
    ResultsKept s (initializeElection v env admin req s).store := by
  rcases initializeElection_store_cases v env admin req s with h | ⟨_, _, _, e0, _, h, _⟩
  · rw [h]; exact resultsKept_refl s
  · rw [h]; exact resultsKept_append s e0

theorem startElection_resultsKept (v : Vault) (env : LifecycleEnv) (admin : User)
    (electionId : IdParam) (s : Store) :
    ResultsKept s (startElection v env admin electionId s).store := by
  unfold startElection
  repeat' split
  all_goals first
    | exact resultsKept_refl s
    | exact resultsKept_update s _ _ (fun _ => rfl) (fun _ => rfl)

theorem endElection_resultsKept (v : Vault) (env : LifecycleEnv) (admin : User)
    (electionId : IdParam) (s : Store) :
    ResultsKept s (endElection v env admin electionId s).store := by
  unfold endElection
  repeat' split
  all_goals first
    | exact resultsKept_refl s
    | exact resultsKept_update s _ _ (fun _ => rfl) (fun _ => rfl)

theorem getStatus_resultsKept (v : Vault) (now : Instant) (election : Election) (s : Store) :
    ResultsKept s (getStatus v now election s).1 := by
  unfold getStatus
  repeat' split
  all_goals first
    | exact resultsKept_refl s
    | exact resultsKept_update s _ _ (fun _ => rfl) (fun _ => rfl)

theorem checkElectionExpiry_resultsKept (now : Instant) (electionId : IdParam) (s : Store) :
    ResultsKept s ((checkElectionExpiry now electionId s).getD s) := by
  unfold checkElectionExpiry
  repeat' split
  all_goals first
    | exact resultsKept_refl s
    | exact resultsKept_update s _ _ (fun _ => rfl) (fun _ => rfl)

theorem submitVote_resultsKept (v : Vault) (env : VoteEnv) (voter : User) (req : VoteRequest)
    (s : Store) : ResultsKept s (submitVote v env voter req s).store := by
  rcases submitVote_store_cases v env voter req s with h | ⟨id, h, _⟩ | ⟨r, key, _, h, _⟩
  · rw [h]; exact resultsKept_refl s
  · rw [h]; exact resultsKept_update s _ _ (fun _ => rfl) (fun _ => rfl)
  · exact resultsKept_of_elections s _ (insertVote_votes s _ r h).2.1

theorem run_resultsKept (v : Vault) (s : Store) (op : Op) (h : op.isClose = false) :
    ResultsKept s (op.run v s) := by
  cases op with
  | initializeElection env admin req => exact initializeElection_resultsKept v env admin req s
  | startElection env admin id => exact startElection_resultsKept v env admin id s
  | endElection env admin id => exact endElection_resultsKept v env admin id s
  | closeElection env admin id => cases h
  | statusRead now id =>
    show ResultsKept s (match s.findElection id with
      | some election => (getStatus v now election s).1
      | none => s)
    split
    · exact getStatus_resultsKept v now _ s
    · exact resultsKept_refl s
  | checkExpiry now id => exact checkElectionExpiry_resultsKept now id s
  | submitVote c => exact submitVote_resultsKept v c.env c.voter c.req s

/-- C21 (amended): no sequence of operations other than `closeElection` (initialize, start,
end, status read, expiry check, `submitVote`) changes the stored `results` of any
election: every election stored before the sequence is stored after it with the same
`results`. -/
theorem results_kept_without_close (v : Vault) (ops : List Op) (s : Store)
    (h : ∀ op ∈ ops, op.isClose = false) : ResultsKept s (runOps v ops s) := by
  unfold runOps
  induction ops generalizing s with
  | nil => exact resultsKept_refl s
  | cons op rest ih =>
    rw [List.foldl_cons]
    exact resultsKept_trans s _ _ (run_resultsKept v s op (h op (List.mem_cons_self _ _)))
      (ih _ (fun o ho => h o (List.mem_cons_of_mem _ ho)))

/-- C21 witness: after the close, a sequence without a close leaves the stored results of
the closed election as they were. -/
theorem results_kept_without_close_witness :
    ResultsKept sampleStoreClosed (runOps sampleVault sampleLaterOps sampleStoreClosed) ∧
    (sampleStoreClosed.findElection 1).map (fun e => e.results) = some sampleTally ∧
    ((runOps sampleVault sampleLaterOps sampleStoreClosed).findElection 1).map
      (fun e => e.results) = some sampleTally :=
  ⟨results_kept_without_close sampleVault sampleLaterOps sampleStoreClosed (by decide),
   by decide, by decide⟩

/-- C21 (as stated, refuted): the election was closed with its tally stored; a further
`closeElection` on it is answered 200 and replaces the stored results, here by the empty
list. -/
theorem second_close_overwrites_results :
    (sampleStoreClosed.findElection 1).map (fun e => e.results) = some sampleTally ∧
    (closeElection sampleVault { ledger := .ok "sigClose2", tally := .error "rpc" }
        sampleAdmin (.valid 1)
        (runOps sampleVault (sampleSecondClose.take 1) sampleStoreClosed)).reply.status = 200 ∧
    ((runOps sampleVault sampleSecondClose sampleStoreClosed).findElection 1).map
      (fun e => e.results) = some [] := by
  decide

/-- C22 (amended): for the owning operator, `startElection` is rejected with 400 `Election
is already active` while the election is active, and it succeeds on every election that
is not active, whether or not it was started before, when the operator key decrypts and
the ledger accepts the start; the stored election is then active with start date `now`
and end date `now + duration * 3,600,000`. -/
theorem startElection_guard_is_active_flag (v : Vault) (env : LifecycleEnv) (admin : User)
    (s : Store) (id : ObjectId) (election : Election) (hadmin : admin.isAdmin = true)
    (hfind : s.findElection id = some election) (hown : election.adminId = admin.id) :
    (election.isActive = true →
      (startElection v env admin (.valid id) s).reply =
          .failure 400 "Election is already active" ∧
      (startElection v env admin (.valid id) s).store = s ∧
      (startElection v env admin (.valid id) s).calls = []) ∧
    (election.isActive = false →
      ∀ key tx, decryptWalletSecret v admin.walletSecretKey = .ok key →
        env.ledger = .ok tx →
        (startElection v env admin (.valid id) s).reply.status = 200 ∧
        (startElection v env admin (.valid id) s).store.findElection id =
          some { election with isActive := true, startDate := some env.now,
                               endDate := some (env.now + election.duration * 3600000) }) := by
  constructor
  · intro hact
    unfold startElection
    simp [hadmin, hfind, hown, hact]
  · intro hact key tx hkey htx
    have hupd := findElection_updateElection s id (fun e =>
      { e with isActive := true, startDate := some env.now,
               endDate := some (env.now + e.duration * 60 * 60 * 1000) }) (fun _ => rfl)
    have e : election.duration * 60 * 60 * 1000 = election.duration * 3600000 := by omega
    unfold startElection
    simp only [hadmin, hfind, hown, hact, hkey, htx]
    refine ⟨by simp [Reply.status], ?_⟩
    simp only [Bool.not_true, Bool.false_eq_true, if_false, ne_eq, not_true_eq_false]
    rw [hupd, hfind]
    simp only [Option.map_some', e, hown]

/-- C22 witness: the started election is rejected, the ended election is started again. -/
theorem startElection_guard_is_active_flag_witness :
    (startElection sampleVault (sampleLifecycleEnv 6000) sampleAdmin (.valid 1)
        sampleStoreStarted).reply = .failure 400 "Election is already active" ∧
    (startElection sampleVault (sampleLifecycleEnv 6000) sampleAdmin (.valid 1)
        sampleStoreEnded).reply.status = 200 :=
  ⟨((startElection_guard_is_active_flag sampleVault (sampleLifecycleEnv 6000) sampleAdmin
      sampleStoreStarted 1
      { id := 1, electionPDA := "pda", title := "A", description := "",
        posts := [samplePresident], isActive := true, adminId := 1, startDate := some 1000,
        endDate := some 3601000, duration := 1, createdAt := 0, results := [] }
      rfl (by decide) rfl).1 rfl).1,
   ((startElection_guard_is_active_flag sampleVault (sampleLifecycleEnv 6000) sampleAdmin
      sampleStoreEnded 1
      { id := 1, electionPDA := "pda", title := "A", description := "",
        posts := [samplePresident], isActive := false, adminId := 1, startDate := some 1000,
        endDate := some 5000, duration := 1, createdAt := 0, results := [] }
      rfl (by decide) rfl).2 rfl sampleKeyText "sigStart" (by decide) rfl).1⟩

/-- C22 (as stated, refuted): the election was started at instant 1000 and ended at 5000;
a second `startElection` at 6000 is answered 200 and the election is stored active again,
with start date 6000. -/
theorem startElection_succeeds_twice :
    (startElection sampleVault (sampleLifecycleEnv 1000) sampleAdmin (.valid 1)
        sampleStoreConfigured).reply.status = 200 ∧
    (sampleStoreEnded.findElection 1).map (fun e => (e.isActive, e.startDate, e.endDate)) =
      some (false, some 1000, some 5000) ∧
    (startElection sampleVault (sampleLifecycleEnv 6000) sampleAdmin (.valid 1)
        sampleStoreEnded).reply.status = 200 ∧
    ((startElection sampleVault (sampleLifecycleEnv 6000) sampleAdmin (.valid 1)
        sampleStoreEnded).store.findElection 1).map
      (fun e => (e.isActive, e.startDate, e.endDate)) =
      some (true, some 6000, some 3606000) := by
  decide

/-- C23 (amended): whenever `closeElection` succeeds the election was stored as not active;
and for the owning operator it succeeds on every election that is not active, started or
not, when the operator key decrypts and the ledger accepts the close. -/
theorem closeElection_guard_is_active_flag (v : Vault) (env : CloseEnv) (admin : User)
    (electionId : IdParam) (s : Store) :
    (∀ st msg receipt,
      (closeElection v env admin electionId s).reply = .success st msg receipt →
      ∃ id election, electionId = .valid id ∧ s.findElection id = some election ∧
        election.isActive = false) ∧
    (∀ id election key tx, electionId = .valid id → admin.isAdmin = true →
      s.findElection id = some election → election.adminId = admin.id →
      election.isActive = false → decryptWalletSecret v admin.walletSecretKey = .ok key →
      env.ledger = .ok tx →
      (closeElection v env admin electionId s).reply.status = 200) := by
  constructor
  · intro st msg receipt h
    obtain ⟨id, election, _, hid, hfind, hact, _⟩ :=
      closeElection_success_inv v env admin electionId s st msg receipt h
    exact ⟨id, election, hid, hfind, hact⟩
  · intro id election key tx hid hadmin hfind hown hact hkey htx
    unfold closeElection
    simp [hid, hadmin, hfind, hown, hact, hkey, htx, Reply.status]

/-- C23 witness: the close of the ended election succeeds. -/
theorem closeElection_guard_is_active_flag_witness :
    (closeElection sampleVault sampleCloseEnv sampleAdmin (.valid 1)
        sampleStoreEnded).reply.status = 200 :=
  (closeElection_guard_is_active_flag sampleVault sampleCloseEnv sampleAdmin (.valid 1)
    sampleStoreEnded).2 1
    { id := 1, electionPDA := "pda", title := "A", description := "",
      posts := [samplePresident], isActive := false, adminId := 1, startDate := some 1000,
      endDate := some 5000, duration := 1, createdAt := 0, results := [] }
    sampleKeyText "sigClose" rfl rfl (by decide) rfl rfl (by decide) rfl

/-- C23 (as stated, refuted): the configured election was never started (no start date);
`closeElection` on it is answered 200 and stores the fetched tally as its results. -/
theorem closeElection_closes_unstarted :
    (sampleStoreConfigured.findElection 1).map (fun e => (e.isActive, e.startDate)) =
      some (false, none) ∧
    (closeElection sampleVault sampleCloseEnv sampleAdmin (.valid 1)
        sampleStoreConfigured).reply.status = 200 ∧
    ((closeElection sampleVault sampleCloseEnv sampleAdmin (.valid 1)
        sampleStoreConfigured).store.findElection 1).map (fun e => e.results) =
      some sampleTally := by
  decide

/-! ## Batch distribution and reclaim amount -/

/-- Entry `i` of the loop of `sendSolToWallets` started at position `k`. -/
theorem sendSolToWalletsFrom_get (env : BatchEnv) (key : List Char) (lamports : Int)
    (addrs : List String) :
    ∀ (k i : Nat) (a : String), addrs.get? i = some a →
      (sendSolToWalletsFrom env key lamports k addrs).1.get? i =
        some ⟨some a,
          match env.publicKey a with
          | .error e => .error e
          | .ok _ => env.send (k + i) a⟩ := by
  induction addrs with
  | nil => intro k i a h; cases h
  | cons b rest ih =>
    intro k i a h
    cases i with
    | zero =>
      simp only [List.get?_cons_zero, Option.some.injEq] at h
      subst h
      unfold sendSolToWalletsFrom
      cases env.publicKey b <;> simp
    | succ j =>
      simp only [List.get?_cons_succ] at h
      have := ih (k + 1) j a h
      unfold sendSolToWalletsFrom
      cases env.publicKey b <;>
        simp only [List.get?_cons_succ, this, Nat.add_assoc, Nat.add_comm 1 j]

theorem sendSolToWalletsFrom_length (env : BatchEnv) (key : List Char) (lamports : Int)
    (addrs : List String) :
    ∀ k, (sendSolToWalletsFrom env key lamports k addrs).1.length = addrs.length := by
  induction addrs with
  | nil => intro k; rfl
  | cons b rest ih =>
    intro k
    unfold sendSolToWalletsFrom
    cases env.publicKey b <;> simp [ih]

theorem sendSolToWalletsFrom_calls (env : BatchEnv) (key : List Char) (lamports : Int)
    (addrs : List String) :
    ∀ k, (sendSolToWalletsFrom env key lamports k addrs).2 =
      (addrs.filter (fun a => decide (env.publicKey a = .ok ()))).map
        (fun a => LedgerCall.transfer key a lamports) := by
  induction addrs with
  | nil => intro k; rfl
  | cons b rest ih =>
    intro k
    unfold sendSolToWalletsFrom
    cases h : env.publicKey b <;> simp [ih, h]

/-- C26: with a decodable operator key, for every list of addresses and every outcome of
the individual transfers, the result list of `sendSolToWallets` has the length of the
address list; entry `i` carries address `i` and has `success = true` exactly when the
address was accepted and transfer `i` succeeded; and a transfer is submitted for every
accepted address, in order, whatever the outcomes of the transfers before it. -/
theorem sendSolToWallets_records_each_transfer (env : BatchEnv) (key : List Char)
    (addrs : List String) (lamports : Int) (hk : env.keypair = .ok ()) :
    (sendSolToWallets env key addrs lamports).1.length = addrs.length ∧
    (∀ i a, addrs.get? i = some a →
      ∃ entry, (sendSolToWallets env key addrs lamports).1.get? i = some entry ∧
        entry.address = some a ∧
        (entry.success = true ↔
          env.publicKey a = .ok () ∧ ∃ sig, env.send i a = .ok sig)) ∧
    (sendSolToWallets env key addrs lamports).2 =
      (addrs.filter (fun a => decide (env.publicKey a = .ok ()))).map
        (fun a => LedgerCall.transfer key a lamports) := by
  unfold sendSolToWallets
  simp only [hk]
  refine ⟨sendSolToWalletsFrom_length env key lamports addrs 0, ?_,
    sendSolToWalletsFrom_calls env key lamports addrs 0⟩
  intro i a h
  refine ⟨_, sendSolToWalletsFrom_get env key lamports addrs 0 i a h, rfl, ?_⟩
  simp only [BatchEntry.success, Nat.zero_add]
  cases hp : env.publicKey a with
  | error e => simp
  | ok u =>
    cases hs : env.send i a with
    | error e => simp
    | ok sig => simp

/-- C26 witness: three targets, the transfer to the second fails: two successes and one
failure, and the third transfer is submitted. -/
theorem sendSolToWallets_records_each_transfer_witness :
    (sendSolToWallets (sampleBatchEnv "w2") sampleKeyText ["w1", "w2", "w3"] 2100000).1 =
      [⟨some "w1", .ok "sig"⟩, ⟨some "w2", .error "rpc"⟩, ⟨some "w3", .ok "sig"⟩] ∧
    ((sendSolToWallets (sampleBatchEnv "w2") sampleKeyText ["w1", "w2", "w3"] 2100000).1.filter
      (fun e => e.success)).length = 2 ∧
    (sendSolToWallets (sampleBatchEnv "w2") sampleKeyText ["w1", "w2", "w3"] 2100000).2 =
      (["w1", "w2", "w3"].filter
        (fun a => decide ((sampleBatchEnv "w2").publicKey a = .ok ()))).map
        (fun a => LedgerCall.transfer sampleKeyText a 2100000) :=
  ⟨by decide, by decide,
   (sendSolToWallets_records_each_transfer (sampleBatchEnv "w2") sampleKeyText
      ["w1", "w2", "w3"] 2100000 rfl).2.2⟩

theorem airdropTargets_eq_reference (admin : User) (accounts : List Account) :
    airdropTargets admin accounts = referenceTargets admin.walletPublicKey accounts := by
  unfold airdropTargets referenceTargets
  induction accounts with
  | nil => rfl
  | cons a rest ih =>
    obtain ⟨pub, sec⟩ := a
    cases pub with
    | none =>
      rw [List.filter_cons_of_neg (by simp), List.filterMap_cons_none (by rfl)]
      exact ih
    | some p =>
      cases sec with
      | none =>
        rw [List.filter_cons_of_neg (by simp), List.filterMap_cons_none (by rfl)]
        exact ih
      | some k =>
        rw [List.filter_cons_of_pos (by simp)]
        by_cases h1 : jsTrim p = ""
        · rw [List.filter_cons_of_neg (by simp [Account.address, h1]),
            List.filterMap_cons_none (by simp [h1])]
          exact ih
        · by_cases h2 : jsTrim p = jsTrim admin.walletPublicKey
          · rw [List.filter_cons_of_neg (by simp [Account.address, h2]),
              List.filterMap_cons_none (by simp [h2])]
            exact ih
          · rw [List.filter_cons_of_pos (by simp [Account.address, h1, h2]),
              List.filterMap_cons_some (b := jsTrim p) (by simp [h1, h2]), List.map_cons, ih]
            rfl

theorem sendSolToWallets_calls_subset (env : BatchEnv) (key : List Char)
    (addrs : List String) (lamports : Int) :
    ∀ c ∈ (sendSolToWallets env key addrs lamports).2,
      ∃ a ∈ addrs, c = .transfer key a lamports := by
  intro c hc
  unfold sendSolToWallets at hc
  split at hc
  · cases hc
  · rw [sendSolToWalletsFrom_calls, List.mem_map] at hc
    obtain ⟨a, ha, rfl⟩ := hc
    exact ⟨a, (List.mem_filter.mp ha).1, rfl⟩

/-- The reference target list is the stated target list without the blank addresses. -/
theorem referenceTargets_eq_stated_filter (operatorAddress : String) (accounts : List Account) :
    referenceTargets operatorAddress accounts =
      (statedTargets operatorAddress accounts).filter (fun a => a != "") := by
  unfold referenceTargets statedTargets
  induction accounts with
  | nil => rfl
  | cons a rest ih =>
    obtain ⟨pub, sec⟩ := a
    cases pub with
    | none =>
      rw [List.filterMap_cons_none (by rfl), List.filterMap_cons_none (by rfl)]
      exact ih
    | some p =>
      cases sec with
      | none =>
        rw [List.filterMap_cons_none (by rfl), List.filterMap_cons_none (by rfl)]
        exact ih
      | some k =>
        by_cases h2 : jsTrim p = jsTrim operatorAddress
        · rw [List.filterMap_cons_none (by simp [h2]), List.filterMap_cons_none (by simp [h2])]
          exact ih
        · by_cases h1 : jsTrim p = ""
          · rw [List.filterMap_cons_none (by simp [h1]),
              List.filterMap_cons_some (b := jsTrim p) (by simp [h2]),
              List.filter_cons_of_neg (by simp [h1])]
            exact ih
          · rw [List.filterMap_cons_some (b := jsTrim p) (by simp [h1, h2]),
              List.filterMap_cons_some (b := jsTrim p) (by simp [h2]),
              List.filter_cons_of_pos (by simp [h1]), ih]

/-- C27 (amended): the addresses that `airdropToAllUsers` hands to the batch transfer are
the reference target list: the trimmed addresses of the accounts holding a public address
and an encrypted key, whose trimmed address is not blank and differs from the trimmed
address of the operator.  The operator address is not among them and every transfer
submitted goes to one of them.  With an empty target list the answer is 400 `No user
wallets found.` without a ledger call; for a caller that is not an operator it is 403
`Admin access required` without a ledger call.  The reference list is the stated list
without blank addresses. -/
theorem airdropToAllUsers_targets (v : Vault) (env : BatchEnv) (admin : User)
    (accounts : List Account) :
    airdropTargets admin accounts = referenceTargets admin.walletPublicKey accounts ∧
    jsTrim admin.walletPublicKey ∉ airdropTargets admin accounts ∧
    (∀ c ∈ (airdropToAllUsers v env admin accounts).2,
      ∃ key a, a ∈ referenceTargets admin.walletPublicKey accounts ∧
        c = .transfer key a 2100000) ∧
    (admin.isAdmin = true → referenceTargets admin.walletPublicKey accounts = [] →
      airdropToAllUsers v env admin accounts =
        (.failure 400 "No user wallets found.", [])) ∧
    (admin.isAdmin = false →
      airdropToAllUsers v env admin accounts = (.failure 403 "Admin access required", [])) ∧
    referenceTargets admin.walletPublicKey accounts =
      (statedTargets admin.walletPublicKey accounts).filter (fun a => a != "") := by
  have href := airdropTargets_eq_reference admin accounts
  refine ⟨href, ?_, ?_, ?_, ?_, referenceTargets_eq_stated_filter _ _⟩
  · intro hmem
    unfold airdropTargets at hmem
    rw [List.mem_map] at hmem
    obtain ⟨u, hu, heq⟩ := hmem
    have := (List.mem_filter.mp hu).2
    simp [heq] at this
  · intro c hc
    unfold airdropToAllUsers at hc
    split at hc
    · cases hc
    · split at hc
      · cases hc
      · split at hc
        · cases hc
        · rename_i key _
          obtain ⟨a, ha, hce⟩ := sendSolToWallets_calls_subset env key _ _ c hc
          exact ⟨key, a, href ▸ ha, hce⟩
  · intro hadmin hempty
    unfold airdropToAllUsers
    simp [hadmin, href, hempty]
  · intro hadmin
    unfold airdropToAllUsers
    simp [hadmin]

/-- C27 witness: of the sample documents the targets are `w1`, `w2` and `w3`; the operator
document, the documents without address or key and the blank address are left out. -/
theorem airdropToAllUsers_targets_witness :
    referenceTargets sampleAdmin.walletPublicKey sampleAccounts = ["w1", "w2", "w3"] ∧
    airdropTargets sampleAdmin sampleAccounts =
      referenceTargets sampleAdmin.walletPublicKey sampleAccounts ∧
    (airdropToAllUsers sampleVault (sampleBatchEnv "w2") sampleAdmin sampleAccounts).2 =
      [.transfer sampleKeyText "w1" 2100000, .transfer sampleKeyText "w2" 2100000,
        .transfer sampleKeyText "w3" 2100000] ∧
    airdropToAllUsers sampleVault (sampleBatchEnv "w2") sampleAdmin [] =
      (.failure 400 "No user wallets found.", []) ∧
    airdropToAllUsers sampleVault (sampleBatchEnv "w2") sampleVoter sampleAccounts =
      (.failure 403 "Admin access required", []) :=
  ⟨by decide,
   (airdropToAllUsers_targets sampleVault (sampleBatchEnv "w2") sampleAdmin sampleAccounts).1,
   by decide,
   (airdropToAllUsers_targets sampleVault (sampleBatchEnv "w2") sampleAdmin []).2.2.2.1
      rfl (by decide),
   (airdropToAllUsers_targets sampleVault (sampleBatchEnv "w2") sampleVoter
      sampleAccounts).2.2.2.2.1 rfl⟩

/-- C27 (as stated, refuted): a document with a key and an address made of blanks holds both
fields and its trimmed address differs from that of the operator, so it is in the stated
target list; `airdropToAllUsers` leaves it out and answers 400 `No user wallets found.` -/
theorem airdrop_blank_address_not_a_target :
    statedTargets sampleAdmin.walletPublicKey sampleBlankAccounts = [""] ∧
    airdropTargets sampleAdmin sampleBlankAccounts = [] ∧
    airdropToAllUsers sampleVault (sampleBatchEnv "w2") sampleAdmin sampleBlankAccounts =
      (.failure 400 "No user wallets found.", []) := by
  decide

/-- C28 (amended): percentage reclaim.  With balance `B`, quoted fee `F` and the double
`p`, the amount of `sendBackToAdmin` is `min (floor (fl (B * p))) (B - F)`, where
`fl (B * p)` is the product rounded to the nearest double.  For `0 ≤ B < 2 ^ 53` and
`p ≤ 1` the floor of the rounded product is the floor of the exact product or one more.
When the amount is positive exactly one transfer of that amount is submitted and the
balance left is at least the fee; when it is not positive the operation fails with the
insufficient-balance error and submits no transfer. -/
theorem sendBack_amount_formula (env : TransferEnv) (key : List Char) (admin : String)
    (p : Double) (B F : Int) (hk : env.keypair = .ok ()) (hb : env.balance = .ok B)
    (hf : env.fee = .ok F) :
    exactFloorMul B p.num p.den = ⌊((B * p.num : Int) : ℚ) / (p.den : ℚ)⌋ ∧
    (0 ≤ B → B < 2 ^ 53 → p.num ≤ p.den →
      exactFloorMul B p.num p.den ≤ floorMul B p ∧
      floorMul B p ≤ exactFloorMul B p.num p.den + 1) ∧
    (0 < min (floorMul B p) (B - F) →
      (sendBackToAdmin env key admin p).2 =
          [.transfer key admin (min (floorMul B p) (B - F))] ∧
      (sendBackToAdmin env key admin p).1 = env.send (min (floorMul B p) (B - F)) ∧
      B - min (floorMul B p) (B - F) ≥ F) ∧
    (min (floorMul B p) (B - F) ≤ 0 →
      sendBackToAdmin env key admin p = (.error "Insufficient balance to send.", [])) := by
  have hamt : (if B - floorMul B p < F then B - F else floorMul B p) =
      min (floorMul B p) (B - F) := by
    split
    · rw [min_eq_right (by omega)]
    · rw [min_eq_left (by omega)]
  refine ⟨?_, ?_, ?_, ?_⟩
  · unfold exactFloorMul
    exact (Rat.floor_intCast_div_natCast (B * p.num) p.den).symm
  · intro h0 h53 hp
    exact floorMul_bounds B p h0 h53 hp
  · intro hpos
    unfold sendBackToAdmin
    simp only [hk, hb, hf, hamt]
    have hn : ¬ min (floorMul B p) (B - F) ≤ 0 := by omega
    simp only [hn, if_false]
    refine ⟨?_, ?_, ?_⟩
    · cases env.send (min (floorMul B p) (B - F)) <;> rfl
    · cases env.send (min (floorMul B p) (B - F)) <;> rfl
    · have := min_le_right (floorMul B p) (B - F)
      omega
  · intro hle
    unfold sendBackToAdmin
    simp only [hk, hb, hf, hamt, hle, if_true]

/-- C28 witness: balance 2,100,000 and fee 5,000 at 0.9 give a transfer of 1,890,000, the
floor of the exact product; balance 10,000 and fee 5,000 give a transfer of 5,000. -/
theorem sendBack_amount_formula_witness :
    (sendBackToAdmin (sampleTransferEnv 2100000 5000) sampleKeyText "admin" ninetyPercent).2 =
      [.transfer sampleKeyText "admin" (min (floorMul 2100000 ninetyPercent) (2100000 - 5000))] ∧
    min (floorMul 2100000 ninetyPercent) (2100000 - 5000) = 1890000 ∧
    (exactFloorMul 2100000 ninetyPercent.num ninetyPercent.den ≤
        floorMul 2100000 ninetyPercent ∧
      floorMul 2100000 ninetyPercent ≤
        exactFloorMul 2100000 ninetyPercent.num ninetyPercent.den + 1) ∧
    (sendBackToAdmin (sampleTransferEnv 10000 5000) sampleKeyText "admin" ninetyPercent).2 =
      [.transfer sampleKeyText "admin" 5000] :=
  ⟨((sendBack_amount_formula (sampleTransferEnv 2100000 5000) sampleKeyText "admin"
      ninetyPercent 2100000 5000 rfl rfl rfl).2.2.1 (by decide)).1,
   by decide,
   (sendBack_amount_formula (sampleTransferEnv 2100000 5000) sampleKeyText "admin"
      ninetyPercent 2100000 5000 rfl rfl rfl).2.1 (by decide) (by decide) (by decide),
   by decide⟩

set_option maxRecDepth 4000 in
/-- C28 (as stated, refuted): with balance 6,000,000,000,000,004, fee 5,000 and the
fraction 0.9 the transfer is of 5,400,000,000,000,004, one more than
`min (floor (B * p)) (B - F)`, both for `p` the fraction 9/10 and for `p` the exact value
of the double 0.9.  With balance 100, fee 0 and the fraction 0.57 the transfer is of 56,
while `floor (100 * 57 / 100)` is 57. -/
theorem sendBack_amount_differs_from_exact_floor :
    (sendBackToAdmin (sampleTransferEnv 6000000000000004 5000) sampleKeyText "admin"
      ninetyPercent).2 = [.transfer sampleKeyText "admin" 5400000000000004] ∧
    min (exactFloorMul 6000000000000004 9 10) (6000000000000004 - 5000) =
      5400000000000003 ∧
    min (exactFloorMul 6000000000000004 ninetyPercent.num ninetyPercent.den)
      (6000000000000004 - 5000) = 5400000000000003 ∧
    (sendBackToAdmin (sampleTransferEnv 100 0) sampleKeyText "admin"
      (roundDouble 57 100)).2 = [.transfer sampleKeyText "admin" 56] ∧
    min (exactFloorMul 100 57 100) (100 - 0) = 57 := by
  decide

/-! ## Vote records in range -/

/-- What `submitVote` can do to the store, with the post of an inserted record. -/
theorem submitVote_store_cases_post (v : Vault) (env : VoteEnv) (voter : User)
    (req : VoteRequest) (s : Store) :
    ((submitVote v env voter req s).store = s) ∨
    (∃ id, (submitVote v env voter req s).store =
        s.updateElection id (fun e => { e with isActive := false })) ∨
    (∃ r election post, s.insertVote r = some (submitVote v env voter req s).store ∧
      s.findElection r.electionId = some election ∧
      jsIndex election.posts r.postIndex = some post ∧ r.userId = voter.id ∧
      req.electionId = .valid r.electionId) := by
  unfold submitVote
  split
  · left; rfl
  · left; rfl
  · rename_i electionId hid
    split
    · left; rfl
    · rename_i election hfind
      split
      · left; rfl
      · split
        · right; left; exact ⟨_, rfl⟩
        · split
          · left; rfl
          · split
            · left; rfl
            · rename_i post hpost
              split
              · left; rfl
              · unfold submitVoteCommit
                split
                · left; rfl
                · split
                  · left; rfl
                  · split
                    · left; rfl
                    · split
                      · left; rfl
                      · rename_i s1 hins
                        right; right
                        have hid2 : election.id = electionId := findElection_id s _ _ hfind
                        refine ⟨_, election, post, hins, ?_, hpost, rfl, ?_⟩
                        · simp only [hid2]; exact hfind
                        · simp only [hid2]; exact hid

theorem votesInRange_update (s : Store) (target : ObjectId) (f : Election → Election)
    (hid : ∀ e, (f e).id = e.id) (hposts : ∀ e, (f e).posts = e.posts)
    (h : VotesInRange s) : VotesInRange (s.updateElection target f) := by
  intro r hr
  obtain ⟨e, he, h0, h1⟩ := h r hr
  rw [findElection_updateElection_any s r.electionId target f hid, he]
  refine ⟨_, rfl, h0, ?_⟩
  have : (if (e.id == target) = true then f e else e).posts = e.posts := by
    split
    · exact hposts e
    · rfl
  rw [this]
  exact h1

theorem submitVote_votesInRange (v : Vault) (env : VoteEnv) (voter : User) (req : VoteRequest)
    (s : Store) (h : VotesInRange s) : VotesInRange (submitVote v env voter req s).store := by
  rcases submitVote_store_cases_post v env voter req s with
    hs | ⟨id, hs⟩ | ⟨r, election, post, hins, hfind, hpost, _, _⟩
  · rw [hs]; exact h
  · rw [hs]; exact votesInRange_update s id _ (fun _ => rfl) (fun _ => rfl) h
  · obtain ⟨hv, hel, _, _, _⟩ := insertVote_votes s _ r hins
    have hfe : ∀ id, (submitVote v env voter req s).store.findElection id =
        s.findElection id := by
      intro id
      unfold Store.findElection
      rw [hel]
    intro r1 hr1
    rw [hv, List.mem_append, List.mem_singleton] at hr1
    rw [hfe]
    rcases hr1 with hr1 | rfl
    · exact h r1 hr1
    · exact ⟨election, hfind, (jsIndex_some_lt _ _ _ hpost).1, (jsIndex_some_lt _ _ _ hpost).2⟩

/-- With unique records in range, a voter has at most as many records for an election as
the election has posts. -/
theorem countVotes_le_posts (s : Store) (hu : UniqueVotes s) (hr : VotesInRange s)
    (u id : ObjectId) (e : Election) (hfind : s.findElection id = some e) :
    s.countVotes u id ≤ e.posts.length := by
  unfold Store.countVotes
  set L := s.votes.filter (fun r => r.userId == u && r.electionId == id) with hL
  have hmem : ∀ r ∈ L, r ∈ s.votes ∧ r.userId = u ∧ r.electionId = id := by
    intro r hr1
    rw [hL, List.mem_filter] at hr1
    simpa using hr1
  have hpw : L.Pairwise (fun a b => ¬ (a.userId = b.userId ∧ a.electionId = b.electionId ∧
      a.postIndex = b.postIndex)) := List.Pairwise.sublist (List.filter_sublist _) hu
  have hnd : (L.map (fun r => r.postIndex.toNat)).Nodup := by
    unfold List.Nodup
    rw [List.pairwise_map]
    refine List.Pairwise.imp_of_mem ?_ hpw
    intro a b ha hb hab heq
    obtain ⟨hav, hau, hae⟩ := hmem a ha
    obtain ⟨hbv, hbu, hbe⟩ := hmem b hb
    obtain ⟨ea, hea, ha0, _⟩ := hr a hav
    obtain ⟨eb, heb, hb0, _⟩ := hr b hbv
    exact hab ⟨by rw [hau, hbu], by rw [hae, hbe], by omega⟩
  have hlt : ∀ x ∈ L.map (fun r => r.postIndex.toNat), x ∈ Finset.range e.posts.length := by
    intro x hx
    rw [List.mem_map] at hx
    obtain ⟨r, hr1, rfl⟩ := hx
    obtain ⟨hrv, _, hre⟩ := hmem r hr1
    obtain ⟨e1, he1, h0, h1⟩ := hr r hrv
    rw [hre, hfind] at he1
    cases he1
    rw [Finset.mem_range]
    omega
  have hcard : (L.map (fun r => r.postIndex.toNat)).toFinset.card ≤ e.posts.length := by
    have hsub : (L.map (fun r => r.postIndex.toNat)).toFinset ⊆
        Finset.range e.posts.length := by
      intro x hx
      exact hlt x (List.mem_toFinset.mp hx)
    simpa using Finset.card_le_card hsub
  rw [List.toFinset_card_of_nodup hnd, List.length_map] at hcard
  exact hcard

theorem runVotes_invariants (v : Vault) (calls : List VoteCall) (s : Store)
    (hu : UniqueVotes s) (hr : VotesInRange s) :
    UniqueVotes (runVotes v calls s) ∧ VotesInRange (runVotes v calls s) := by
  induction calls generalizing s with
  | nil => exact ⟨hu, hr⟩
  | cons c cs ih =>
    exact ih _ (submitVote_unique v c.env c.voter c.req s hu)
      (submitVote_votesInRange v c.env c.voter c.req s hr)

/-- C29: from a store whose vote records are unique per `(userId, electionId, postIndex)`
and refer to posts of their elections, in every store reached by `submitVote` calls each
vote record has `0 ≤ postIndex < number of posts of its election`, and no voter has more
records for an election than the election has posts; hence once a voter's count equals
the number of posts, a further `submitVote` of that voter for that election adds no
record. -/
theorem runVotes_votes_in_range (v : Vault) (calls : List VoteCall) (s : Store)
    (hu : UniqueVotes s) (hr : VotesInRange s) :
    VotesInRange (runVotes v calls s) ∧
    (∀ u id e, (runVotes v calls s).findElection id = some e →
      (runVotes v calls s).countVotes u id ≤ e.posts.length) ∧
    (∀ env voter req id e, req.electionId = .valid id →
      (runVotes v calls s).findElection id = some e →
      (runVotes v calls s).countVotes voter.id id = e.posts.length →
      (submitVote v env voter req (runVotes v calls s)).store.votes =
        (runVotes v calls s).votes) := by
  obtain ⟨hu1, hr1⟩ := runVotes_invariants v calls s hu hr
  refine ⟨hr1, fun u id e hfind => countVotes_le_posts _ hu1 hr1 u id e hfind, ?_⟩
  intro env voter req id e hreq hfind hcount
  generalize runVotes v calls s = t at hu1 hr1 hfind hcount ⊢
  rcases submitVote_store_cases_post v env voter req t with
    hs | ⟨id1, hs⟩ | ⟨r, election, post, hins, _, _, hru, hre⟩
  · rw [hs]
  · rw [hs]; rfl
  · exfalso
    obtain ⟨hv, hel, _, _, _⟩ := insertVote_votes t _ r hins
    have hu2 := submitVote_unique v env voter req t hu1
    have hr2 := submitVote_votesInRange v env voter req t hr1
    have hid : r.electionId = id := by
      rw [hreq] at hre
      cases hre
      rfl
    have hfind2 : (submitVote v env voter req t).store.findElection id = some e := by
      unfold Store.findElection
      rw [hel]
      exact hfind
    have hle := countVotes_le_posts _ hu2 hr2 voter.id id e hfind2
    have hinc : (submitVote v env voter req t).store.countVotes voter.id id =
        t.countVotes voter.id id + 1 := by
      unfold Store.countVotes
      rw [hv, List.filter_append, List.length_append]
      simp [hru, hid]
    omega

/-- C29 witness: after the two accepted votes of the voter in the two-post election the
count is 2, and a third submission adds no record. -/
theorem runVotes_votes_in_range_witness :
    (runVotes sampleVault [sampleVoteCall, sampleVoteCall2] sampleStore).countVotes 2 7 = 2 ∧
    VotesInRange (runVotes sampleVault [sampleVoteCall, sampleVoteCall2] sampleStore) ∧
    (submitVote sampleVault sampleVoteCall.env sampleVoter
        { electionId := .valid 7, postIndex := 1, candidateIndex := 0 }
        (runVotes sampleVault [sampleVoteCall, sampleVoteCall2] sampleStore)).store.votes =
      (runVotes sampleVault [sampleVoteCall, sampleVoteCall2] sampleStore).votes :=
  have h := runVotes_votes_in_range sampleVault [sampleVoteCall, sampleVoteCall2] sampleStore
    List.Pairwise.nil (fun r hr => by cases hr)
  ⟨by decide, h.1,
   h.2.2 sampleVoteCall.env sampleVoter
    { electionId := .valid 7, postIndex := 1, candidateIndex := 0 } 7 sampleElection rfl
    (by decide) (by decide)⟩

/-! ## Candidate normalisation -/

theorem processPost_names (post : PostInput) (t : String) (names : List String)
    (ht : post.title = some t) (hne : t ≠ "")
    (hc : post.candidates = some (names.map CandidateInput.name)) :
    processPost post =
      some ⟨t, (orNull post.description).getD "", names.map some,
        names.map (fun n => (some n, none))⟩ := by
  unfold processPost
  rw [ht, hc]
  simp only [hne, if_false]
  cases names with
  | nil => rfl
  | cons n rest => simp [List.map_map, Function.comp_def]

theorem processPost_objects (post : PostInput) (t : String)
    (objs : List (Option String × Option String))
    (ht : post.title = some t) (hne : t ≠ "")
    (hc : post.candidates = some (objs.map (fun o => CandidateInput.object o.1 o.2))) :
    processPost post =
      some ⟨t, (orNull post.description).getD "", objs.map (fun o => o.1),
        objs.map (fun o => (o.1, orNull o.2))⟩ := by
  unfold processPost
  rw [ht, hc]
  simp only [hne, if_false]
  cases objs with
  | nil => rfl
  | cons o rest => simp [List.map_map, Function.comp_def]

theorem initializeElection_gateway_posts (v : Vault) (env : InitEnv) (admin : User)
    (req : InitRequest) (s : Store) (processed : List ProcessedPost)
    (hp : processPosts req.posts = some processed) :
    ∀ key posts, LedgerCall.initializeElection key posts ∈
        (initializeElection v env admin req s).calls →
      posts = processed.map (fun p => (p.title, p.candidates)) := by
  have hcalls : (initializeElection v env admin req s).calls = [] ∨
      ∃ k, (initializeElection v env admin req s).calls =
        [.endElection k, .closeElection k,
          .initializeElection k (blockchainPosts processed)] := by
    unfold initializeElection
    simp only [hp]
    repeat' split
    all_goals first
      | (left; rfl)
      | (right; exact ⟨_, rfl⟩)
  intro key posts hmem
  rcases hcalls with h | ⟨k, h⟩
  · rw [h] at hmem
    cases hmem
  · rw [h] at hmem
    simp only [List.mem_cons, reduceCtorEq, LedgerCall.initializeElection.injEq,
      List.mem_nil_iff, or_false, false_or] at hmem
    rw [hmem.2]
    rfl

/-- C30 (amended): for a post with a non-empty title whose candidates are all bare names
or all objects, the processed post has `candidates` and `candidateInfo` of the input
length, in input order, with `candidateInfo[i].name = candidates[i]`; for bare names the
image is null, for objects it is the given `imageUrl` when that is a non-empty string and
null when it is absent or empty; and the list handed to the ledger is the list of titles
with the candidate name lists. -/
theorem processPost_normalises_candidates (post : PostInput) (t : String)
    (ht : post.title = some t) (hne : t ≠ "") :
    (∀ names : List String, post.candidates = some (names.map CandidateInput.name) →
      ∃ p, processPost post = some p ∧ p.title = t ∧
        p.candidates = names.map some ∧
        p.candidateInfo = names.map (fun n => (some n, none)) ∧
        p.candidates.length = names.length ∧ p.candidateInfo.length = names.length ∧
        p.candidateInfo.map (fun c => c.1) = p.candidates) ∧
    (∀ objs : List (Option String × Option String),
      post.candidates = some (objs.map (fun o => CandidateInput.object o.1 o.2)) →
      ∃ p, processPost post = some p ∧ p.title = t ∧
        p.candidates = objs.map (fun o => o.1) ∧
        p.candidateInfo = objs.map (fun o =>
          (o.1, match o.2 with
                | some u => if u = "" then none else some u
                | none => none)) ∧
        p.candidates.length = objs.length ∧ p.candidateInfo.length = objs.length ∧
        p.candidateInfo.map (fun c => c.1) = p.candidates) ∧
    (∀ (v : Vault) (env : InitEnv) (admin : User) (req : InitRequest) (s : Store)
        (processed : List ProcessedPost) (key : List Char)
        (posts : List (String × List (Option String))),
      processPosts req.posts = some processed →
      LedgerCall.initializeElection key posts ∈ (initializeElection v env admin req s).calls →
      posts = processed.map (fun p => (p.title, p.candidates))) := by
  refine ⟨?_, ?_, ?_⟩
  · intro names hc
    refine ⟨_, processPost_names post t names ht hne hc, rfl, rfl, rfl, ?_, ?_, ?_⟩
    · simp
    · simp
    · simp [List.map_map, Function.comp_def]
  · intro objs hc
    refine ⟨_, processPost_objects post t objs ht hne hc, rfl, rfl, ?_, ?_, ?_, ?_⟩
    · rfl
    · simp
    · simp
    · simp [List.map_map, Function.comp_def]
  · intro v env admin req s processed key posts hp hmem
    exact initializeElection_gateway_posts v env admin req s processed hp key posts hmem

/-- C30 witness: two bare names, and two objects of which one has an image. -/
theorem processPost_normalises_candidates_witness :
    (∃ p, processPost sampleNamesPost = some p ∧ p.title = "President" ∧
        p.candidates = [some "Ada", some "Bob"] ∧
        p.candidateInfo = [(some "Ada", none), (some "Bob", none)]) ∧
    processPost sampleObjectsPost =
      some ⟨"President", "", [some "Ada", some "Bob"],
        [(some "Ada", some "a.png"), (some "Bob", none)]⟩ := by
  refine ⟨?_, by decide⟩
  obtain ⟨p, h1, h2, h3, h4, _⟩ :=
    (processPost_normalises_candidates sampleNamesPost "President" rfl (by decide)).1
      ["Ada", "Bob"] rfl
  exact ⟨p, h1, h2, h3, h4⟩

/-- C30 (as stated, refuted): a candidate object given with the image `""` is processed to
an entry whose image is null, not the given value. -/
theorem processPost_empty_image_becomes_null :
    sampleEmptyImagePost.candidates = some [.object (some "Ada") (some "")] ∧
    processPost sampleEmptyImagePost =
      some ⟨"President", "", [some "Ada"], [(some "Ada", none)]⟩ ∧
    (some "" : Option String) ≠ none := by
  decide

end EVoting
